import Mathlib

set_option maxHeartbeats 1000000

/-!
Verification of the transaction-construction, canonical-encoding and multisig-merge core of
the js-algorand-sdk repository, as a shallow embedding in Lean.

Modelling conventions:
- Byte strings (Uint8Array) are lists of naturals; machine integers (JS bigint / number)
  are naturals with explicit bounds checks mirroring ensureUint64 and
  ensureSafeUnsignedInteger.
- Fallible code returns Except String.
- External collaborators that are out of scope for the core (the msgpack codec, the
  SHA-512/256 hash, the base32 codec and the Ed25519 primitive) are passed as explicit
  function parameters.  The textual address codec (encodeAddress / decodeAddress) is a
  bijection between a 32-byte public key and its checksummed base32 form, so address
  strings are modelled by the public-key bytes themselves and the codec by the identity;
  every comparison the source makes on encoded address strings is then a comparison of
  the underlying public keys.
- An Address value carries a public key and a derived checksum; the core only ever reads
  the publicKey component, so Address is modelled by its public-key bytes.
-/

/-- Byte strings are modelled as lists of naturals. -/
abbrev Bytes := List Nat

/-- Largest unsigned 64-bit value, the bound used by utils.ensureUint64. -/
def MAX_UINT64 : Nat := 18446744073709551615

/-- Largest JS safe integer, the bound used by utils.ensureSafeUnsignedInteger. -/
def MAX_SAFE_INTEGER : Nat := 9007199254740991

/-- Modelled from the spec: utils.ensureUint64 (utils/utils.js is not among the given
source files).  The spec requires every numeric to be coerced and bounds-checked into an
unsigned 64-bit value, rejecting negative, non-integer or overflowing inputs; inputs here
are naturals, so only the upper bound remains. -/
def ensureUint64 (n : Nat) : Except String Nat :=
  if n ≤ MAX_UINT64 then .ok n else .error "Value exceeds the uint64 range"

/-- Modelled from the spec: utils.ensureSafeUnsignedInteger (utils/utils.js is not among
the given source files).  Rejects values above the JS safe-integer bound. -/
def ensureSafeUnsignedInteger (n : Nat) : Except String Nat :=
  if n ≤ MAX_SAFE_INTEGER then .ok n else .error "Value is not a safe unsigned integer"

/-- Lifts ensureUint64 over an optional input, as optionalUint64 in the source. -/
def optionalUint64 (x : Option Nat) : Except String (Option Nat) :=
  match x with
  | none => .ok none
  | some n => (ensureUint64 n).map some

/-- Mirrors uint8ArrayIsEmpty: true when every byte is zero (vacuously true for []). -/
def uint8ArrayIsEmpty (l : Bytes) : Bool :=
  l.all (fun v => v == 0)

/-- The 32-byte all-zero public key, the zero address. -/
def ZERO_PK : Bytes := List.replicate 32 0

/-- Mirrors optionalAddress: absent stays absent, the zero address is rejected. -/
def optionalAddress (x : Option Bytes) : Except String (Option Bytes) :=
  match x with
  | none => .ok none
  | some a =>
    if uint8ArrayIsEmpty a then
      .error "Invalid use of the zero address. To omit this value, pass in undefined"
    else .ok (some a)

/-- Mirrors optionalFixedLengthByteArray: absent stays absent, a wrong length is an
error, an all-zero value of the right length is elided to absent. -/
def optionalFixedLengthByteArray (x : Option Bytes) (length : Nat) (name : String) :
    Except String (Option Bytes) :=
  match x with
  | none => .ok none
  | some bytes =>
    if bytes.length ≠ length then
      .error (name ++ " has the wrong fixed length")
    else if uint8ArrayIsEmpty bytes then
      .ok none
    else .ok (some bytes)

/-- Mirrors getKeyregKey: absent stays absent, a present key must have the exact
length (the base64-string input form is modelled by its decoded bytes). -/
def getKeyregKey (x : Option Bytes) (name : String) (length : Nat) :
    Except String (Option Bytes) :=
  match x with
  | none => .ok none
  | some bytes =>
    if bytes.length ≠ length then
      .error (name ++ " must have the required byte length")
    else .ok (some bytes)

/-- The seven transaction kinds, as TransactionType in the source. -/
inductive TransactionType where
  | pay
  | keyreg
  | acfg
  | axfer
  | afrz
  | appl
  | stpf
deriving DecidableEq, Repr

/-- Box reference as held by a constructed transaction. -/
structure TransactionBoxReference where
  appIndex : Nat
  name : Bytes
deriving DecidableEq, Repr

/-- Box reference in encoded form, the output of the box-reference translator. -/
structure EncodedBoxRef where
  i : Nat
  n : Bytes
deriving DecidableEq, Repr

/-- First index of a value in a list, used to model Array.prototype indexOf-style
search in the box-reference translator. -/
def indexOfFirst (a : Nat) : List Nat → Option Nat
  | [] => none
  | x :: xs => if x = a then some 0 else (indexOfFirst a xs).map (· + 1)

/-- Modelled from the spec: the box-reference translator translateBoxReferences lives in
boxStorage.js, which is not among the given source files.  Per section 4.2 of the spec and
the decoder comment in the source, a reference whose appIndex occurs in foreignApps is
encoded with the 1-based index of its first occurrence there; otherwise an appIndex equal
to 0 or to the called app id is encoded as index 0, and any other value is rejected. -/
def translateBoxReferences (boxes : List TransactionBoxReference) (foreignApps : List Nat)
    (appId : Nat) : Except String (List EncodedBoxRef) :=
  boxes.mapM (fun b =>
    match indexOfFirst b.appIndex foreignApps with
    | some k => .ok { i := k + 1, n := b.name }
    | none =>
      if b.appIndex = 0 ∨ b.appIndex = appId then .ok { i := 0, n := b.name }
      else .error "Box app index is not in the foreignApps array")

/-- Payment parameters, as PaymentTransactionParams. -/
structure PaymentTransactionParams where
  receiver : Bytes
  amount : Nat
  closeRemainderTo : Option Bytes := none
deriving DecidableEq, Repr

/-- Key registration parameters, as KeyRegistrationTransactionParams. -/
structure KeyRegistrationTransactionParams where
  voteKey : Option Bytes := none
  selectionKey : Option Bytes := none
  stateProofKey : Option Bytes := none
  voteFirst : Option Nat := none
  voteLast : Option Nat := none
  voteKeyDilution : Option Nat := none
  nonParticipation : Option Bool := none
deriving DecidableEq, Repr

/-- Asset configuration parameters, as AssetConfigurationTransactionParams. -/
structure AssetConfigurationTransactionParams where
  assetIndex : Option Nat := none
  total : Option Nat := none
  decimals : Option Nat := none
  defaultFrozen : Option Bool := none
  manager : Option Bytes := none
  reserve : Option Bytes := none
  freeze : Option Bytes := none
  clawback : Option Bytes := none
  unitName : Option String := none
  assetName : Option String := none
  assetURL : Option String := none
  assetMetadataHash : Option Bytes := none
deriving DecidableEq, Repr

/-- Asset transfer parameters, as AssetTransferTransactionParams. -/
structure AssetTransferTransactionParams where
  assetIndex : Nat
  amount : Nat
  assetSender : Option Bytes := none
  receiver : Bytes
  closeRemainderTo : Option Bytes := none
deriving DecidableEq, Repr

/-- Asset freeze parameters, as AssetFreezeTransactionParams. -/
structure AssetFreezeTransactionParams where
  assetIndex : Nat
  freezeTarget : Bytes
  assetFrozen : Bool
deriving DecidableEq, Repr

/-- Box reference as given in application call parameters. -/
structure BoxReferenceParam where
  appIndex : Nat
  name : Bytes
deriving DecidableEq, Repr

/-- Application call parameters, as ApplicationCallTransactionParams. -/
structure ApplicationCallTransactionParams where
  appId : Nat
  onComplete : Nat
  appArgs : Option (List Bytes) := none
  accounts : Option (List Bytes) := none
  foreignAssets : Option (List Nat) := none
  foreignApps : Option (List Nat) := none
  approvalProgram : Option Bytes := none
  clearProgram : Option Bytes := none
  numLocalInts : Option Nat := none
  numLocalByteSlices : Option Nat := none
  numGlobalInts : Option Nat := none
  numGlobalByteSlices : Option Nat := none
  extraPages : Option Nat := none
  boxes : Option (List BoxReferenceParam) := none
deriving DecidableEq, Repr

/-- State proof parameters, as StateProofTransactionParams. -/
structure StateProofTransactionParams where
  stateProofType : Option Nat := none
  stateProof : Option Bytes := none
  stateProofMessage : Option Bytes := none
deriving DecidableEq, Repr

/-- Suggested parameters.  The genesisHash input is a base64 string in the source; the
base64 codec is a bijection to bytes, so it is modelled by its decoded bytes, with the
empty string corresponding to the empty byte string. -/
structure SuggestedParams where
  fee : Nat
  minFee : Nat
  flatFee : Option Bool := none
  firstValid : Nat
  lastValid : Nat
  genesisID : Option String := none
  genesisHash : Bytes
deriving DecidableEq, Repr

/-- Construction input, as TransactionParams in the source. -/
structure TransactionParams where
  type : TransactionType
  sender : Bytes
  note : Option Bytes := none
  lease : Option Bytes := none
  rekeyTo : Option Bytes := none
  suggestedParams : SuggestedParams
  paymentParams : Option PaymentTransactionParams := none
  keyregParams : Option KeyRegistrationTransactionParams := none
  assetConfigParams : Option AssetConfigurationTransactionParams := none
  assetTransferParams : Option AssetTransferTransactionParams := none
  assetFreezeParams : Option AssetFreezeTransactionParams := none
  appCallParams : Option ApplicationCallTransactionParams := none
  stateProofParams : Option StateProofTransactionParams := none
deriving DecidableEq, Repr

/-- Payment payload of a constructed transaction. -/
structure PaymentTransactionFields where
  receiver : Bytes
  amount : Nat
  closeRemainderTo : Option Bytes := none
deriving DecidableEq, Repr

/-- Key registration payload of a constructed transaction. -/
structure KeyRegistrationTransactionFields where
  voteKey : Option Bytes := none
  selectionKey : Option Bytes := none
  stateProofKey : Option Bytes := none
  voteFirst : Option Nat := none
  voteLast : Option Nat := none
  voteKeyDilution : Option Nat := none
  nonParticipation : Bool
deriving DecidableEq, Repr

/-- Asset configuration payload of a constructed transaction. -/
structure AssetConfigTransactionFields where
  assetId : Nat
  assetTotal : Nat
  assetDecimals : Nat
  assetDefaultFrozen : Bool
  assetManager : Option Bytes := none
  assetReserve : Option Bytes := none
  assetFreeze : Option Bytes := none
  assetClawback : Option Bytes := none
  assetUnitName : String
  assetName : String
  assetURL : String
  assetMetadataHash : Option Bytes := none
deriving DecidableEq, Repr

/-- Asset transfer payload of a constructed transaction. -/
structure AssetTransferTransactionFields where
  assetId : Nat
  amount : Nat
  sender : Option Bytes := none
  receiver : Bytes
  closeRemainderTo : Option Bytes := none
deriving DecidableEq, Repr

/-- Asset freeze payload of a constructed transaction. -/
structure AssetFreezeTransactionFields where
  assetId : Nat
  freezeAccount : Bytes
  assetFrozen : Bool
deriving DecidableEq, Repr

/-- Application call payload of a constructed transaction. -/
structure ApplicationTransactionFields where
  appId : Nat
  appOnComplete : Nat
  appLocalInts : Nat
  appLocalByteSlices : Nat
  appGlobalInts : Nat
  appGlobalByteSlices : Nat
  extraPages : Nat
  appApprovalProgram : Bytes
  appClearProgram : Bytes
  appArgs : List Bytes
  appAccounts : List Bytes
  appForeignApps : List Nat
  appForeignAssets : List Nat
  boxes : List TransactionBoxReference
deriving DecidableEq, Repr

/-- State proof payload of a constructed transaction. -/
structure StateProofTransactionFields where
  stateProofType : Nat
  stateProof : Bytes
  stateProofMessage : Bytes
deriving DecidableEq, Repr

/-- A constructed transaction, as the Transaction class of the source. -/
structure Transaction where
  type : TransactionType
  sender : Bytes
  note : Bytes
  lease : Option Bytes := none
  rekeyTo : Option Bytes := none
  group : Bytes
  fee : Nat
  firstValid : Nat
  lastValid : Nat
  genesisID : Option String := none
  genesisHash : Bytes
  payment : Option PaymentTransactionFields := none
  keyreg : Option KeyRegistrationTransactionFields := none
  assetConfig : Option AssetConfigTransactionFields := none
  assetTransfer : Option AssetTransferTransactionFields := none
  assetFreeze : Option AssetFreezeTransactionFields := none
  applicationCall : Option ApplicationTransactionFields := none
  stateProof : Option StateProofTransactionFields := none
deriving DecidableEq, Repr

/-- Local or global state schema in encoded form. -/
structure EncodedStateSchema where
  nui : Option Nat := none
  nbs : Option Nat := none
deriving DecidableEq, Repr

/-- Asset parameters sub-map in encoded form, as EncodedAssetParams. -/
structure EncodedAssetParams where
  t : Option Nat := none
  dc : Option Nat := none
  df : Option Bool := none
  m : Option Bytes := none
  r : Option Bytes := none
  f : Option Bytes := none
  c : Option Bytes := none
  un : Option String := none
  an : Option String := none
  au : Option String := none
  am : Option Bytes := none
deriving DecidableEq, Repr

/-- Canonical key/value structure of a transaction, as EncodedTransaction.  The source
always assigns the keys type, gh and lv, so they are plain fields; every other key is
optional, absence meaning the key is omitted from the encoded map. -/
structure EncodedTransaction where
  type : TransactionType
  gh : Bytes
  lv : Nat
  snd : Option Bytes := none
  gen : Option String := none
  fee : Option Nat := none
  fv : Option Nat := none
  note : Option Bytes := none
  lx : Option Bytes := none
  rekey : Option Bytes := none
  grp : Option Bytes := none
  amt : Option Nat := none
  rcv : Option Bytes := none
  close : Option Bytes := none
  votekey : Option Bytes := none
  selkey : Option Bytes := none
  sprfkey : Option Bytes := none
  votefst : Option Nat := none
  votelst : Option Nat := none
  votekd : Option Nat := none
  nonpart : Option Bool := none
  caid : Option Nat := none
  apar : Option EncodedAssetParams := none
  xaid : Option Nat := none
  aamt : Option Nat := none
  arcv : Option Bytes := none
  aclose : Option Bytes := none
  asnd : Option Bytes := none
  faid : Option Nat := none
  afrz : Option Bool := none
  fadd : Option Bytes := none
  apid : Option Nat := none
  apan : Option Nat := none
  apaa : Option (List Bytes) := none
  apat : Option (List Bytes) := none
  apas : Option (List Nat) := none
  apfa : Option (List Nat) := none
  apbx : Option (List EncodedBoxRef) := none
  apap : Option Bytes := none
  apsu : Option Bytes := none
  apls : Option EncodedStateSchema := none
  apgs : Option EncodedStateSchema := none
  apep : Option Nat := none
  sptype : Option Nat := none
  spmsg : Option Bytes := none
  sp : Option Bytes := none
deriving DecidableEq, Repr

/-- Tag prepended to the canonical encoding before signing and hashing, the ASCII bytes
of TX. -/
def TX_TAG : Bytes := [84, 88]

/-- Signing overhead added by estimateSize, NUM_ADDL_BYTES_AFTER_SIGNING in the source. -/
def NUM_ADDL_BYTES_AFTER_SIGNING : Nat := 75

/-- Mirrors the payment branch of the Transaction constructor. -/
def buildPayment (pp : PaymentTransactionParams) : Except String PaymentTransactionFields := do
  let receiver := pp.receiver
  let amount ← ensureUint64 pp.amount
  let closeRemainderTo ← optionalAddress pp.closeRemainderTo
  return { receiver, amount, closeRemainderTo }

/-- Mirrors the keyreg branch of the Transaction constructor, including the
non-participation and online checks. -/
def buildKeyreg (kp : KeyRegistrationTransactionParams) :
    Except String KeyRegistrationTransactionFields := do
  let voteKey ← getKeyregKey kp.voteKey "voteKey" 32
  let selectionKey ← getKeyregKey kp.selectionKey "selectionKey" 32
  let stateProofKey ← getKeyregKey kp.stateProofKey "stateProofKey" 64
  let voteFirst ← optionalUint64 kp.voteFirst
  let voteLast ← optionalUint64 kp.voteLast
  let voteKeyDilution ← optionalUint64 kp.voteKeyDilution
  let nonParticipation := kp.nonParticipation.getD false
  let kr : KeyRegistrationTransactionFields :=
    { voteKey, selectionKey, stateProofKey, voteFirst, voteLast, voteKeyDilution,
      nonParticipation }
  if kr.nonParticipation ∧
      (kr.voteKey.isSome ∨ kr.selectionKey.isSome ∨ kr.stateProofKey.isSome ∨
        kr.voteFirst.isSome ∨ kr.voteLast.isSome ∨ kr.voteKeyDilution.isSome) then
    throw "nonParticipation is true but participation params are present."
  if ¬kr.nonParticipation ∧
      (kr.voteKey.isSome ∨ kr.selectionKey.isSome ∨ kr.stateProofKey.isSome ∨
        kr.voteFirst.isSome ∨ kr.voteLast.isSome ∨ kr.voteKeyDilution.isSome) ∧
      ¬(kr.voteKey.isSome ∧ kr.selectionKey.isSome ∧ kr.voteFirst.isSome ∧
        kr.voteLast.isSome ∧ kr.voteKeyDilution.isSome) then
    throw "Online key registration missing at least one required field"
  return kr

/-- Mirrors the asset-config branch of the Transaction constructor. -/
def buildAssetConfig (acp : AssetConfigurationTransactionParams) :
    Except String AssetConfigTransactionFields := do
  let assetId ← ensureUint64 (acp.assetIndex.getD 0)
  let assetTotal ← ensureUint64 (acp.total.getD 0)
  let assetDecimals ← ensureSafeUnsignedInteger (acp.decimals.getD 0)
  let assetDefaultFrozen := acp.defaultFrozen.getD false
  let assetManager ← optionalAddress acp.manager
  let assetReserve ← optionalAddress acp.reserve
  let assetFreeze ← optionalAddress acp.freeze
  let assetClawback ← optionalAddress acp.clawback
  let assetUnitName := acp.unitName.getD ""
  let assetName := acp.assetName.getD ""
  let assetURL := acp.assetURL.getD ""
  let assetMetadataHash ← optionalFixedLengthByteArray acp.assetMetadataHash 32
    "assetMetadataHash"
  let res : AssetConfigTransactionFields :=
    { assetId := assetId, assetTotal := assetTotal, assetDecimals := assetDecimals,
      assetDefaultFrozen := assetDefaultFrozen, assetManager := assetManager,
      assetReserve := assetReserve, assetFreeze := assetFreeze,
      assetClawback := assetClawback, assetUnitName := assetUnitName,
      assetName := assetName, assetURL := assetURL,
      assetMetadataHash := assetMetadataHash }
  return res

/-- Mirrors the asset-transfer branch of the Transaction constructor. -/
def buildAssetTransfer (atp : AssetTransferTransactionParams) :
    Except String AssetTransferTransactionFields := do
  let assetId ← ensureUint64 atp.assetIndex
  let amount ← ensureUint64 atp.amount
  let sender ← optionalAddress atp.assetSender
  let receiver := atp.receiver
  let closeRemainderTo ← optionalAddress atp.closeRemainderTo
  return { assetId, amount, sender, receiver, closeRemainderTo }

/-- Mirrors the asset-freeze branch of the Transaction constructor. -/
def buildAssetFreeze (afp : AssetFreezeTransactionParams) :
    Except String AssetFreezeTransactionFields := do
  let assetId ← ensureUint64 afp.assetIndex
  let freezeAccount := afp.freezeTarget
  let assetFrozen := afp.assetFrozen
  return { assetId, freezeAccount, assetFrozen }

/-- Mirrors the application-call branch of the Transaction constructor.  The onComplete
value is stored without validation, as in the source. -/
def buildAppCall (acp : ApplicationCallTransactionParams) :
    Except String ApplicationTransactionFields := do
  let appId ← ensureUint64 acp.appId
  let appOnComplete := acp.onComplete
  let appLocalInts ← ensureSafeUnsignedInteger (acp.numLocalInts.getD 0)
  let appLocalByteSlices ← ensureSafeUnsignedInteger (acp.numLocalByteSlices.getD 0)
  let appGlobalInts ← ensureSafeUnsignedInteger (acp.numGlobalInts.getD 0)
  let appGlobalByteSlices ← ensureSafeUnsignedInteger (acp.numGlobalByteSlices.getD 0)
  let extraPages ← ensureSafeUnsignedInteger (acp.extraPages.getD 0)
  let appApprovalProgram := acp.approvalProgram.getD []
  let appClearProgram := acp.clearProgram.getD []
  let appArgs := acp.appArgs.getD []
  let appAccounts := acp.accounts.getD []
  let appForeignApps ← (acp.foreignApps.getD []).mapM ensureUint64
  let appForeignAssets ← (acp.foreignAssets.getD []).mapM ensureUint64
  let boxes ← (acp.boxes.getD []).mapM (fun b => do
    let appIndex ← ensureUint64 b.appIndex
    return ({ appIndex, name := b.name } : TransactionBoxReference))
  let res : ApplicationTransactionFields :=
    { appId := appId, appOnComplete := appOnComplete, appLocalInts := appLocalInts,
      appLocalByteSlices := appLocalByteSlices, appGlobalInts := appGlobalInts,
      appGlobalByteSlices := appGlobalByteSlices, extraPages := extraPages,
      appApprovalProgram := appApprovalProgram, appClearProgram := appClearProgram,
      appArgs := appArgs, appAccounts := appAccounts, appForeignApps := appForeignApps,
      appForeignAssets := appForeignAssets, boxes := boxes }
  return res

/-- Mirrors the state-proof branch of the Transaction constructor. -/
def buildStateProof (spp : StateProofTransactionParams) :
    Except String StateProofTransactionFields := do
  let stateProofType ← ensureSafeUnsignedInteger (spp.stateProofType.getD 0)
  let stateProof := spp.stateProof.getD []
  let stateProofMessage := spp.stateProofMessage.getD []
  return { stateProofType, stateProof, stateProofMessage }

/-- Mirrors get_obj_for_encoding: maps a transaction to its canonical key/value
structure, omitting a key exactly where the source omits it. -/
def Transaction.get_obj_for_encoding (t : Transaction) : Except String EncodedTransaction := do
  let f : EncodedTransaction := { type := t.type, gh := t.genesisHash, lv := t.lastValid }
  let f := if uint8ArrayIsEmpty t.sender then f else { f with snd := some t.sender }
  let f := if t.genesisID.getD "" = "" then f else { f with gen := t.genesisID }
  let f := if t.fee = 0 then f else { f with fee := some t.fee }
  let f := if t.firstValid = 0 then f else { f with fv := some t.firstValid }
  let f := if t.note = [] then f else { f with note := some t.note }
  let f := if t.lease.isSome then { f with lx := t.lease } else f
  let f := if t.rekeyTo.isSome then { f with rekey := t.rekeyTo } else f
  let f := if t.group = [] then f else { f with grp := some t.group }
  match t.payment with
  | some pf =>
    let f := if pf.amount = 0 then f else { f with amt := some pf.amount }
    let f := if uint8ArrayIsEmpty pf.receiver then f else { f with rcv := some pf.receiver }
    let f := if pf.closeRemainderTo.isSome then { f with close := pf.closeRemainderTo }
      else f
    return f
  | none =>
  match t.keyreg with
  | some kf =>
    let f := if kf.voteKey.isSome then { f with votekey := kf.voteKey } else f
    let f := if kf.selectionKey.isSome then { f with selkey := kf.selectionKey } else f
    let f := if kf.stateProofKey.isSome then { f with sprfkey := kf.stateProofKey } else f
    let f := if kf.voteFirst.getD 0 = 0 then f else { f with votefst := kf.voteFirst }
    let f := if kf.voteLast.getD 0 = 0 then f else { f with votelst := kf.voteLast }
    let f := if kf.voteKeyDilution.getD 0 = 0 then f
      else { f with votekd := kf.voteKeyDilution }
    let f := if kf.nonParticipation then { f with nonpart := some true } else f
    return f
  | none =>
  match t.assetConfig with
  | some cf =>
    let f := if cf.assetId = 0 then f else { f with caid := some cf.assetId }
    let ap : EncodedAssetParams := {}
    let ap := if cf.assetTotal = 0 then ap else { ap with t := some cf.assetTotal }
    let ap := if cf.assetDecimals = 0 then ap else { ap with dc := some cf.assetDecimals }
    let ap := if cf.assetDefaultFrozen then { ap with df := some true } else ap
    let ap := if cf.assetManager.isSome then { ap with m := cf.assetManager } else ap
    let ap := if cf.assetReserve.isSome then { ap with r := cf.assetReserve } else ap
    let ap := if cf.assetFreeze.isSome then { ap with f := cf.assetFreeze } else ap
    let ap := if cf.assetClawback.isSome then { ap with c := cf.assetClawback } else ap
    let ap := if cf.assetUnitName = "" then ap else { ap with un := some cf.assetUnitName }
    let ap := if cf.assetName = "" then ap else { ap with an := some cf.assetName }
    let ap := if cf.assetURL = "" then ap else { ap with au := some cf.assetURL }
    let ap := if cf.assetMetadataHash.isSome then { ap with am := cf.assetMetadataHash }
      else ap
    let f := if ap = ({} : EncodedAssetParams) then f else { f with apar := some ap }
    return f
  | none =>
  match t.assetTransfer with
  | some xf =>
    let f := if xf.assetId = 0 then f else { f with xaid := some xf.assetId }
    let f := if xf.amount = 0 then f else { f with aamt := some xf.amount }
    let f := if uint8ArrayIsEmpty xf.receiver then f else { f with arcv := some xf.receiver }
    let f := if xf.closeRemainderTo.isSome then { f with aclose := xf.closeRemainderTo }
      else f
    let f := if xf.sender.isSome then { f with asnd := xf.sender } else f
    return f
  | none =>
  match t.assetFreeze with
  | some ff =>
    let f := if ff.assetId = 0 then f else { f with faid := some ff.assetId }
    let f := if ff.assetFrozen then { f with afrz := some true } else f
    let f := if uint8ArrayIsEmpty ff.freezeAccount then f
      else { f with fadd := some ff.freezeAccount }
    return f
  | none =>
  match t.applicationCall with
  | some af =>
    let f := if af.appId = 0 then f else { f with apid := some af.appId }
    let f := if af.appOnComplete = 0 then f else { f with apan := some af.appOnComplete }
    let f := if af.appArgs = [] then f else { f with apaa := some af.appArgs }
    let f := if af.appAccounts = [] then f else { f with apat := some af.appAccounts }
    let f := if af.appForeignAssets = [] then f
      else { f with apas := some af.appForeignAssets }
    let f := if af.appForeignApps = [] then f else { f with apfa := some af.appForeignApps }
    let f ←
      if af.boxes = [] then pure f
      else do
        let bx ← translateBoxReferences af.boxes af.appForeignApps af.appId
        pure { f with apbx := some bx }
    let f := if af.appApprovalProgram = [] then f
      else { f with apap := some af.appApprovalProgram }
    let f := if af.appClearProgram = [] then f else { f with apsu := some af.appClearProgram }
    let f := if af.appLocalInts = 0 ∧ af.appLocalByteSlices = 0 then f
      else { f with apls := some {
        nui := if af.appLocalInts = 0 then none else some af.appLocalInts
        nbs := if af.appLocalByteSlices = 0 then none else some af.appLocalByteSlices } }
    let f := if af.appGlobalInts = 0 ∧ af.appGlobalByteSlices = 0 then f
      else { f with apgs := some {
        nui := if af.appGlobalInts = 0 then none else some af.appGlobalInts
        nbs := if af.appGlobalByteSlices = 0 then none else some af.appGlobalByteSlices } }
    let f := if af.extraPages = 0 then f else { f with apep := some af.extraPages }
    return f
  | none =>
  match t.stateProof with
  | some sf =>
    let f := if sf.stateProofType = 0 then f else { f with sptype := some sf.stateProofType }
    let f := { f with spmsg := some sf.stateProofMessage, sp := some sf.stateProof }
    return f
  | none => throw "Unexpected transaction type"

/-- Applies a variant builder to an optional parameter record, as the conditional
variant blocks of the constructor. -/
def optionMapExcept {α β : Type} (f : α → Except String β) :
    Option α → Except String (Option β)
  | none => .ok none
  | some a => (f a).map some

/-- The list of transaction types whose variant parameter record is present, the
fieldsPresent array of the constructor. -/
def fieldsPresent (p : TransactionParams) : List TransactionType :=
  (if p.paymentParams.isSome then [TransactionType.pay] else []) ++
  (if p.keyregParams.isSome then [TransactionType.keyreg] else []) ++
  (if p.assetConfigParams.isSome then [TransactionType.acfg] else []) ++
  (if p.assetTransferParams.isSome then [TransactionType.axfer] else []) ++
  (if p.assetFreezeParams.isSome then [TransactionType.afrz] else []) ++
  (if p.appCallParams.isSome then [TransactionType.appl] else []) ++
  (if p.stateProofParams.isSome then [TransactionType.stpf] else [])

/-- Mirrors the Transaction constructor.  The msgpack encoder is passed as the abstract
function encB; it is only consulted when flatFee is false, through estimateSize. -/
def Transaction.construct (encB : EncodedTransaction → Bytes) (p : TransactionParams) :
    Except String Transaction := do
  let sender := p.sender
  let note := p.note.getD []
  let lease ← optionalFixedLengthByteArray p.lease 32 "lease"
  let rekeyTo ← optionalAddress p.rekeyTo
  let firstValid ← ensureUint64 p.suggestedParams.firstValid
  let lastValid ← ensureUint64 p.suggestedParams.lastValid
  let genesisID : Option String :=
    match p.suggestedParams.genesisID with
    | some s => if s = "" then none else some s
    | none => none
  if p.suggestedParams.genesisHash = [] then
    throw "Genesis hash must be specified"
  let genesisHash := p.suggestedParams.genesisHash
  if (fieldsPresent p).length ≠ 1 then
    throw "Transaction has wrong number of type fields present"
  if (fieldsPresent p).head? ≠ some p.type then
    throw "Transaction type does not match the fields present"
  let payment ← optionMapExcept buildPayment p.paymentParams
  let keyreg ← optionMapExcept buildKeyreg p.keyregParams
  let assetConfig ← optionMapExcept buildAssetConfig p.assetConfigParams
  let assetTransfer ← optionMapExcept buildAssetTransfer p.assetTransferParams
  let assetFreeze ← optionMapExcept buildAssetFreeze p.assetFreezeParams
  let applicationCall ← optionMapExcept buildAppCall p.appCallParams
  let stateProof ← optionMapExcept buildStateProof p.stateProofParams
  let fee0 ← ensureUint64 p.suggestedParams.fee
  let t0 : Transaction :=
    { type := p.type, sender, note, lease, rekeyTo, group := [], fee := fee0,
      firstValid, lastValid, genesisID, genesisHash, payment, keyreg, assetConfig,
      assetTransfer, assetFreeze, applicationCall, stateProof }
  let flatFee := p.suggestedParams.flatFee.getD false
  if flatFee then
    return t0
  else
    let minFee ← ensureUint64 p.suggestedParams.minFee
    let e ← t0.get_obj_for_encoding
    let fee1 := fee0 * ((encB e).length + NUM_ADDL_BYTES_AFTER_SIGNING)
    return { t0 with fee := if fee1 < minFee then minFee else fee1 }

/-- Mirrors toByte: the msgpack encoding of the canonical structure. -/
def Transaction.toByte (encB : EncodedTransaction → Bytes) (t : Transaction) :
    Except String Bytes :=
  (t.get_obj_for_encoding).map encB

/-- Mirrors bytesToSign: the TX tag followed by the canonical encoding. -/
def Transaction.bytesToSign (encB : EncodedTransaction → Bytes) (t : Transaction) :
    Except String Bytes :=
  (t.toByte encB).map (fun b => TX_TAG ++ b)

/-- Mirrors rawTxID: the generic hash (SHA-512/256, abstract here) of the signing
bytes. -/
def Transaction.rawTxID (encB : EncodedTransaction → Bytes) (genericHash : Bytes → Bytes)
    (t : Transaction) : Except String Bytes :=
  (t.bytesToSign encB).map genericHash

/-- Mirrors txID: the base32 rendition truncated to 52 characters, modelled by the
abstract function b32trunc applied to the raw id. -/
def Transaction.txID (encB : EncodedTransaction → Bytes) (genericHash : Bytes → Bytes)
    (b32trunc : Bytes → Bytes) (t : Transaction) : Except String Bytes :=
  (t.rawTxID encB genericHash).map b32trunc

/-- Mirrors the box-reference decode closure of from_obj_for_encoding: a zero encoded
index stands for the called app, any other index is a 1-based position in the foreign
apps array. -/
def decodeBoxRef (apfa : Option (List Nat)) (box : EncodedBoxRef) :
    Except String BoxReferenceParam := do
  let index ← ensureSafeUnsignedInteger box.i
  let name := box.n
  if index = 0 then
    pure ({ appIndex := 0, name } : BoxReferenceParam)
  else
    match apfa with
    | none => throw "Cannot find the referenced foreign app index"
    | some fas =>
      if fas.length < index then
        throw "Cannot find the referenced foreign app index"
      else
        pure ({ appIndex := fas.getD (index - 1) 0, name } : BoxReferenceParam)

/-- Mirrors from_obj_for_encoding: rebuilds construction parameters from the canonical
structure, constructs with flatFee true and minFee 0, then attaches the group after a
length check. -/
def Transaction.from_obj_for_encoding (encB : EncodedTransaction → Bytes)
    (txnForEnc : EncodedTransaction) : Except String Transaction := do
  let suggestedParams : SuggestedParams :=
    { minFee := 0
      flatFee := some true
      fee := txnForEnc.fee.getD 0
      firstValid := txnForEnc.fv.getD 0
      lastValid := txnForEnc.lv
      genesisHash := txnForEnc.gh
      genesisID := txnForEnc.gen }
  let base : TransactionParams :=
    { type := txnForEnc.type
      sender := txnForEnc.snd.getD ZERO_PK
      note := txnForEnc.note
      lease := txnForEnc.lx
      rekeyTo := txnForEnc.rekey
      suggestedParams }
  let params : TransactionParams ←
    match txnForEnc.type with
    | .pay =>
      let pp : PaymentTransactionParams :=
        { amount := txnForEnc.amt.getD 0
          receiver := txnForEnc.rcv.getD ZERO_PK
          closeRemainderTo := txnForEnc.close }
      pure { base with paymentParams := some pp }
    | .keyreg =>
      let kp : KeyRegistrationTransactionParams :=
        { voteKey := txnForEnc.votekey
          selectionKey := txnForEnc.selkey
          stateProofKey := txnForEnc.sprfkey
          voteFirst := txnForEnc.votefst
          voteLast := txnForEnc.votelst
          voteKeyDilution := txnForEnc.votekd
          nonParticipation := txnForEnc.nonpart }
      pure { base with keyregParams := some kp }
    | .acfg =>
      let acp : AssetConfigurationTransactionParams :=
        match txnForEnc.apar with
        | none => { assetIndex := txnForEnc.caid }
        | some ap =>
          { assetIndex := txnForEnc.caid
            total := ap.t
            decimals := ap.dc
            defaultFrozen := ap.df
            unitName := ap.un
            assetName := ap.an
            assetURL := ap.au
            assetMetadataHash := ap.am
            manager := ap.m
            reserve := ap.r
            freeze := ap.f
            clawback := ap.c }
      pure { base with assetConfigParams := some acp }
    | .axfer =>
      let atp : AssetTransferTransactionParams :=
        { assetIndex := txnForEnc.xaid.getD 0
          amount := txnForEnc.aamt.getD 0
          receiver := txnForEnc.arcv.getD ZERO_PK
          closeRemainderTo := txnForEnc.aclose
          assetSender := txnForEnc.asnd }
      pure { base with assetTransferParams := some atp }
    | .afrz =>
      let afp : AssetFreezeTransactionParams :=
        { assetIndex := txnForEnc.faid.getD 0
          freezeTarget := txnForEnc.fadd.getD ZERO_PK
          assetFrozen := txnForEnc.afrz.getD false }
      pure { base with assetFreezeParams := some afp }
    | .appl => do
      let onComplete ← ensureSafeUnsignedInteger (txnForEnc.apan.getD 0)
      let boxes ← match txnForEnc.apbx with
        | none => pure none
        | some bxs => do
          let bs ← bxs.mapM (decodeBoxRef txnForEnc.apfa)
          pure (some bs)
      let acp : ApplicationCallTransactionParams :=
        { appId := txnForEnc.apid.getD 0
          onComplete := onComplete
          appArgs := txnForEnc.apaa
          accounts := txnForEnc.apat
          foreignAssets := txnForEnc.apas
          foreignApps := txnForEnc.apfa
          approvalProgram := txnForEnc.apap
          clearProgram := txnForEnc.apsu
          numLocalInts := txnForEnc.apls.bind (fun s => s.nui)
          numLocalByteSlices := txnForEnc.apls.bind (fun s => s.nbs)
          numGlobalInts := txnForEnc.apgs.bind (fun s => s.nui)
          numGlobalByteSlices := txnForEnc.apgs.bind (fun s => s.nbs)
          extraPages := txnForEnc.apep
          boxes := boxes }
      pure { base with appCallParams := some acp }
    | .stpf =>
      let spp : StateProofTransactionParams :=
        { stateProofType := txnForEnc.sptype
          stateProof := txnForEnc.sp
          stateProofMessage := txnForEnc.spmsg }
      pure { base with stateProofParams := some spp }
  let txn ← Transaction.construct encB params
  match txnForEnc.grp with
  | none => return txn
  | some group =>
    if group.length ≠ 32 then throw "Invalid group length"
    else return { txn with group := group }

/-- One slot of a multisig record: a public key and an optional signature. -/
structure EncodedSubsig where
  pk : Bytes
  s : Option Bytes := none
deriving DecidableEq, Repr

/-- Multisig record, as EncodedMultisig. -/
structure EncodedMultisig where
  v : Nat
  thr : Nat
  subsig : List EncodedSubsig
deriving DecidableEq, Repr

/-- Signed-transaction envelope, as EncodedSignedTransaction.  The msgpack decode and
encode wrapping each blob form a bijection between blobs and these records, so merge is
modelled directly on the decoded records. -/
structure EncodedSignedTransaction where
  txn : EncodedTransaction
  sig : Option Bytes := none
  msig : Option EncodedMultisig := none
  sgnr : Option Bytes := none
deriving DecidableEq, Repr

/-- Boolean success test for an Except value. -/
def exceptIsOk {ε α : Type} (x : Except ε α) : Bool :=
  match x with
  | .ok _ => true
  | .error _ => false

/-- Signature stored at a given slot index, none when the slot is unsigned or out of
range. -/
def slotSig (subsigs : List EncodedSubsig) (k : Nat) : Option Bytes :=
  match subsigs.get? k with
  | some sub => sub.s
  | none => none

/-- Slot signatures of a blob, the list of optional signatures of its msig record. -/
def blobSlotSigs (b : EncodedSignedTransaction) : Option (List (Option Bytes)) :=
  b.msig.map (fun m => m.subsig.map (fun sub => sub.s))

/-- Mirrors verifyMultisig.  The Ed25519 verifier and the multisig pre-image hash are
abstract parameters; fromMultisigPreImg is total here, whereas the source wraps it in a
try/catch whose failure branch returns false. -/
def verifyMultisig (verify : Bytes → Bytes → Bytes → Bool)
    (fromMultisigPreImg : Nat → Nat → List Bytes → Bytes)
    (toBeVerified : Bytes) (msig : EncodedMultisig) (publicKey : Bytes) : Bool :=
  let version := msig.v
  let threshold := msig.thr
  let subsigs := msig.subsig
  let pks := subsigs.map (fun sub => sub.pk)
  if subsigs.length < threshold then false
  else
    let pk := fromMultisigPreImg version threshold pks
    if pk ≠ publicKey then false
    else
      let counter := (subsigs.filter (fun sub => sub.s.isSome)).length
      if counter < threshold then false
      else
        let verifiedCounter := (subsigs.filter (fun sub =>
          match sub.s with
          | some sg => verify toBeVerified sg sub.pk
          | none => false)).length
        if verifiedCounter < threshold then false else true

/-- Mirrors the inner forEach of mergeMultisigTransactions: merges the signatures of one
blob into the accumulated slots, failing on a byte-level mismatch. -/
def mergeSlots : List EncodedSubsig → List EncodedSubsig → Except String (List EncodedSubsig)
  | current :: curRest, uni :: uniRest => do
    let merged ←
      match uni.s with
      | none => pure current
      | some us =>
        match current.s with
        | some cs =>
          if cs ≠ us then throw "Cannot merge txs. subsigs are mismatched."
          else pure { current with s := some us }
        | none => pure { current with s := some us }
    let rest ← mergeSlots curRest uniRest
    pure (merged :: rest)
  | acc, [] => pure acc
  | [], _ :: _ => pure []

/-- Mirrors the main loop of mergeMultisigTransactions over the blobs after the first:
each blob must carry an msig, match the reference txID, auth-address, subsig length and
pre-image address, and agree on every doubly-signed slot. -/
def mergeLoop (encB : EncodedTransaction → Bytes) (genericHash b32trunc : Bytes → Bytes)
    (fromMultisigPreImg : Nat → Nat → List Bytes → Bytes) (refTxID : Bytes)
    (refAuthAddr : Option Bytes) (refLen : Nat) (refMsigAddr : Bytes)
    (acc : List EncodedSubsig) :
    List EncodedSignedTransaction → Except String (List EncodedSubsig)
  | [] => pure acc
  | unisig :: rest => do
    let some umsig := unisig.msig
      | throw "Invalid multisig transaction, multisig structure missing"
    let ut ← Transaction.from_obj_for_encoding encB unisig.txn
    let utid ← ut.txID encB genericHash b32trunc
    if utid ≠ refTxID then
      throw "Cannot merge txs. txIDs differ"
    if unisig.sgnr ≠ refAuthAddr then
      throw "Cannot merge txs. Auth addrs differ"
    if umsig.subsig.length ≠ refLen then
      throw "Cannot merge txs. Multisig preimages differ"
    if fromMultisigPreImg umsig.v umsig.thr (umsig.subsig.map (fun sub => sub.pk))
        ≠ refMsigAddr then
      throw "Cannot merge txs. Multisig preimages differ"
    let acc2 ← mergeSlots acc umsig.subsig
    mergeLoop encB genericHash b32trunc fromMultisigPreImg refTxID refAuthAddr refLen
      refMsigAddr acc2 rest

/-- Mirrors mergeMultisigTransactions.  Blobs are the decoded signed-transaction records;
the auth-address comparison of encoded address strings in the source is a comparison of
the underlying 32-byte keys because the textual address codec is injective. -/
def mergeMultisigTransactions (encB : EncodedTransaction → Bytes)
    (genericHash b32trunc : Bytes → Bytes)
    (fromMultisigPreImg : Nat → Nat → List Bytes → Bytes)
    (multisigTxnBlobs : List EncodedSignedTransaction) :
    Except String EncodedSignedTransaction := do
  match multisigTxnBlobs with
  | [] => throw "Not enough multisig transactions to merge. Need at least two"
  | [_] => throw "Not enough multisig transactions to merge. Need at least two"
  | refSigTx :: rest =>
    let some refMsig := refSigTx.msig
      | throw "Invalid multisig transaction, multisig structure missing at index 0"
    let refTxn ← Transaction.from_obj_for_encoding encB refSigTx.txn
    let refTxID ← refTxn.txID encB genericHash b32trunc
    let refAuthAddr := refSigTx.sgnr
    let refMsigAddr :=
      fromMultisigPreImg refMsig.v refMsig.thr (refMsig.subsig.map (fun sub => sub.pk))
    let finalSubsigs ← mergeLoop encB genericHash b32trunc fromMultisigPreImg refTxID
      refAuthAddr refMsig.subsig.length refMsigAddr refMsig.subsig rest
    let msig : EncodedMultisig :=
      { v := refMsig.v, thr := refMsig.thr, subsig := finalSubsigs }
    let signedTxn : EncodedSignedTransaction := { txn := refSigTx.txn, msig := some msig }
    match refAuthAddr with
    | none => pure signedTxn
    | some a => pure { signedTxn with sgnr := some a }

/-! Helper lemmas for decomposing the Except-valued definitions. -/

/-- Success of a bind splits into success of both stages. -/
theorem exceptBind_ok {α β : Type} {x : Except String α} {f : α → Except String β} {r : β} :
    x >>= f = .ok r ↔ ∃ a, x = .ok a ∧ f a = .ok r := by
  cases x <;> simp [Bind.bind, Except.bind]

/-- Success of a map splits into success of the stage below. -/
theorem exceptMap_ok {α β : Type} {g : α → β} {x : Except String α} {r : β} :
    x.map g = .ok r ↔ ∃ a, x = .ok a ∧ r = g a := by
  cases x <;> simp [Except.map] <;> exact ⟨fun h => h.symm, fun h => h.symm⟩

/-- Characterization of a successful uint64 bounds check. -/
theorem ensureUint64_ok {n m : Nat} : ensureUint64 n = .ok m ↔ n ≤ MAX_UINT64 ∧ m = n := by
  unfold ensureUint64
  split <;> simp_all <;> omega

/-- The zero address is rejected by optionalAddress. -/
theorem optionalAddress_zero_pk :
    optionalAddress (some ZERO_PK) =
      .error "Invalid use of the zero address. To omit this value, pass in undefined" := by
  rfl

/-- A constructed transaction always has an empty group. -/
theorem construct_group (encB : EncodedTransaction → Bytes) (p : TransactionParams)
    (t : Transaction) (h : Transaction.construct encB p = .ok t) : t.group = [] := by
  unfold Transaction.construct at h
  simp only [bind, Except.bind, pure, Except.pure] at h
  repeat' split at h
  all_goals try cases h
  all_goals rfl

/-- A zero-address payment close field makes the payment builder fail. -/
theorem buildPayment_close_zero {pp : PaymentTransactionParams}
    {y : Option PaymentTransactionFields}
    (h : optionMapExcept buildPayment (some pp) = .ok y)
    (hz : pp.closeRemainderTo = some ZERO_PK) : False := by
  simp only [optionMapExcept, buildPayment, hz, optionalAddress_zero_pk] at h
  simp [exceptBind_ok, exceptMap_ok] at h

/-- A zero address in any optional asset-config slot makes the builder fail. -/
theorem buildAssetConfig_addr_zero {acp : AssetConfigurationTransactionParams}
    {y : Option AssetConfigTransactionFields}
    (h : optionMapExcept buildAssetConfig (some acp) = .ok y)
    (hz : acp.manager = some ZERO_PK ∨ acp.reserve = some ZERO_PK ∨
      acp.freeze = some ZERO_PK ∨ acp.clawback = some ZERO_PK) : False := by
  rcases hz with hz | hz | hz | hz <;>
    (simp only [optionMapExcept, buildAssetConfig, hz, optionalAddress_zero_pk] at h
     simp [exceptBind_ok, exceptMap_ok] at h)

/-- A zero address in an optional asset-transfer slot makes the builder fail. -/
theorem buildAssetTransfer_addr_zero {atp : AssetTransferTransactionParams}
    {y : Option AssetTransferTransactionFields}
    (h : optionMapExcept buildAssetTransfer (some atp) = .ok y)
    (hz : atp.assetSender = some ZERO_PK ∨ atp.closeRemainderTo = some ZERO_PK) : False := by
  rcases hz with hz | hz <;>
    (simp only [optionMapExcept, buildAssetTransfer, hz, optionalAddress_zero_pk] at h
     simp [exceptBind_ok, exceptMap_ok] at h)

/-! Concrete values used by witnesses and counterexamples. -/

/-- A trivial stand-in for the msgpack encoder. -/
def encB0 : EncodedTransaction → Bytes := fun _ => []

/-- A stand-in msgpack encoder producing 25 bytes for every input. -/
def encB25 : EncodedTransaction → Bytes := fun _ => List.replicate 25 0

/-- A 32-byte address ending in 1. -/
def addr1 : Bytes := List.replicate 31 0 ++ [1]

/-- A 32-byte address ending in 2. -/
def addr2 : Bytes := List.replicate 31 0 ++ [2]

/-- A 32-byte genesis hash of ones. -/
def gh1 : Bytes := List.replicate 32 1

/-- Flat-fee suggested parameters for the concrete examples. -/
def spFlat : SuggestedParams :=
  { fee := 1000, minFee := 1000, flatFee := some true, firstValid := 1, lastValid := 1001,
    genesisHash := gh1, genesisID := some "testnet-v1.0" }

/-- A concrete payment construction input. -/
def pPayW : TransactionParams :=
  { type := .pay, sender := addr1, suggestedParams := spFlat,
    paymentParams := some { receiver := addr2, amount := 1000 } }

/-- The transaction constructed from pPayW. -/
def tPayW : Transaction :=
  { type := .pay, sender := addr1, note := [], lease := none, rekeyTo := none, group := [],
    fee := 1000, firstValid := 1, lastValid := 1001, genesisID := some "testnet-v1.0",
    genesisHash := gh1,
    payment := some { receiver := addr2, amount := 1000, closeRemainderTo := none } }

/-- The payment input with a size-dependent fee instead of a flat fee. -/
def pFeeW : TransactionParams :=
  { pPayW with suggestedParams := { spFlat with flatFee := none } }

/-- The transaction constructed from pFeeW under the encoder encB25. -/
def tFeeW : Transaction := { tPayW with fee := 100000 }

/-- The canonical structure of tFeeW taken at the suggested fee. -/
def eFeeW : EncodedTransaction :=
  { type := .pay, gh := gh1, lv := 1001, snd := some addr1, gen := some "testnet-v1.0",
    fee := some 1000, fv := some 1, amt := some 1000, rcv := some addr2 }

/-- The payment input with the zero address in the rekeyTo slot. -/
def pRekeyZ : TransactionParams := { pPayW with rekeyTo := some ZERO_PK }

/-! Claim theorems. -/

/-- C10: immediately after the constructor returns, the group field is the empty byte
string: the constructor initializes group to empty unconditionally and reads no group
input; a non-empty group is only attached by from_obj_for_encoding, and only after
checking that the decoded grp value is exactly 32 bytes long. -/
theorem C10_group_empty :
    (∀ (encB : EncodedTransaction → Bytes) (p : TransactionParams) (t : Transaction),
      Transaction.construct encB p = .ok t → t.group = []) ∧
    (∀ (encB : EncodedTransaction → Bytes) (enc : EncodedTransaction) (t : Transaction),
      Transaction.from_obj_for_encoding encB enc = .ok t →
        t.group = enc.grp.getD [] ∧ (∀ g, enc.grp = some g → g.length = 32)) := by
  refine ⟨construct_group, ?_⟩
  intro encB enc t h
  unfold Transaction.from_obj_for_encoding at h
  simp only [bind, Except.bind, pure, Except.pure] at h
  repeat' split at h
  all_goals try cases h
  all_goals constructor
  all_goals simp_all
  all_goals (exact construct_group _ _ _ (by assumption))

/-- Witness for C10 at a concrete payment construction. -/
theorem C10_group_empty_witness : tPayW.group = [] :=
  C10_group_empty.1 encB0 pPayW tPayW (by rfl)

/-- C4: the constructed fee is the suggested fee verbatim when flatFee is set; otherwise
it is the suggested fee times the estimated size (the byte length of the canonical
encoding taken at the suggested fee, plus the 75-byte signing overhead), clamped up to
minFee when the product falls below it. -/
theorem C4_fee_computation (encB : EncodedTransaction → Bytes) (p : TransactionParams)
    (t : Transaction) (h : Transaction.construct encB p = .ok t) :
    (p.suggestedParams.flatFee.getD false = true → t.fee = p.suggestedParams.fee) ∧
    (p.suggestedParams.flatFee.getD false = false →
      ∀ e, Transaction.get_obj_for_encoding { t with fee := p.suggestedParams.fee } = .ok e →
        t.fee =
          if p.suggestedParams.fee * ((encB e).length + NUM_ADDL_BYTES_AFTER_SIGNING) <
              p.suggestedParams.minFee
          then p.suggestedParams.minFee
          else p.suggestedParams.fee * ((encB e).length + NUM_ADDL_BYTES_AFTER_SIGNING)) := by
  unfold Transaction.construct at h
  simp only [bind, Except.bind, pure, Except.pure] at h
  repeat' split at h
  all_goals try cases h
  all_goals refine ⟨fun hf => ?_, fun hf e he => ?_⟩
  all_goals simp_all [ensureUint64_ok]
  all_goals split <;> omega

/-- Witness for C4 at a concrete size-dependent fee construction: 1000 microalgos of
suggested fee times 25 encoded bytes plus 75 overhead bytes gives a fee of 100000. -/
theorem C4_fee_computation_witness :
    tFeeW.fee =
      if pFeeW.suggestedParams.fee * ((encB25 eFeeW).length + NUM_ADDL_BYTES_AFTER_SIGNING) <
          pFeeW.suggestedParams.minFee
      then pFeeW.suggestedParams.minFee
      else pFeeW.suggestedParams.fee * ((encB25 eFeeW).length + NUM_ADDL_BYTES_AFTER_SIGNING) :=
  (C4_fee_computation encB25 pFeeW tFeeW (by rfl)).2 (by rfl) eFeeW (by rfl)

/-- C9: supplying the zero address in any optional address slot (rekeyTo, payment
closeRemainderTo, asset-config manager, reserve, freeze or clawback, asset-transfer
assetSender or closeRemainderTo) makes construction fail. -/
theorem C9_zero_address (encB : EncodedTransaction → Bytes) (p : TransactionParams) :
    (p.rekeyTo = some ZERO_PK → exceptIsOk (Transaction.construct encB p) = false) ∧
    (∀ pp, p.paymentParams = some pp → pp.closeRemainderTo = some ZERO_PK →
      exceptIsOk (Transaction.construct encB p) = false) ∧
    (∀ acp, p.assetConfigParams = some acp →
      (acp.manager = some ZERO_PK ∨ acp.reserve = some ZERO_PK ∨
        acp.freeze = some ZERO_PK ∨ acp.clawback = some ZERO_PK) →
      exceptIsOk (Transaction.construct encB p) = false) ∧
    (∀ atp, p.assetTransferParams = some atp →
      (atp.assetSender = some ZERO_PK ∨ atp.closeRemainderTo = some ZERO_PK) →
      exceptIsOk (Transaction.construct encB p) = false) := by
  refine ⟨?_, ?_, ?_, ?_⟩
  · intro hz
    cases hok : Transaction.construct encB p with
    | error e => rfl
    | ok t =>
      exfalso
      unfold Transaction.construct at hok
      simp only [hz, optionalAddress_zero_pk, bind, Except.bind, pure, Except.pure] at hok
      repeat' split at hok
      all_goals cases hok
  · intro pp hpp hz
    cases hok : Transaction.construct encB p with
    | error e => rfl
    | ok t =>
      exfalso
      unfold Transaction.construct at hok
      simp only [bind, Except.bind, pure, Except.pure] at hok
      repeat' split at hok
      all_goals try cases hok
      all_goals exact buildPayment_close_zero (by rw [← hpp]; assumption) hz
  · intro acp hacp hz
    cases hok : Transaction.construct encB p with
    | error e => rfl
    | ok t =>
      exfalso
      unfold Transaction.construct at hok
      simp only [bind, Except.bind, pure, Except.pure] at hok
      repeat' split at hok
      all_goals try cases hok
      all_goals exact buildAssetConfig_addr_zero (by rw [← hacp]; assumption) hz
  · intro atp hatp hz
    cases hok : Transaction.construct encB p with
    | error e => rfl
    | ok t =>
      exfalso
      unfold Transaction.construct at hok
      simp only [bind, Except.bind, pure, Except.pure] at hok
      repeat' split at hok
      all_goals try cases hok
      all_goals exact buildAssetTransfer_addr_zero (by rw [← hatp]; assumption) hz

/-- Witness for C9: a zero rekeyTo address on a concrete payment input. -/
theorem C9_zero_address_witness : exceptIsOk (Transaction.construct encB0 pRekeyZ) = false :=
  (C9_zero_address encB0 pRekeyZ).1 (by decide)

/-- A fixed-length byte array of the wrong length is always rejected. -/
theorem oflba_wrong {l : Bytes} {n : Nat} {name : String} {v : Option Bytes}
    (hlen : l.length ≠ n) : optionalFixedLengthByteArray (some l) n name ≠ .ok v := by
  simp [optionalFixedLengthByteArray, hlen]

/-- A present result of the fixed-length check has the required length. -/
theorem oflba_some {x : Option Bytes} {n : Nat} {name : String} {v : Option Bytes}
    (h : optionalFixedLengthByteArray x n name = .ok v) {l : Bytes} (hl : v = some l) :
    l.length = n := by
  subst hl
  unfold optionalFixedLengthByteArray at h
  repeat' split at h
  all_goals simp_all

/-- A present result of an optional builder comes from a present input. -/
theorem optionMapExcept_ok_some {α β : Type} {f : α → Except String β} {x : Option α}
    {y : Option β} (h : optionMapExcept f x = .ok y) {b : β} (hb : y = some b) :
    ∃ a, x = some a ∧ f a = .ok b := by
  subst hb
  cases x with
  | none => simp [optionMapExcept] at h
  | some a =>
    simp only [optionMapExcept, exceptMap_ok] at h
    obtain ⟨c, hc, hcb⟩ := h
    cases hcb
    exact ⟨a, rfl, hc⟩

/-- A wrong-length metadata hash makes the asset-config builder fail. -/
theorem buildAssetConfig_metadata_wrong {acp : AssetConfigurationTransactionParams}
    {y : Option AssetConfigTransactionFields} {m : Bytes}
    (h : optionMapExcept buildAssetConfig (some acp) = .ok y)
    (hm : acp.assetMetadataHash = some m) (hlen : m.length ≠ 32) : False := by
  simp only [optionMapExcept, buildAssetConfig, hm] at h
  simp [exceptBind_ok, exceptMap_ok, optionalFixedLengthByteArray, hlen] at h

/-- A metadata hash surviving the asset-config builder is 32 bytes long. -/
theorem buildAssetConfig_ok_metadata {acp : AssetConfigurationTransactionParams}
    {cf : AssetConfigTransactionFields} (h : buildAssetConfig acp = .ok cf) :
    ∀ m, cf.assetMetadataHash = some m → m.length = 32 := by
  unfold buildAssetConfig at h
  simp only [bind, Except.bind, pure, Except.pure] at h
  repeat' split at h
  all_goals try cases h
  all_goals intro m hm
  all_goals simp at hm
  all_goals exact oflba_some (by assumption) hm

/-- C6 (amended): lease and metadataHash are length-checked at construction and are 32
bytes when present; the group is length-checked at decode attachment; the genesisHash is
only required to be non-empty, its length is not validated. -/
theorem C6_fixed_lengths (encB : EncodedTransaction → Bytes) :
    (∀ p t, Transaction.construct encB p = .ok t →
      t.genesisHash = p.suggestedParams.genesisHash ∧ t.genesisHash ≠ []) ∧
    (∀ p l, p.lease = some l → l.length ≠ 32 →
      exceptIsOk (Transaction.construct encB p) = false) ∧
    (∀ p t, Transaction.construct encB p = .ok t → ∀ l, t.lease = some l → l.length = 32) ∧
    (∀ p acp m, p.assetConfigParams = some acp → acp.assetMetadataHash = some m →
      m.length ≠ 32 → exceptIsOk (Transaction.construct encB p) = false) ∧
    (∀ p t cf, Transaction.construct encB p = .ok t → t.assetConfig = some cf →
      ∀ m, cf.assetMetadataHash = some m → m.length = 32) ∧
    (∀ enc t, Transaction.from_obj_for_encoding encB enc = .ok t →
      ∀ g, enc.grp = some g → g.length = 32) := by
  refine ⟨?_, ?_, ?_, ?_, ?_, ?_⟩
  · intro p t h
    unfold Transaction.construct at h
    simp only [bind, Except.bind, pure, Except.pure] at h
    repeat' split at h
    all_goals try cases h
    all_goals exact ⟨rfl, by assumption⟩
  · intro p l hl hlen
    cases hok : Transaction.construct encB p with
    | error e => rfl
    | ok t =>
      exfalso
      unfold Transaction.construct at hok
      simp only [hl, bind, Except.bind, pure, Except.pure] at hok
      repeat' split at hok
      all_goals try cases hok
      all_goals exact oflba_wrong hlen (by assumption)
  · intro p t h
    unfold Transaction.construct at h
    simp only [bind, Except.bind, pure, Except.pure] at h
    repeat' split at h
    all_goals try cases h
    all_goals intro l hl
    all_goals simp at hl
    all_goals exact oflba_some (by assumption) hl
  · intro p acp m hacp hm hlen
    cases hok : Transaction.construct encB p with
    | error e => rfl
    | ok t =>
      exfalso
      unfold Transaction.construct at hok
      simp only [bind, Except.bind, pure, Except.pure] at hok
      repeat' split at hok
      all_goals try cases hok
      all_goals exact buildAssetConfig_metadata_wrong (by rw [← hacp]; assumption) hm hlen
  · intro p t cf h hcf
    unfold Transaction.construct at h
    simp only [bind, Except.bind, pure, Except.pure] at h
    repeat' split at h
    all_goals try cases h
    all_goals simp at hcf
    all_goals
      (obtain ⟨acp, hacp, hok⟩ := optionMapExcept_ok_some (by assumption) hcf
       exact buildAssetConfig_ok_metadata hok)
  · intro enc t h
    unfold Transaction.from_obj_for_encoding at h
    simp only [bind, Except.bind, pure, Except.pure] at h
    repeat' split at h
    all_goals try cases h
    all_goals simp_all

/-- Payment input carrying a 3-byte lease. -/
def pLeaseW : TransactionParams := { pPayW with lease := some [5, 5, 5] }

/-- Payment input whose genesis hash decodes to a single byte. -/
def pGhW : TransactionParams :=
  { pPayW with suggestedParams := { spFlat with genesisHash := [1] } }

/-- The transaction constructed from pGhW: its genesis hash has length 1. -/
def tGhW : Transaction := { tPayW with genesisHash := [1] }

/-- Witness for C6: a 3-byte lease is rejected at a concrete payment input. -/
theorem C6_fixed_lengths_witness :
    exceptIsOk (Transaction.construct encB0 pLeaseW) = false :=
  (C6_fixed_lengths encB0).2.1 pLeaseW [5, 5, 5] (by rfl) (by decide)

/-- Counterexample for C6 as stated: the constructor never checks the genesisHash
length, so a 1-byte genesis hash is accepted and the constructed transaction violates
the claimed 32-byte invariant. -/
theorem C6_fixed_lengths_counterexample :
    Transaction.construct encB0 pGhW = .ok tGhW ∧ tGhW.genesisHash.length ≠ 32 :=
  ⟨by rfl, by decide⟩

/-- Offline key registration shape: not non-participating, every participation field
absent. -/
def keyregOffline (kp : KeyRegistrationTransactionParams) : Prop :=
  kp.nonParticipation.getD false = false ∧ kp.voteKey.isSome = false ∧
  kp.selectionKey.isSome = false ∧ kp.stateProofKey.isSome = false ∧
  kp.voteFirst.isSome = false ∧ kp.voteLast.isSome = false ∧
  kp.voteKeyDilution.isSome = false

/-- Online key registration shape: not non-participating, voteKey, selectionKey,
voteFirst, voteLast and voteKeyDilution all present; stateProofKey is free. -/
def keyregOnline (kp : KeyRegistrationTransactionParams) : Prop :=
  kp.nonParticipation.getD false = false ∧ kp.voteKey.isSome = true ∧
  kp.selectionKey.isSome = true ∧ kp.voteFirst.isSome = true ∧
  kp.voteLast.isSome = true ∧ kp.voteKeyDilution.isSome = true

/-- Non-participation shape: nonParticipation set, every participation field absent. -/
def keyregNonPart (kp : KeyRegistrationTransactionParams) : Prop :=
  kp.nonParticipation.getD false = true ∧ kp.voteKey.isSome = false ∧
  kp.selectionKey.isSome = false ∧ kp.stateProofKey.isSome = false ∧
  kp.voteFirst.isSome = false ∧ kp.voteLast.isSome = false ∧
  kp.voteKeyDilution.isSome = false

/-- A key surviving getKeyregKey is returned unchanged and has the required length. -/
theorem getKeyregKey_ok {x v : Option Bytes} {n : Nat} {name : String}
    (h : getKeyregKey x name n = .ok v) : v = x ∧ ∀ b, x = some b → b.length = n := by
  cases x with
  | none =>
    simp only [getKeyregKey] at h
    cases h
    exact ⟨rfl, by simp⟩
  | some b =>
    by_cases hb : b.length = n
    · simp only [getKeyregKey, hb, ne_eq, not_true_eq_false, if_false, reduceIte] at h
      cases h
      exact ⟨rfl, fun c hc => by cases hc; exact hb⟩
    · simp [getKeyregKey, hb] at h

/-- A value surviving optionalUint64 is returned unchanged and lies in range. -/
theorem optionalUint64_ok {x v : Option Nat} (h : optionalUint64 x = .ok v) :
    v = x ∧ ∀ m, x = some m → m ≤ MAX_UINT64 := by
  cases x with
  | none =>
    unfold optionalUint64 at h
    cases h
    exact ⟨rfl, by simp⟩
  | some n =>
    unfold optionalUint64 at h
    simp only [exceptMap_ok, ensureUint64_ok] at h
    obtain ⟨a, ⟨hle, ha⟩, hv⟩ := h
    subst ha
    subst hv
    exact ⟨rfl, fun m hm => by cases hm; exact hle⟩

/-- exceptIsOk holds exactly when the computation returned a value. -/
theorem exceptIsOk_iff {α : Type} {x : Except String α} :
    exceptIsOk x = true ↔ ∃ v, x = .ok v := by
  cases x <;> simp [exceptIsOk]

/-- Forward direction: a successful keyreg build implies one of the three shapes. -/
theorem buildKeyreg_ok_shape {kp : KeyRegistrationTransactionParams}
    {kr : KeyRegistrationTransactionFields} (h : buildKeyreg kp = .ok kr) :
    keyregOffline kp ∨ keyregOnline kp ∨ keyregNonPart kp := by
  unfold buildKeyreg at h
  simp only [bind, Except.bind, pure, Except.pure] at h
  repeat' split at h
  all_goals try cases h
  rename_i xvk vvk hvk xsk vsk hsk xspk vspk hspk xvf vvf hvf xvl vvl hvl xvkd vvkd hvkd
    c1 c2
  obtain ⟨evk, _⟩ := getKeyregKey_ok hvk
  obtain ⟨esk, _⟩ := getKeyregKey_ok hsk
  obtain ⟨espk, _⟩ := getKeyregKey_ok hspk
  obtain ⟨evf, _⟩ := optionalUint64_ok hvf
  obtain ⟨evl, _⟩ := optionalUint64_ok hvl
  obtain ⟨evkd, _⟩ := optionalUint64_ok hvkd
  subst evk
  subst esk
  subst espk
  subst evf
  subst evl
  subst evkd
  by_cases hnp : kp.nonParticipation.getD false = true
  · right; right
    have hno : ¬(kp.voteKey.isSome = true ∨ kp.selectionKey.isSome = true ∨
        kp.stateProofKey.isSome = true ∨ kp.voteFirst.isSome = true ∨
        kp.voteLast.isSome = true ∨ kp.voteKeyDilution.isSome = true) :=
      fun hb => c1 ⟨hnp, hb⟩
    push_neg at hno
    simp only [Bool.not_eq_true] at hno
    exact ⟨hnp, hno.1, hno.2.1, hno.2.2.1, hno.2.2.2.1, hno.2.2.2.2.1, hno.2.2.2.2.2⟩
  · have hnp2 : kp.nonParticipation.getD false = false := by
      cases h2 : kp.nonParticipation.getD false
      · rfl
      · exact absurd h2 hnp
    by_cases hany : kp.voteKey.isSome = true ∨ kp.selectionKey.isSome = true ∨
        kp.stateProofKey.isSome = true ∨ kp.voteFirst.isSome = true ∨
        kp.voteLast.isSome = true ∨ kp.voteKeyDilution.isSome = true
    · right; left
      have hall : kp.voteKey.isSome = true ∧ kp.selectionKey.isSome = true ∧
          kp.voteFirst.isSome = true ∧ kp.voteLast.isSome = true ∧
          kp.voteKeyDilution.isSome = true := by
        by_contra hnall
        exact c2 ⟨hnp, hany, hnall⟩
      exact ⟨hnp2, hall.1, hall.2.1, hall.2.2.1, hall.2.2.2.1, hall.2.2.2.2⟩
    · left
      push_neg at hany
      simp only [Bool.not_eq_true] at hany
      exact ⟨hnp2, hany.1, hany.2.1, hany.2.2.1, hany.2.2.2.1, hany.2.2.2.2.1,
        hany.2.2.2.2.2⟩

/-- getKeyregKey succeeds and returns its input when the length is right. -/
theorem getKeyregKey_eval {x : Option Bytes} {n : Nat} {name : String}
    (hx : ∀ b, x = some b → b.length = n) : getKeyregKey x name n = .ok x := by
  cases x with
  | none => rfl
  | some b => simp [getKeyregKey, hx b rfl]

/-- optionalUint64 succeeds and returns its input when the value is in range. -/
theorem optionalUint64_eval {x : Option Nat} (hx : ∀ m, x = some m → m ≤ MAX_UINT64) :
    optionalUint64 x = .ok x := by
  cases x with
  | none => rfl
  | some m => simp [optionalUint64, ensureUint64, hx m rfl, Except.map]

/-- A successful optional build on a present input has a successful inner build. -/
theorem optionMapExcept_some_ok {α β : Type} {f : α → Except String β} {a : α}
    {y : Option β} (h : optionMapExcept f (some a) = .ok y) : ∃ b, f a = .ok b := by
  simp only [optionMapExcept, exceptMap_ok] at h
  obtain ⟨b, hb, _⟩ := h
  exact ⟨b, hb⟩

/-- Backward direction: each of the three shapes passes the keyreg builder. -/
theorem buildKeyreg_shape_ok {kp : KeyRegistrationTransactionParams}
    (hvk : ∀ b, kp.voteKey = some b → b.length = 32)
    (hsk : ∀ b, kp.selectionKey = some b → b.length = 32)
    (hspk : ∀ b, kp.stateProofKey = some b → b.length = 64)
    (hvf : ∀ m, kp.voteFirst = some m → m ≤ MAX_UINT64)
    (hvl : ∀ m, kp.voteLast = some m → m ≤ MAX_UINT64)
    (hvkd : ∀ m, kp.voteKeyDilution = some m → m ≤ MAX_UINT64)
    (hshape : keyregOffline kp ∨ keyregOnline kp ∨ keyregNonPart kp) :
    exceptIsOk (buildKeyreg kp) = true := by
  have e1 := @getKeyregKey_eval kp.voteKey 32 "voteKey" hvk
  have e2 := @getKeyregKey_eval kp.selectionKey 32 "selectionKey" hsk
  have e3 := @getKeyregKey_eval kp.stateProofKey 64 "stateProofKey" hspk
  have e4 := optionalUint64_eval hvf
  have e5 := optionalUint64_eval hvl
  have e6 := optionalUint64_eval hvkd
  unfold buildKeyreg
  rcases hshape with ⟨h1, h2, h3, h4, h5, h6, h7⟩ | ⟨h1, h2, h3, h4, h5, h6⟩ |
    ⟨h1, h2, h3, h4, h5, h6, h7⟩ <;>
    simp [e1, e2, e3, e4, e5, e6, h1, h2, h3, h4, h5, h6, bind, Except.bind, pure,
      Except.pure, exceptIsOk]
  · simp_all
  · simp_all

/-- C3: with well-formed common fields and well-formed keyreg field values, the
constructor accepts a keyreg parameter record exactly when it has the offline, online or
non-participation shape, and rejects every other combination. -/
theorem C3_keyreg_tristate (encB : EncodedTransaction → Bytes) (p : TransactionParams)
    (kp : KeyRegistrationTransactionParams)
    (htype : p.type = .keyreg)
    (hkp : p.keyregParams = some kp)
    (h1 : p.paymentParams = none) (h2 : p.assetConfigParams = none)
    (h3 : p.assetTransferParams = none) (h4 : p.assetFreezeParams = none)
    (h5 : p.appCallParams = none) (h6 : p.stateProofParams = none)
    (hlease : exceptIsOk (optionalFixedLengthByteArray p.lease 32 "lease") = true)
    (hrekey : exceptIsOk (optionalAddress p.rekeyTo) = true)
    (hfv : p.suggestedParams.firstValid ≤ MAX_UINT64)
    (hlv : p.suggestedParams.lastValid ≤ MAX_UINT64)
    (hfee : p.suggestedParams.fee ≤ MAX_UINT64)
    (hgh : p.suggestedParams.genesisHash ≠ [])
    (hflat : p.suggestedParams.flatFee = some true)
    (hvk : ∀ b, kp.voteKey = some b → b.length = 32)
    (hsk : ∀ b, kp.selectionKey = some b → b.length = 32)
    (hspk : ∀ b, kp.stateProofKey = some b → b.length = 64)
    (hvf : ∀ m, kp.voteFirst = some m → m ≤ MAX_UINT64)
    (hvl : ∀ m, kp.voteLast = some m → m ≤ MAX_UINT64)
    (hvkd : ∀ m, kp.voteKeyDilution = some m → m ≤ MAX_UINT64) :
    exceptIsOk (Transaction.construct encB p) = true ↔
      (keyregOffline kp ∨ keyregOnline kp ∨ keyregNonPart kp) := by
  constructor
  · intro hok
    obtain ⟨t, ht⟩ := exceptIsOk_iff.mp hok
    unfold Transaction.construct at ht
    simp only [bind, Except.bind, pure, Except.pure] at ht
    repeat' split at ht
    all_goals try cases ht
    all_goals
      (obtain ⟨kr, hkr⟩ := optionMapExcept_some_ok (f := buildKeyreg)
        (by rw [← hkp]; assumption)
       exact buildKeyreg_ok_shape hkr)
  · intro hshape
    obtain ⟨lv2, hlv2⟩ := exceptIsOk_iff.mp hlease
    obtain ⟨rv2, hrv2⟩ := exceptIsOk_iff.mp hrekey
    obtain ⟨kr, hkr⟩ :=
      exceptIsOk_iff.mp (buildKeyreg_shape_ok hvk hsk hspk hvf hvl hvkd hshape)
    unfold Transaction.construct
    simp [hlv2, hrv2, hkr, hkp, htype, h1, h2, h3, h4, h5, h6, hflat, hgh, fieldsPresent,
      ensureUint64, hfv, hlv, hfee, optionMapExcept, bind, Except.bind, pure, Except.pure,
      exceptIsOk, Except.map]

/-- A concrete online key registration parameter record. -/
def kpOnW : KeyRegistrationTransactionParams :=
  { voteKey := some (List.replicate 32 3), selectionKey := some (List.replicate 32 4),
    voteFirst := some 1, voteLast := some 10, voteKeyDilution := some 1 }

/-- A concrete keyreg construction input in the online shape. -/
def pKrW : TransactionParams :=
  { type := .keyreg, sender := addr1, suggestedParams := spFlat,
    keyregParams := some kpOnW }

/-- Witness for C3: the concrete online shape is accepted. -/
theorem C3_keyreg_tristate_witness :
    exceptIsOk (Transaction.construct encB0 pKrW) = true :=
  (C3_keyreg_tristate encB0 pKrW kpOnW rfl rfl rfl rfl rfl rfl rfl rfl (by rfl) (by rfl)
    (by decide) (by decide) (by decide) (by decide) rfl
    (by intro b hb; cases hb; rfl) (by intro b hb; cases hb; rfl)
    (by intro b hb; cases hb) (by intro m hm; cases hm; decide)
    (by intro m hm; cases hm; decide) (by intro m hm; cases hm; decide)).mpr
    (Or.inr (Or.inl ⟨rfl, rfl, rfl, rfl, rfl, rfl⟩))

/-- C2 (amended): multisig verification returns true exactly when at least thr slots
carry signatures, at least thr signed slots pass Ed25519 verification against their slot
key, and the pre-image-derived address equals the expected public key.  (The source does
not require every signed slot to verify, only a threshold count.) -/
theorem C2_verify_multisig (verify : Bytes → Bytes → Bytes → Bool)
    (fmp : Nat → Nat → List Bytes → Bytes) (m : Bytes) (msig : EncodedMultisig)
    (pk : Bytes) :
    verifyMultisig verify fmp m msig pk = true ↔
      (msig.thr ≤ (msig.subsig.filter (fun sub => sub.s.isSome)).length ∧
       msig.thr ≤ (msig.subsig.filter (fun sub =>
         match sub.s with
         | some sg => verify m sg sub.pk
         | none => false)).length ∧
       fmp msig.v msig.thr (msig.subsig.map (fun sub => sub.pk)) = pk) := by
  unfold verifyMultisig
  constructor
  · intro h
    dsimp only at h
    split_ifs at h with h1 h2 h3 h4
    exact ⟨by omega, by omega, by simpa using h2⟩
  · rintro ⟨hc, hv, hpk⟩
    have hle := List.length_filter_le (fun sub => sub.s.isSome) msig.subsig
    dsimp only
    split_ifs with h1 h2 h3 h4
    · omega
    · exact absurd hpk (by simpa using h2)
    · omega
    · omega
    · rfl

/-- A concrete verifier accepting exactly the signature [9]. -/
def verifyCX : Bytes → Bytes → Bytes → Bool := fun _ sg _ => sg == [9]

/-- A concrete pre-image hash returning the address [7]. -/
def fmpCX : Nat → Nat → List Bytes → Bytes := fun _ _ _ => [7]

/-- A two-slot multisig record with one good and one bad signature, threshold 1. -/
def msigCX : EncodedMultisig :=
  { v := 1, thr := 1,
    subsig := [{ pk := [1], s := some [9] }, { pk := [2], s := some [8] }] }

/-- Counterexample for C2 as stated: the source returns true although the second signed
slot fails verification, so the claimed every-signed-slot-verifies condition is not
equivalent to the result. -/
theorem C2_verify_multisig_counterexample :
    ¬ (verifyMultisig verifyCX fmpCX [0] msigCX [7] = true ↔
        (msigCX.thr ≤ (msigCX.subsig.filter (fun sub => sub.s.isSome)).length ∧
         (∀ sub ∈ msigCX.subsig, ∀ sg, sub.s = some sg → verifyCX [0] sg sub.pk = true) ∧
         fmpCX msigCX.v msigCX.thr (msigCX.subsig.map (fun sub => sub.pk)) = [7])) := by
  decide

/-- Distributes a conditional over the EncodedTransaction constructor, so that a tower of
conditional record assignments normalizes to one record of conditional fields. -/
theorem ite_mk_encTxn (c : Prop) [Decidable c]
    (a1 b1 : TransactionType)
    (a2 b2 : Bytes)
    (a3 b3 : Nat)
    (a4 b4 : Option Bytes)
    (a5 b5 : Option String)
    (a6 b6 : Option Nat)
    (a7 b7 : Option Nat)
    (a8 b8 : Option Bytes)
    (a9 b9 : Option Bytes)
    (a10 b10 : Option Bytes)
    (a11 b11 : Option Bytes)
    (a12 b12 : Option Nat)
    (a13 b13 : Option Bytes)
    (a14 b14 : Option Bytes)
    (a15 b15 : Option Bytes)
    (a16 b16 : Option Bytes)
    (a17 b17 : Option Bytes)
    (a18 b18 : Option Nat)
    (a19 b19 : Option Nat)
    (a20 b20 : Option Nat)
    (a21 b21 : Option Bool)
    (a22 b22 : Option Nat)
    (a23 b23 : Option EncodedAssetParams)
    (a24 b24 : Option Nat)
    (a25 b25 : Option Nat)
    (a26 b26 : Option Bytes)
    (a27 b27 : Option Bytes)
    (a28 b28 : Option Bytes)
    (a29 b29 : Option Nat)
    (a30 b30 : Option Bool)
    (a31 b31 : Option Bytes)
    (a32 b32 : Option Nat)
    (a33 b33 : Option Nat)
    (a34 b34 : Option (List Bytes))
    (a35 b35 : Option (List Bytes))
    (a36 b36 : Option (List Nat))
    (a37 b37 : Option (List Nat))
    (a38 b38 : Option (List EncodedBoxRef))
    (a39 b39 : Option Bytes)
    (a40 b40 : Option Bytes)
    (a41 b41 : Option EncodedStateSchema)
    (a42 b42 : Option EncodedStateSchema)
    (a43 b43 : Option Nat)
    (a44 b44 : Option Nat)
    (a45 b45 : Option Bytes)
    (a46 b46 : Option Bytes) :
    (if c then EncodedTransaction.mk a1 a2 a3 a4 a5 a6 a7 a8 a9 a10 a11 a12 a13 a14 a15 a16 a17 a18 a19 a20 a21 a22 a23 a24 a25 a26 a27 a28 a29 a30 a31 a32 a33 a34 a35 a36 a37 a38 a39 a40 a41 a42 a43 a44 a45 a46
      else EncodedTransaction.mk b1 b2 b3 b4 b5 b6 b7 b8 b9 b10 b11 b12 b13 b14 b15 b16 b17 b18 b19 b20 b21 b22 b23 b24 b25 b26 b27 b28 b29 b30 b31 b32 b33 b34 b35 b36 b37 b38 b39 b40 b41 b42 b43 b44 b45 b46) =
      EncodedTransaction.mk (if c then a1 else b1) (if c then a2 else b2) (if c then a3 else b3) (if c then a4 else b4) (if c then a5 else b5) (if c then a6 else b6) (if c then a7 else b7) (if c then a8 else b8) (if c then a9 else b9) (if c then a10 else b10) (if c then a11 else b11) (if c then a12 else b12) (if c then a13 else b13) (if c then a14 else b14) (if c then a15 else b15) (if c then a16 else b16) (if c then a17 else b17) (if c then a18 else b18) (if c then a19 else b19) (if c then a20 else b20) (if c then a21 else b21) (if c then a22 else b22) (if c then a23 else b23) (if c then a24 else b24) (if c then a25 else b25) (if c then a26 else b26) (if c then a27 else b27) (if c then a28 else b28) (if c then a29 else b29) (if c then a30 else b30) (if c then a31 else b31) (if c then a32 else b32) (if c then a33 else b33) (if c then a34 else b34) (if c then a35 else b35) (if c then a36 else b36) (if c then a37 else b37) (if c then a38 else b38) (if c then a39 else b39) (if c then a40 else b40) (if c then a41 else b41) (if c then a42 else b42) (if c then a43 else b43) (if c then a44 else b44) (if c then a45 else b45) (if c then a46 else b46) := by
  split <;> rfl

/-- Distributes a conditional over the EncodedAssetParams constructor, so that a tower of
conditional record assignments normalizes to one record of conditional fields. -/
theorem ite_mk_assetParams (c : Prop) [Decidable c]
    (a1 b1 : Option Nat)
    (a2 b2 : Option Nat)
    (a3 b3 : Option Bool)
    (a4 b4 : Option Bytes)
    (a5 b5 : Option Bytes)
    (a6 b6 : Option Bytes)
    (a7 b7 : Option Bytes)
    (a8 b8 : Option String)
    (a9 b9 : Option String)
    (a10 b10 : Option String)
    (a11 b11 : Option Bytes) :
    (if c then EncodedAssetParams.mk a1 a2 a3 a4 a5 a6 a7 a8 a9 a10 a11
      else EncodedAssetParams.mk b1 b2 b3 b4 b5 b6 b7 b8 b9 b10 b11) =
      EncodedAssetParams.mk (if c then a1 else b1) (if c then a2 else b2) (if c then a3 else b3) (if c then a4 else b4) (if c then a5 else b5) (if c then a6 else b6) (if c then a7 else b7) (if c then a8 else b8) (if c then a9 else b9) (if c then a10 else b10) (if c then a11 else b11) := by
  split <;> rfl

/-- The common key/value assignments of the encoder, in explicit form. -/
def commonEnc (t : Transaction) : EncodedTransaction :=
  { type := t.type, gh := t.genesisHash, lv := t.lastValid,
    snd := if uint8ArrayIsEmpty t.sender then none else some t.sender,
    gen := if t.genesisID.getD "" = "" then none else t.genesisID,
    fee := if t.fee = 0 then none else some t.fee,
    fv := if t.firstValid = 0 then none else some t.firstValid,
    note := if t.note = [] then none else some t.note,
    lx := if t.lease.isSome then t.lease else none,
    rekey := if t.rekeyTo.isSome then t.rekeyTo else none,
    grp := if t.group = [] then none else some t.group }

/-- Explicit form of the asset-params sub-map of the encoder. -/
def acfgParamsEnc (cf : AssetConfigTransactionFields) : EncodedAssetParams :=
  { t := if cf.assetTotal = 0 then none else some cf.assetTotal,
    dc := if cf.assetDecimals = 0 then none else some cf.assetDecimals,
    df := if cf.assetDefaultFrozen then some true else none,
    m := if cf.assetManager.isSome then cf.assetManager else none,
    r := if cf.assetReserve.isSome then cf.assetReserve else none,
    f := if cf.assetFreeze.isSome then cf.assetFreeze else none,
    c := if cf.assetClawback.isSome then cf.assetClawback else none,
    un := if cf.assetUnitName = "" then none else some cf.assetUnitName,
    an := if cf.assetName = "" then none else some cf.assetName,
    au := if cf.assetURL = "" then none else some cf.assetURL,
    am := if cf.assetMetadataHash.isSome then cf.assetMetadataHash else none }

/-- Evaluation of the encoder on a payment transaction. -/
theorem get_obj_pay {t : Transaction} {pf : PaymentTransactionFields}
    (hp : t.payment = some pf) :
    t.get_obj_for_encoding = .ok
      { commonEnc t with
        amt := if pf.amount = 0 then none else some pf.amount,
        rcv := if uint8ArrayIsEmpty pf.receiver then none else some pf.receiver,
        close := if pf.closeRemainderTo.isSome then pf.closeRemainderTo else none } := by
  unfold Transaction.get_obj_for_encoding
  rw [hp]
  simp only [ite_mk_encTxn, ite_self, pure, Except.pure, commonEnc]

/-- Evaluation of the encoder on a key registration transaction. -/
theorem get_obj_keyreg {t : Transaction} {kf : KeyRegistrationTransactionFields}
    (h1 : t.payment = none) (hk : t.keyreg = some kf) :
    t.get_obj_for_encoding = .ok
      { commonEnc t with
        votekey := if kf.voteKey.isSome then kf.voteKey else none,
        selkey := if kf.selectionKey.isSome then kf.selectionKey else none,
        sprfkey := if kf.stateProofKey.isSome then kf.stateProofKey else none,
        votefst := if kf.voteFirst.getD 0 = 0 then none else kf.voteFirst,
        votelst := if kf.voteLast.getD 0 = 0 then none else kf.voteLast,
        votekd := if kf.voteKeyDilution.getD 0 = 0 then none else kf.voteKeyDilution,
        nonpart := if kf.nonParticipation then some true else none } := by
  unfold Transaction.get_obj_for_encoding
  rw [h1, hk]
  simp only [ite_mk_encTxn, ite_self, pure, Except.pure, commonEnc]

/-- Evaluation of the encoder on an asset configuration transaction. -/
theorem get_obj_acfg {t : Transaction} {cf : AssetConfigTransactionFields}
    (h1 : t.payment = none) (h2 : t.keyreg = none) (hc : t.assetConfig = some cf) :
    t.get_obj_for_encoding = .ok
      { commonEnc t with
        caid := if cf.assetId = 0 then none else some cf.assetId,
        apar := if acfgParamsEnc cf = ({} : EncodedAssetParams) then none
          else some (acfgParamsEnc cf) } := by
  unfold Transaction.get_obj_for_encoding
  rw [h1, h2, hc]
  simp only [ite_mk_encTxn, ite_mk_assetParams, ite_self, pure, Except.pure, commonEnc,
    acfgParamsEnc]

/-- Evaluation of the encoder on an asset transfer transaction. -/
theorem get_obj_axfer {t : Transaction} {xf : AssetTransferTransactionFields}
    (h1 : t.payment = none) (h2 : t.keyreg = none) (h3 : t.assetConfig = none)
    (hx : t.assetTransfer = some xf) :
    t.get_obj_for_encoding = .ok
      { commonEnc t with
        xaid := if xf.assetId = 0 then none else some xf.assetId,
        aamt := if xf.amount = 0 then none else some xf.amount,
        arcv := if uint8ArrayIsEmpty xf.receiver then none else some xf.receiver,
        aclose := if xf.closeRemainderTo.isSome then xf.closeRemainderTo else none,
        asnd := if xf.sender.isSome then xf.sender else none } := by
  unfold Transaction.get_obj_for_encoding
  rw [h1, h2, h3, hx]
  simp only [ite_mk_encTxn, ite_self, pure, Except.pure, commonEnc]

/-- Evaluation of the encoder on an asset freeze transaction. -/
theorem get_obj_afrz {t : Transaction} {ff : AssetFreezeTransactionFields}
    (h1 : t.payment = none) (h2 : t.keyreg = none) (h3 : t.assetConfig = none)
    (h4 : t.assetTransfer = none) (hf : t.assetFreeze = some ff) :
    t.get_obj_for_encoding = .ok
      { commonEnc t with
        faid := if ff.assetId = 0 then none else some ff.assetId,
        afrz := if ff.assetFrozen then some true else none,
        fadd := if uint8ArrayIsEmpty ff.freezeAccount then none
          else some ff.freezeAccount } := by
  unfold Transaction.get_obj_for_encoding
  rw [h1, h2, h3, h4, hf]
  simp only [ite_mk_encTxn, ite_self, pure, Except.pure, commonEnc]

/-- Evaluation of the encoder on an application call transaction whose box references
translate successfully. -/
theorem get_obj_appl {t : Transaction} {af : ApplicationTransactionFields}
    {bx : List EncodedBoxRef}
    (h1 : t.payment = none) (h2 : t.keyreg = none) (h3 : t.assetConfig = none)
    (h4 : t.assetTransfer = none) (h5 : t.assetFreeze = none)
    (ha : t.applicationCall = some af)
    (htr : translateBoxReferences af.boxes af.appForeignApps af.appId = .ok bx) :
    t.get_obj_for_encoding = .ok
      { commonEnc t with
        apid := if af.appId = 0 then none else some af.appId,
        apan := if af.appOnComplete = 0 then none else some af.appOnComplete,
        apaa := if af.appArgs = [] then none else some af.appArgs,
        apat := if af.appAccounts = [] then none else some af.appAccounts,
        apas := if af.appForeignAssets = [] then none else some af.appForeignAssets,
        apfa := if af.appForeignApps = [] then none else some af.appForeignApps,
        apbx := if af.boxes = [] then none else some bx,
        apap := if af.appApprovalProgram = [] then none else some af.appApprovalProgram,
        apsu := if af.appClearProgram = [] then none else some af.appClearProgram,
        apls := if af.appLocalInts = 0 ∧ af.appLocalByteSlices = 0 then none
          else some
            { nui := if af.appLocalInts = 0 then none else some af.appLocalInts,
              nbs := if af.appLocalByteSlices = 0 then none
                else some af.appLocalByteSlices },
        apgs := if af.appGlobalInts = 0 ∧ af.appGlobalByteSlices = 0 then none
          else some
            { nui := if af.appGlobalInts = 0 then none else some af.appGlobalInts,
              nbs := if af.appGlobalByteSlices = 0 then none
                else some af.appGlobalByteSlices },
        apep := if af.extraPages = 0 then none else some af.extraPages } := by
  unfold Transaction.get_obj_for_encoding
  rw [h1, h2, h3, h4, h5, ha]
  by_cases hb : af.boxes = []
  · simp only [hb, if_pos, ite_mk_encTxn, ite_self, pure, Except.pure, commonEnc, bind,
      Except.bind, ite_true, eq_self_iff_true]
  · simp only [hb, if_neg, ite_false, htr, bind, Except.bind, pure, Except.pure,
      ite_mk_encTxn, ite_self, commonEnc]

/-- Evaluation of the encoder on a state proof transaction: spmsg and sp are emitted
unconditionally. -/
theorem get_obj_stpf {t : Transaction} {sf : StateProofTransactionFields}
    (h1 : t.payment = none) (h2 : t.keyreg = none) (h3 : t.assetConfig = none)
    (h4 : t.assetTransfer = none) (h5 : t.assetFreeze = none)
    (h6 : t.applicationCall = none) (hs : t.stateProof = some sf) :
    t.get_obj_for_encoding = .ok
      { commonEnc t with
        sptype := if sf.stateProofType = 0 then none else some sf.stateProofType,
        spmsg := some sf.stateProofMessage,
        sp := some sf.stateProof } := by
  unfold Transaction.get_obj_for_encoding
  rw [h1, h2, h3, h4, h5, h6, hs]
  simp only [ite_mk_encTxn, ite_self, pure, Except.pure, commonEnc]


/-- An all-zero fixed-length byte array of the right length is elided to absent. -/
theorem oflba_zero {l : Bytes} {n : Nat} {name : String} {v : Option Bytes}
    (hz : uint8ArrayIsEmpty l = true)
    (h : optionalFixedLengthByteArray (some l) n name = .ok v) : v = none := by
  simp only [optionalFixedLengthByteArray, hz, if_true] at h
  split at h
  · cases h
  · cases h
    rfl

/-- C1 (amended): the encoder omits the key of every guarded field whose value equals
its default (zero integers, empty byte strings and arrays, all-zero addresses and
senders, false booleans, all-zero lease at construction), and supplying a default value
at construction produces the same canonical structure as not supplying the field; the
exceptions are type, gh and lv, which are always emitted, and, for state proof
transactions, spmsg and sp, which are emitted unconditionally. -/
theorem C1_default_elision (encB : EncodedTransaction → Bytes) (p : TransactionParams)
    (t : Transaction) (h : Transaction.construct encB p = .ok t) :
    (∀ e, t.get_obj_for_encoding = .ok e →
      (uint8ArrayIsEmpty t.sender = true → e.snd = none) ∧
      (t.genesisID.getD "" = "" → e.gen = none) ∧
      (t.fee = 0 → e.fee = none) ∧
      (t.firstValid = 0 → e.fv = none) ∧
      (t.note = [] → e.note = none) ∧
      (t.lease = none → e.lx = none) ∧
      (t.rekeyTo = none → e.rekey = none) ∧
      (t.group = [] → e.grp = none)) ∧
    (∀ l, p.lease = some l → uint8ArrayIsEmpty l = true → t.lease = none) ∧
    (∀ e pf, t.payment = some pf → t.get_obj_for_encoding = .ok e →
      (pf.amount = 0 → e.amt = none) ∧
      (uint8ArrayIsEmpty pf.receiver = true → e.rcv = none) ∧
      (pf.closeRemainderTo = none → e.close = none)) ∧
    (∀ e kf, t.payment = none → t.keyreg = some kf → t.get_obj_for_encoding = .ok e →
      (kf.voteKey = none → e.votekey = none) ∧
      (kf.selectionKey = none → e.selkey = none) ∧
      (kf.stateProofKey = none → e.sprfkey = none) ∧
      (kf.voteFirst.getD 0 = 0 → e.votefst = none) ∧
      (kf.voteLast.getD 0 = 0 → e.votelst = none) ∧
      (kf.voteKeyDilution.getD 0 = 0 → e.votekd = none) ∧
      (kf.nonParticipation = false → e.nonpart = none)) ∧
    (∀ e cf, t.payment = none → t.keyreg = none → t.assetConfig = some cf →
      t.get_obj_for_encoding = .ok e →
      (cf.assetId = 0 → e.caid = none) ∧
      (acfgParamsEnc cf = ({} : EncodedAssetParams) → e.apar = none) ∧
      (cf.assetTotal = 0 → (e.apar.getD {}).t = none) ∧
      (cf.assetDecimals = 0 → (e.apar.getD {}).dc = none) ∧
      (cf.assetDefaultFrozen = false → (e.apar.getD {}).df = none) ∧
      (cf.assetManager = none → (e.apar.getD {}).m = none) ∧
      (cf.assetReserve = none → (e.apar.getD {}).r = none) ∧
      (cf.assetFreeze = none → (e.apar.getD {}).f = none) ∧
      (cf.assetClawback = none → (e.apar.getD {}).c = none) ∧
      (cf.assetUnitName = "" → (e.apar.getD {}).un = none) ∧
      (cf.assetName = "" → (e.apar.getD {}).an = none) ∧
      (cf.assetURL = "" → (e.apar.getD {}).au = none) ∧
      (cf.assetMetadataHash = none → (e.apar.getD {}).am = none)) ∧
    (∀ e xf, t.payment = none → t.keyreg = none → t.assetConfig = none →
      t.assetTransfer = some xf → t.get_obj_for_encoding = .ok e →
      (xf.assetId = 0 → e.xaid = none) ∧
      (xf.amount = 0 → e.aamt = none) ∧
      (uint8ArrayIsEmpty xf.receiver = true → e.arcv = none) ∧
      (xf.closeRemainderTo = none → e.aclose = none) ∧
      (xf.sender = none → e.asnd = none)) ∧
    (∀ e ff, t.payment = none → t.keyreg = none → t.assetConfig = none →
      t.assetTransfer = none → t.assetFreeze = some ff → t.get_obj_for_encoding = .ok e →
      (ff.assetId = 0 → e.faid = none) ∧
      (ff.assetFrozen = false → e.afrz = none) ∧
      (uint8ArrayIsEmpty ff.freezeAccount = true → e.fadd = none)) ∧
    (∀ e af, t.payment = none → t.keyreg = none → t.assetConfig = none →
      t.assetTransfer = none → t.assetFreeze = none → t.applicationCall = some af →
      t.get_obj_for_encoding = .ok e →
      (af.appId = 0 → e.apid = none) ∧
      (af.appOnComplete = 0 → e.apan = none) ∧
      (af.appArgs = [] → e.apaa = none) ∧
      (af.appAccounts = [] → e.apat = none) ∧
      (af.appForeignAssets = [] → e.apas = none) ∧
      (af.appForeignApps = [] → e.apfa = none) ∧
      (af.boxes = [] → e.apbx = none) ∧
      (af.appApprovalProgram = [] → e.apap = none) ∧
      (af.appClearProgram = [] → e.apsu = none) ∧
      (af.appLocalInts = 0 ∧ af.appLocalByteSlices = 0 → e.apls = none) ∧
      (af.appGlobalInts = 0 ∧ af.appGlobalByteSlices = 0 → e.apgs = none) ∧
      (af.extraPages = 0 → e.apep = none)) ∧
    (∀ e sf, t.payment = none → t.keyreg = none → t.assetConfig = none →
      t.assetTransfer = none → t.assetFreeze = none → t.applicationCall = none →
      t.stateProof = some sf → t.get_obj_for_encoding = .ok e →
      (sf.stateProofType = 0 → e.sptype = none)) ∧
    (Transaction.construct encB { p with note := some [] } =
      Transaction.construct encB { p with note := none }) := by
  refine ⟨?_, ?_, ?_, ?_, ?_, ?_, ?_, ?_, ?_, ?_⟩
  · intro e he
    cases hv1 : t.payment with
    | some pf =>
      rw [get_obj_pay hv1] at he
      cases he
      simp [commonEnc]
      try tauto
    | none =>
    cases hv2 : t.keyreg with
    | some kf =>
      rw [get_obj_keyreg hv1 hv2] at he
      cases he
      simp [commonEnc]
      try tauto
    | none =>
    cases hv3 : t.assetConfig with
    | some cf =>
      rw [get_obj_acfg hv1 hv2 hv3] at he
      cases he
      simp [commonEnc]
      try tauto
    | none =>
    cases hv4 : t.assetTransfer with
    | some xf =>
      rw [get_obj_axfer hv1 hv2 hv3 hv4] at he
      cases he
      simp [commonEnc]
      try tauto
    | none =>
    cases hv5 : t.assetFreeze with
    | some ff =>
      rw [get_obj_afrz hv1 hv2 hv3 hv4 hv5] at he
      cases he
      simp [commonEnc]
      try tauto
    | none =>
    cases hv6 : t.applicationCall with
    | some af =>
      by_cases hb : af.boxes = []
      · rw [@get_obj_appl _ _ [] hv1 hv2 hv3 hv4 hv5 hv6 (by rw [hb]; rfl)] at he
        cases he
        simp [commonEnc]
        try tauto
      · cases hbx : translateBoxReferences af.boxes af.appForeignApps af.appId with
        | error err =>
          exfalso
          unfold Transaction.get_obj_for_encoding at he
          rw [hv1, hv2, hv3, hv4, hv5, hv6] at he
          simp [hb, hbx, bind, Except.bind, pure, Except.pure] at he
        | ok bx =>
          rw [get_obj_appl hv1 hv2 hv3 hv4 hv5 hv6 hbx] at he
          cases he
          simp [commonEnc]
          try tauto
    | none =>
    cases hv7 : t.stateProof with
    | some sf =>
      rw [get_obj_stpf hv1 hv2 hv3 hv4 hv5 hv6 hv7] at he
      cases he
      simp [commonEnc]
      try tauto
    | none =>
      exfalso
      unfold Transaction.get_obj_for_encoding at he
      rw [hv1, hv2, hv3, hv4, hv5, hv6, hv7] at he
      cases he
  · intro l hl hz
    unfold Transaction.construct at h
    simp only [hl, bind, Except.bind, pure, Except.pure] at h
    repeat' split at h
    all_goals try cases h
    all_goals exact oflba_zero hz (by assumption)
  · intro e pf hp he
    rw [get_obj_pay hp] at he
    cases he
    simp [commonEnc]
    try tauto
  · intro e kf h1 h2 he
    rw [get_obj_keyreg h1 h2] at he
    cases he
    simp [commonEnc]
    try tauto
  · intro e cf h1 h2 h3 he
    rw [get_obj_acfg h1 h2 h3] at he
    cases he
    refine ⟨?_, ?_, ?_, ?_, ?_, ?_, ?_, ?_, ?_, ?_, ?_, ?_, ?_⟩ <;> intro hd
    · simp [commonEnc, hd]
    · simp [commonEnc, hd]
    all_goals
      (simp only [commonEnc]
       split <;> simp [acfgParamsEnc, hd])
  · intro e xf h1 h2 h3 h4 he
    rw [get_obj_axfer h1 h2 h3 h4] at he
    cases he
    simp [commonEnc]
    try tauto
  · intro e ff h1 h2 h3 h4 h5 he
    rw [get_obj_afrz h1 h2 h3 h4 h5] at he
    cases he
    simp [commonEnc]
    try tauto
  · intro e af h1 h2 h3 h4 h5 h6 he
    by_cases hb : af.boxes = []
    · rw [@get_obj_appl _ _ [] h1 h2 h3 h4 h5 h6 (by rw [hb]; rfl)] at he
      cases he
      simp [commonEnc, hb]
    · cases hbx : translateBoxReferences af.boxes af.appForeignApps af.appId with
      | error err =>
        exfalso
        unfold Transaction.get_obj_for_encoding at he
        rw [h1, h2, h3, h4, h5, h6] at he
        simp [hb, hbx, bind, Except.bind, pure, Except.pure] at he
      | ok bx =>
        rw [get_obj_appl h1 h2 h3 h4 h5 h6 hbx] at he
        cases he
        simp [commonEnc, hb]
  · intro e sf h1 h2 h3 h4 h5 h6 h7 he
    rw [get_obj_stpf h1 h2 h3 h4 h5 h6 h7] at he
    cases he
    simp [commonEnc]
    try tauto
  · rfl

/-- A state proof construction input with all payload fields defaulted. -/
def pSpfW : TransactionParams :=
  { type := .stpf, sender := addr1, suggestedParams := spFlat,
    stateProofParams := some {} }

/-- The transaction constructed from pSpfW. -/
def tSpfW : Transaction :=
  { type := .stpf, sender := addr1, note := [], lease := none, rekeyTo := none,
    group := [], fee := 1000, firstValid := 1, lastValid := 1001,
    genesisID := some "testnet-v1.0", genesisHash := gh1,
    stateProof := some { stateProofType := 0, stateProof := [], stateProofMessage := [] } }

/-- The canonical structure of tSpfW: spmsg and sp are present despite being empty. -/
def eSpfW : EncodedTransaction :=
  { type := .stpf, gh := gh1, lv := 1001, snd := some addr1,
    gen := some "testnet-v1.0", fee := some 1000, fv := some 1,
    spmsg := some [], sp := some [] }

/-- Witness for C1 at the concrete payment transaction. -/
theorem C1_default_elision_witness : eFeeW.note = none ∧ eFeeW.lx = none :=
  have hC := C1_default_elision encB0 pPayW tPayW (by rfl)
  ⟨(hC.1 eFeeW (by rfl)).2.2.2.2.1 rfl, (hC.1 eFeeW (by rfl)).2.2.2.2.2.1 rfl⟩

/-- Counterexample for C1 as stated: a constructed state proof transaction with an
empty (default) stateProof and stateProofMessage still gets the keys sp and spmsg in its
canonical structure, so not every default-valued field is omitted. -/
theorem C1_default_elision_counterexample :
    Transaction.construct encB0 pSpfW = .ok tSpfW ∧
    tSpfW.get_obj_for_encoding = .ok eSpfW ∧
    tSpfW.stateProof =
      some { stateProofType := 0, stateProof := [], stateProofMessage := [] } ∧
    eSpfW.sp = some [] ∧ eSpfW.spmsg = some [] :=
  ⟨by rfl, by rfl, rfl, rfl, rfl⟩

/-- The empty slot list has no signatures. -/
theorem slotSig_nil (k : Nat) : slotSig [] k = none := by
  cases k <;> rfl

/-- Slot zero of a cons is the head signature. -/
theorem slotSig_cons_zero (c : EncodedSubsig) (cs : List EncodedSubsig) :
    slotSig (c :: cs) 0 = c.s := rfl

/-- Later slots of a cons are the slots of the tail. -/
theorem slotSig_cons_succ (c : EncodedSubsig) (cs : List EncodedSubsig) (k : Nat) :
    slotSig (c :: cs) (k + 1) = slotSig cs k := rfl

/-- The merged value of one slot: the incoming signature when present, otherwise the
accumulated one; the public key of the accumulated slot is kept. -/
def mergedSub (c u : EncodedSubsig) : EncodedSubsig :=
  { c with s := match u.s with | some us => some us | none => c.s }

/-- Two slots are compatible when their signatures agree wherever both are present. -/
def slotCompat (a b : Option Bytes) : Prop :=
  ∀ x y, a = some x → b = some y → x = y

/-- The output of a successful mergeSlots is the pointwise merge. -/
theorem mergeSlots_ok_val {cur uni out : List EncodedSubsig}
    (h : mergeSlots cur uni = .ok out) (hlen : uni.length = cur.length) :
    out = List.zipWith mergedSub cur uni := by
  induction cur generalizing uni out with
  | nil =>
    cases uni with
    | nil => cases h; rfl
    | cons u us => simp at hlen
  | cons c cs ih =>
    cases uni with
    | nil => simp at hlen
    | cons u us =>
      have hlen2 : us.length = cs.length := by simpa using hlen
      unfold mergeSlots at h
      simp only [bind, Except.bind, pure, Except.pure] at h
      repeat' split at h
      all_goals try cases h
      all_goals simp_all [mergedSub]
      all_goals exact ih (by assumption) hlen2

/-- A successful mergeSlots implies slotwise compatibility. -/
theorem mergeSlots_ok_compat {cur uni out : List EncodedSubsig}
    (h : mergeSlots cur uni = .ok out) :
    ∀ k, slotCompat (slotSig cur k) (slotSig uni k) := by
  induction cur generalizing uni out with
  | nil =>
    intro k
    simp [slotSig_nil, slotCompat]
  | cons c cs ih =>
    cases uni with
    | nil =>
      intro k
      cases k with
      | zero => intro x y hx hy; cases hy
      | succ n => intro x y hx hy; simp [slotSig_nil] at hy
    | cons u us =>
      unfold mergeSlots at h
      simp only [bind, Except.bind, pure, Except.pure] at h
      repeat' split at h
      all_goals try cases h
      all_goals intro k
      all_goals cases k with
        | zero =>
          intro x y hx hy
          simp only [slotSig_cons_zero] at hx hy
          simp_all
        | succ n =>
          simp only [slotSig_cons_succ]
          exact ih (by assumption) n

/-- Slotwise compatibility on equal-length inputs makes mergeSlots succeed with the
pointwise merge. -/
theorem mergeSlots_compat_ok {cur uni : List EncodedSubsig}
    (hlen : uni.length = cur.length)
    (hcomp : ∀ k, slotCompat (slotSig cur k) (slotSig uni k)) :
    mergeSlots cur uni = .ok (List.zipWith mergedSub cur uni) := by
  induction cur generalizing uni with
  | nil =>
    cases uni with
    | nil => rfl
    | cons u us => simp at hlen
  | cons c cs ih =>
    cases uni with
    | nil => simp at hlen
    | cons u us =>
      have hlen2 : us.length = cs.length := by simpa using hlen
      have hrest := ih hlen2 (fun k => hcomp (k + 1))
      cases hu : u.s with
      | none =>
        unfold mergeSlots
        rw [hu]
        simp [bind, Except.bind, pure, Except.pure, hrest, mergedSub, hu]
      | some y =>
        cases hc : c.s with
        | none =>
          unfold mergeSlots
          rw [hu, hc]
          simp [bind, Except.bind, pure, Except.pure, hrest, mergedSub, hu, hc]
        | some x =>
          have hxy : x = y := hcomp 0 x y (by simp [slotSig_cons_zero, hc])
            (by simp [slotSig_cons_zero, hu])
          unfold mergeSlots
          rw [hu, hc]
          simp [bind, Except.bind, pure, Except.pure, hrest, mergedSub, hu, hc, hxy]

/-- Slot signatures of the pointwise merge: the incoming one wins
whenever present and in range. -/
theorem slotSig_zipWith (cur uni : List EncodedSubsig) (k : Nat) :
    slotSig (List.zipWith mergedSub cur uni) k =
      (match slotSig uni k with
       | some us => if k < cur.length then some us else none
       | none => if k < uni.length then slotSig cur k else none) := by
  induction cur generalizing uni k with
  | nil =>
    cases uni with
    | nil => cases k <;> simp [slotSig_nil]
    | cons u us =>
      cases k with
      | zero => cases hu : u.s <;> simp [slotSig_nil, slotSig_cons_zero, hu]
      | succ n =>
        cases hu : slotSig us n <;>
          simp [slotSig_nil, slotSig_cons_succ, hu]
  | cons c cs ih =>
    cases uni with
    | nil => cases k <;> simp [slotSig_nil]
    | cons u us =>
      cases k with
      | zero => cases hu : u.s <;> simp [slotSig_cons_zero, mergedSub, hu]
      | succ n =>
        simp only [List.zipWith_cons_cons, slotSig_cons_succ, ih us n,
          List.length_cons, Nat.succ_lt_succ_iff]

/-- Inversion of one successful mergeLoop step: the head blob passes
every check and the loop continues on the merged slots. -/
theorem mergeLoop_cons_ok {encB genericHash b32trunc fmp refTxID refAuthAddr refLen
    refMsigAddr acc b rest r}
    (h : mergeLoop encB genericHash b32trunc fmp refTxID refAuthAddr refLen refMsigAddr
      acc (b :: rest) = .ok r) :
    ∃ um ut utid acc2, b.msig = some um ∧
      Transaction.from_obj_for_encoding encB b.txn = .ok ut ∧
      ut.txID encB genericHash b32trunc = .ok utid ∧ utid = refTxID ∧
      b.sgnr = refAuthAddr ∧ um.subsig.length = refLen ∧
      fmp um.v um.thr (um.subsig.map (fun sub => sub.pk)) = refMsigAddr ∧
      mergeSlots acc um.subsig = .ok acc2 ∧
      mergeLoop encB genericHash b32trunc fmp refTxID refAuthAddr refLen refMsigAddr
        acc2 rest = .ok r := by
  unfold mergeLoop at h
  simp only [bind, Except.bind, pure, Except.pure] at h
  repeat' split at h
  all_goals try cases h
  exact ⟨_, _, _, _, by assumption, by assumption, by assumption,
    not_ne_iff.mp (by assumption), not_ne_iff.mp (by assumption),
    not_ne_iff.mp (by assumption), not_ne_iff.mp (by assumption), by assumption, h⟩

/-- A present slot signature lies inside the list. -/
theorem slotSig_some_lt {l : List EncodedSubsig} {k : Nat} {s : Bytes}
    (h : slotSig l k = some s) : k < l.length := by
  by_contra hk
  have hn : l.get? k = none := List.get?_eq_none.mpr (Nat.le_of_not_lt hk)
  rw [List.get?_eq_getElem?] at hn
  simp [slotSig, hn] at h

/-- A successful mergeSlots keeps the accumulator length. -/
theorem mergeSlots_ok_length {acc uni acc2 : List EncodedSubsig}
    (h : mergeSlots acc uni = .ok acc2) (hlen : uni.length = acc.length) :
    acc2.length = acc.length := by
  rw [mergeSlots_ok_val h hlen]
  simp [List.length_zipWith, hlen]

/-- A successful mergeSlots preserves every signature already
accumulated. -/
theorem mergeSlots_slot_preserve {acc uni acc2 : List EncodedSubsig} {k : Nat} {s : Bytes}
    (h : mergeSlots acc uni = .ok acc2) (hlen : uni.length = acc.length)
    (hs : slotSig acc k = some s) : slotSig acc2 k = some s := by
  have hval := mergeSlots_ok_val h hlen
  have hcomp := mergeSlots_ok_compat h k
  subst hval
  rw [slotSig_zipWith]
  cases hu : slotSig uni k with
  | none =>
    have hk : k < uni.length := hlen ▸ slotSig_some_lt hs
    simp [hk, hs]
  | some us =>
    have : s = us := hcomp s us hs hu
    subst this
    simp [slotSig_some_lt hs]

/-- A successful mergeSlots absorbs every incoming signature. -/
theorem mergeSlots_slot_absorb {acc uni acc2 : List EncodedSubsig} {k : Nat} {s : Bytes}
    (h : mergeSlots acc uni = .ok acc2) (hlen : uni.length = acc.length)
    (hs : slotSig uni k = some s) : slotSig acc2 k = some s := by
  have hval := mergeSlots_ok_val h hlen
  subst hval
  rw [slotSig_zipWith]
  have hk : k < acc.length := hlen ▸ slotSig_some_lt hs
  simp [hs, hk]

/-- A successful mergeLoop keeps the slot-list length. -/
theorem mergeLoop_ok_length {encB genericHash b32trunc fmp refTxID refAuthAddr refLen
    refMsigAddr} {acc : List EncodedSubsig} {blobs : List EncodedSignedTransaction}
    {r : List EncodedSubsig}
    (h : mergeLoop encB genericHash b32trunc fmp refTxID refAuthAddr refLen refMsigAddr
      acc blobs = .ok r) (hlen : acc.length = refLen) : r.length = refLen := by
  induction blobs generalizing acc with
  | nil => unfold mergeLoop at h; cases h; exact hlen
  | cons b rest ih =>
    obtain ⟨um, ut, utid, acc2, _, _, _, _, _, hul, _, hms, hrec⟩ := mergeLoop_cons_ok h
    have hul2 : um.subsig.length = acc.length := by rw [hul, hlen]
    exact ih hrec ((mergeSlots_ok_length hms hul2).trans hlen)

/-- A successful mergeLoop preserves every signature already
accumulated. -/
theorem mergeLoop_preserve {encB genericHash b32trunc fmp refTxID refAuthAddr refLen
    refMsigAddr} {acc : List EncodedSubsig} {blobs : List EncodedSignedTransaction}
    {r : List EncodedSubsig} {k : Nat} {s : Bytes}
    (h : mergeLoop encB genericHash b32trunc fmp refTxID refAuthAddr refLen refMsigAddr
      acc blobs = .ok r) (hlen : acc.length = refLen)
    (hs : slotSig acc k = some s) : slotSig r k = some s := by
  induction blobs generalizing acc with
  | nil => unfold mergeLoop at h; cases h; exact hs
  | cons b rest ih =>
    obtain ⟨um, ut, utid, acc2, _, _, _, _, _, hul, _, hms, hrec⟩ := mergeLoop_cons_ok h
    have hul2 : um.subsig.length = acc.length := by rw [hul, hlen]
    exact ih hrec ((mergeSlots_ok_length hms hul2).trans hlen)
      (mergeSlots_slot_preserve hms hul2 hs)

/-- A successful mergeLoop absorbs every signature of every processed
blob. -/
theorem mergeLoop_absorb {encB genericHash b32trunc fmp refTxID refAuthAddr refLen
    refMsigAddr} {acc : List EncodedSubsig} {blobs : List EncodedSignedTransaction}
    {r : List EncodedSubsig} {u : EncodedSignedTransaction} {um : EncodedMultisig}
    {k : Nat} {s : Bytes}
    (h : mergeLoop encB genericHash b32trunc fmp refTxID refAuthAddr refLen refMsigAddr
      acc blobs = .ok r) (hlen : acc.length = refLen) (hu : u ∈ blobs)
    (hum : u.msig = some um) (hs : slotSig um.subsig k = some s) :
    slotSig r k = some s := by
  induction blobs generalizing acc with
  | nil => cases hu
  | cons b rest ih =>
    obtain ⟨um2, ut, utid, acc2, hbm, _, _, _, _, hul, _, hms, hrec⟩ := mergeLoop_cons_ok h
    have hul2 : um2.subsig.length = acc.length := by rw [hul, hlen]
    have hlen2 : acc2.length = refLen := (mergeSlots_ok_length hms hul2).trans hlen
    cases hu with
    | head =>
      rw [hbm] at hum
      cases hum
      exact mergeLoop_preserve hrec hlen2 (mergeSlots_slot_absorb hms hul2 hs)
    | tail _ hmem => exact ih hrec hlen2 hmem

/-- Every blob processed by a successful mergeLoop carries an msig and
matches the reference txID, auth address, subsig length and pre-image address. -/
theorem mergeLoop_mem {encB genericHash b32trunc fmp refTxID refAuthAddr refLen
    refMsigAddr} {acc : List EncodedSubsig} {blobs : List EncodedSignedTransaction}
    {r : List EncodedSubsig} {u : EncodedSignedTransaction}
    (h : mergeLoop encB genericHash b32trunc fmp refTxID refAuthAddr refLen refMsigAddr
      acc blobs = .ok r) (hu : u ∈ blobs) :
    ∃ um ut utid, u.msig = some um ∧
      Transaction.from_obj_for_encoding encB u.txn = .ok ut ∧
      ut.txID encB genericHash b32trunc = .ok utid ∧ utid = refTxID ∧
      u.sgnr = refAuthAddr ∧ um.subsig.length = refLen ∧
      fmp um.v um.thr (um.subsig.map (fun sub => sub.pk)) = refMsigAddr := by
  induction blobs generalizing acc with
  | nil => cases hu
  | cons b rest ih =>
    obtain ⟨um2, ut, utid, acc2, hbm, h2, h3, h4, h5, h6, h7, hms, hrec⟩ :=
      mergeLoop_cons_ok h
    cases hu with
    | head => exact ⟨um2, ut, utid, hbm, h2, h3, h4, h5, h6, h7⟩
    | tail _ hmem => exact ih hrec hmem

/-- Inversion of a successful merge: the first blob decodes, its
txID and msig become the references, and the result repackages the merged slots. -/
theorem mergeMultisig_cons_ok {encB genericHash b32trunc fmp}
    {b0 b1 : EncodedSignedTransaction} {rest : List EncodedSignedTransaction}
    {r : EncodedSignedTransaction}
    (h : mergeMultisigTransactions encB genericHash b32trunc fmp (b0 :: b1 :: rest)
      = .ok r) :
    ∃ m0 t0 tid0 finalSubsigs, b0.msig = some m0 ∧
      Transaction.from_obj_for_encoding encB b0.txn = .ok t0 ∧
      t0.txID encB genericHash b32trunc = .ok tid0 ∧
      mergeLoop encB genericHash b32trunc fmp tid0 b0.sgnr m0.subsig.length
        (fmp m0.v m0.thr (m0.subsig.map (fun sub => sub.pk))) m0.subsig (b1 :: rest)
        = .ok finalSubsigs ∧
      r = ⟨b0.txn, none, some ⟨m0.v, m0.thr, finalSubsigs⟩, b0.sgnr⟩ := by
  unfold mergeMultisigTransactions at h
  simp only [bind, Except.bind, pure, Except.pure] at h
  repeat' split at h
  all_goals try cases h
  case _ heq =>
    exact ⟨_, _, _, _, by assumption, by assumption, by assumption, by assumption,
      by rw [heq]⟩
  case _ heq =>
    exact ⟨_, _, _, _, by assumption, by assumption, by assumption, by assumption,
      by rw [heq]⟩

/-- Slot compatibility is symmetric. -/
theorem slotCompat_symm {a b : Option Bytes} (h : slotCompat a b) : slotCompat b a :=
  fun x y hx hy => (h y x hy hx).symm

/-- Slot compatibility of two conses implies it for the tails. -/
theorem slotCompat_shift {x y : EncodedSubsig} {xs ys : List EncodedSubsig}
    (h : ∀ k, slotCompat (slotSig (x :: xs) k) (slotSig (y :: ys) k)) :
    ∀ k, slotCompat (slotSig xs k) (slotSig ys k) := by
  intro k
  have := h (k + 1)
  rwa [slotSig_cons_succ, slotSig_cons_succ] at this

/-- The one-slot merge is associative. -/
theorem mergedSub_assoc (x y z : EncodedSubsig) :
    mergedSub x (mergedSub y z) = mergedSub (mergedSub x y) z := by
  cases hz : z.s <;> cases hy : y.s <;> simp [mergedSub, hz, hy]

/-- The pointwise merge of slot lists is associative. -/
theorem zipWith_mergedSub_assoc (a b c : List EncodedSubsig) :
    List.zipWith mergedSub a (List.zipWith mergedSub b c) =
      List.zipWith mergedSub (List.zipWith mergedSub a b) c := by
  induction a generalizing b c with
  | nil => simp
  | cons x xs ih =>
    cases b with
    | nil => simp
    | cons y ys =>
      cases c with
      | nil => simp
      | cons z zs => simp [List.zipWith_cons_cons, ih, mergedSub_assoc]

/-- On compatible inputs the merged signatures do not depend on the
order of the two sides. -/
theorem map_s_zip_comm {a b : List EncodedSubsig} (hlen : b.length = a.length)
    (hcomp : ∀ k, slotCompat (slotSig a k) (slotSig b k)) :
    (List.zipWith mergedSub b a).map (fun sub => sub.s) =
      (List.zipWith mergedSub a b).map (fun sub => sub.s) := by
  induction a generalizing b with
  | nil => cases b <;> simp_all
  | cons x xs ih =>
    cases b with
    | nil => simp_all
    | cons y ys =>
      simp only [List.zipWith_cons_cons, List.map_cons, List.length_cons,
        List.cons.injEq] at *
      constructor
      · have h0 := hcomp 0
        rw [slotSig_cons_zero, slotSig_cons_zero] at h0
        cases hx : x.s <;> cases hy : y.s <;> simp [mergedSub, hx, hy]
        exact h0 _ _ hx hy
      · exact ih (by omega) (slotCompat_shift hcomp)

/-- Merging a slot list with itself keeps its signatures. -/
theorem map_s_zip_self (a : List EncodedSubsig) :
    (List.zipWith mergedSub a a).map (fun sub => sub.s) = a.map (fun sub => sub.s) := by
  induction a with
  | nil => rfl
  | cons x xs ih =>
    simp only [List.zipWith_cons_cons, List.map_cons, ih, List.cons.injEq, and_true]
    cases hx : x.s <;> simp [mergedSub, hx]

/-- The pointwise merge keeps the public keys of the left side. -/
theorem map_pk_zip (a b : List EncodedSubsig) (hlen : b.length = a.length) :
    (List.zipWith mergedSub a b).map (fun sub => sub.pk) =
      a.map (fun sub => sub.pk) := by
  induction a generalizing b with
  | nil => simp
  | cons x xs ih =>
    cases b with
    | nil => simp_all
    | cons y ys =>
      simp only [List.length_cons] at hlen
      simp [List.zipWith_cons_cons, mergedSub, ih ys (by omega)]

/-- Merging two blobs succeeds whenever both carry msigs, their
transactions decode to the same txID, their auth addresses, subsig lengths and
pre-image addresses agree, and their slots are compatible; the result holds the
pointwise merge under the first blob. -/
theorem mergeMultisig_pair_ok {encB : EncodedTransaction → Bytes}
    {genericHash b32trunc : Bytes → Bytes} {fmp : Nat → Nat → List Bytes → Bytes}
    {a b : EncodedSignedTransaction} {ma mb : EncodedMultisig} {ta tb : Transaction}
    {tid : Bytes}
    (hma : a.msig = some ma) (hmb : b.msig = some mb)
    (hfa : Transaction.from_obj_for_encoding encB a.txn = .ok ta)
    (htida : ta.txID encB genericHash b32trunc = .ok tid)
    (hfb : Transaction.from_obj_for_encoding encB b.txn = .ok tb)
    (htidb : tb.txID encB genericHash b32trunc = .ok tid)
    (hsg : b.sgnr = a.sgnr) (hlen : mb.subsig.length = ma.subsig.length)
    (hfmp : fmp mb.v mb.thr (mb.subsig.map (fun sub => sub.pk)) =
      fmp ma.v ma.thr (ma.subsig.map (fun sub => sub.pk)))
    (hcomp : ∀ k, slotCompat (slotSig ma.subsig k) (slotSig mb.subsig k)) :
    mergeMultisigTransactions encB genericHash b32trunc fmp [a, b] =
      .ok ⟨a.txn, none, some ⟨ma.v, ma.thr,
        List.zipWith mergedSub ma.subsig mb.subsig⟩, a.sgnr⟩ := by
  have hms := mergeSlots_compat_ok hlen hcomp
  simp only [mergeMultisigTransactions, mergeLoop, hma, hmb, hfa, hfb, htida, htidb,
    bind, Except.bind, pure, Except.pure, hsg, hlen, hfmp, ne_eq, not_true_eq_false,
    if_false, hms, ite_self]
  cases hsa : a.sgnr <;> simp [hsa]

/-- Inversion of a successful two-blob merge: all the pairwise
checks passed and the result is the pointwise merge under the first blob. -/
theorem mergeMultisig_pair_inv {encB : EncodedTransaction → Bytes}
    {genericHash b32trunc : Bytes → Bytes} {fmp : Nat → Nat → List Bytes → Bytes}
    {a b r : EncodedSignedTransaction}
    (h : mergeMultisigTransactions encB genericHash b32trunc fmp [a, b] = .ok r) :
    ∃ ma mb ta tb tid,
      a.msig = some ma ∧ b.msig = some mb ∧
      Transaction.from_obj_for_encoding encB a.txn = .ok ta ∧
      ta.txID encB genericHash b32trunc = .ok tid ∧
      Transaction.from_obj_for_encoding encB b.txn = .ok tb ∧
      tb.txID encB genericHash b32trunc = .ok tid ∧
      b.sgnr = a.sgnr ∧ mb.subsig.length = ma.subsig.length ∧
      fmp mb.v mb.thr (mb.subsig.map (fun sub => sub.pk)) =
        fmp ma.v ma.thr (ma.subsig.map (fun sub => sub.pk)) ∧
      (∀ k, slotCompat (slotSig ma.subsig k) (slotSig mb.subsig k)) ∧
      r = ⟨a.txn, none, some ⟨ma.v, ma.thr,
        List.zipWith mergedSub ma.subsig mb.subsig⟩, a.sgnr⟩ := by
  obtain ⟨m0, t0, tid0, final, hbm, hfo, htid, hloop, hr⟩ := mergeMultisig_cons_ok h
  obtain ⟨um, ut, utid, acc2, hum, hfu, htu, hutid, hsgn, hul, hufmp, hms, hrec⟩ :=
    mergeLoop_cons_ok hloop
  have hfin : final = acc2 := by unfold mergeLoop at hrec; cases hrec; rfl
  have hval := mergeSlots_ok_val hms hul
  have hcomp := mergeSlots_ok_compat hms
  rw [hutid] at htu
  exact ⟨m0, um, t0, ut, tid0, hbm, hum, hfo, htid, hfu, htu, hsgn, hul,
    hufmp, hcomp, by rw [hr, hfin, hval]⟩

/-- A successful two-blob merge also succeeds in the opposite order,
with the same slot signatures. -/
theorem merge_comm_aux {encB : EncodedTransaction → Bytes}
    {genericHash b32trunc : Bytes → Bytes} {fmp : Nat → Nat → List Bytes → Bytes}
    {a b r : EncodedSignedTransaction}
    (h : mergeMultisigTransactions encB genericHash b32trunc fmp [a, b] = .ok r) :
    ∃ r2, mergeMultisigTransactions encB genericHash b32trunc fmp [b, a] = .ok r2 ∧
      blobSlotSigs r2 = blobSlotSigs r := by
  obtain ⟨ma, mb, ta, tb, tid, hma, hmb, hfa, htida, hfb, htidb, hsg, hlen, hfmp,
    hcomp, hr⟩ := mergeMultisig_pair_inv h
  refine ⟨_, mergeMultisig_pair_ok hmb hma hfb htidb hfa htida hsg.symm hlen.symm
    hfmp.symm (fun k => slotCompat_symm (hcomp k)), ?_⟩
  subst hr
  simp [blobSlotSigs, map_s_zip_comm hlen hcomp]

/-- Merging a blob with itself keeps its slot signatures. -/
theorem merge_idem_aux {encB : EncodedTransaction → Bytes}
    {genericHash b32trunc : Bytes → Bytes} {fmp : Nat → Nat → List Bytes → Bytes}
    {a r : EncodedSignedTransaction}
    (h : mergeMultisigTransactions encB genericHash b32trunc fmp [a, a] = .ok r) :
    blobSlotSigs r = blobSlotSigs a := by
  obtain ⟨ma, mb, ta, tb, tid, hma, hmb, hfa, htida, hfb, htidb, hsg, hlen, hfmp,
    hcomp, hr⟩ := mergeMultisig_pair_inv h
  rw [hma] at hmb
  injection hmb with hmb2
  subst hmb2
  subst hr
  simp [blobSlotSigs, hma, map_s_zip_self]
  intro sub _
  cases hs : sub.s <;> simp [mergedSub, hs]

/-- Regrouping a successful three-blob merge: merging the last two
blobs first also succeeds and yields the same slot signatures. -/
theorem merge_assoc_aux {encB : EncodedTransaction → Bytes}
    {genericHash b32trunc : Bytes → Bytes} {fmp : Nat → Nat → List Bytes → Bytes}
    {a b c ab r : EncodedSignedTransaction}
    (h1 : mergeMultisigTransactions encB genericHash b32trunc fmp [a, b] = .ok ab)
    (h2 : mergeMultisigTransactions encB genericHash b32trunc fmp [ab, c] = .ok r) :
    ∃ bc r2, mergeMultisigTransactions encB genericHash b32trunc fmp [b, c] = .ok bc ∧
      mergeMultisigTransactions encB genericHash b32trunc fmp [a, bc] = .ok r2 ∧
      blobSlotSigs r2 = blobSlotSigs r := by
  obtain ⟨ma, mb, ta, tb, tid, hma, hmb, hfa, htida, hfb, htidb, hsg, hlen, hfmp,
    hcomp, hab⟩ := mergeMultisig_pair_inv h1
  obtain ⟨mab, mc, tab, tc, tid2, hmab, hmc, hfab, htidab, hfc, htidc, hsg2, hlen2,
    hfmp2, hcomp2, hr⟩ := mergeMultisig_pair_inv h2
  subst hab
  injection hmab with hmab2
  subst hmab2
  simp only at hfab hsg2 hlen2 hfmp2 hcomp2 htidab hr
  rw [hfa] at hfab
  injection hfab with hfab2
  subst hfab2
  rw [htida] at htidab
  injection htidab with htid2
  subst htid2
  rw [List.length_zipWith, hlen, Nat.min_self] at hlen2
  rw [map_pk_zip ma.subsig mb.subsig hlen] at hfmp2
  have habz : ∀ k x, slotSig ma.subsig k = some x →
      slotSig (List.zipWith mergedSub ma.subsig mb.subsig) k = some x :=
    fun k x hx => mergeSlots_slot_preserve (mergeSlots_compat_ok hlen hcomp) hlen hx
  have hbz : ∀ k x, slotSig mb.subsig k = some x →
      slotSig (List.zipWith mergedSub ma.subsig mb.subsig) k = some x :=
    fun k x hx => mergeSlots_slot_absorb (mergeSlots_compat_ok hlen hcomp) hlen hx
  have hcompbc : ∀ k, slotCompat (slotSig mb.subsig k) (slotSig mc.subsig k) :=
    fun k x y hx hy => hcomp2 k x y (hbz k x hx) hy
  have hlenbc : mc.subsig.length = mb.subsig.length := by rw [hlen2, hlen]
  have hbc := mergeMultisig_pair_ok hmb hmc hfb htidb hfc htidc (hsg2.trans hsg.symm)
    hlenbc (hfmp2.trans hfmp.symm) hcompbc
  have hcompaz : ∀ k, slotCompat (slotSig ma.subsig k)
      (slotSig (List.zipWith mergedSub mb.subsig mc.subsig) k) := by
    intro k x y hx hy
    rw [slotSig_zipWith] at hy
    cases hc : slotSig mc.subsig k with
    | some u =>
      have hk : k < mb.subsig.length := hlen ▸ slotSig_some_lt hx
      simp only [hc] at hy
      rw [if_pos hk] at hy
      injection hy with hy2
      subst hy2
      exact hcomp2 k x u (habz k x hx) hc
    | none =>
      simp only [hc] at hy
      by_cases hk : k < mc.subsig.length
      · rw [if_pos hk] at hy
        exact hcomp k x y hx hy
      · rw [if_neg hk] at hy
        cases hy
  have hr2 := mergeMultisig_pair_ok hma (show
      (⟨b.txn, none, some ⟨mb.v, mb.thr,
        List.zipWith mergedSub mb.subsig mc.subsig⟩, b.sgnr⟩ :
        EncodedSignedTransaction).msig = some ⟨mb.v, mb.thr,
        List.zipWith mergedSub mb.subsig mc.subsig⟩ from rfl)
    hfa htida hfb htidb hsg (by
      simp only [List.length_zipWith, hlenbc, Nat.min_self, hlen])
    (by rw [map_pk_zip mb.subsig mc.subsig hlenbc]; exact hfmp) hcompaz
  refine ⟨_, _, hbc, hr2, ?_⟩
  subst hr
  simp [blobSlotSigs, zipWith_mergedSub_assoc]

/-- Every slot signature of every input blob of a successful merge
appears in the result. -/
theorem merge_blob_slot {encB : EncodedTransaction → Bytes}
    {genericHash b32trunc : Bytes → Bytes} {fmp : Nat → Nat → List Bytes → Bytes}
    {b0 b1 : EncodedSignedTransaction} {rest : List EncodedSignedTransaction}
    {r u : EncodedSignedTransaction} {um : EncodedMultisig} {k : Nat} {s : Bytes}
    (h : mergeMultisigTransactions encB genericHash b32trunc fmp (b0 :: b1 :: rest)
      = .ok r)
    (hu : u ∈ b0 :: b1 :: rest) (hum : u.msig = some um)
    (hs : slotSig um.subsig k = some s) :
    ∃ mr, r.msig = some mr ∧ slotSig mr.subsig k = some s := by
  obtain ⟨m0, t0, tid0, final, hbm, hfo, htid, hloop, hr⟩ := mergeMultisig_cons_ok h
  subst hr
  refine ⟨_, rfl, ?_⟩
  cases hu with
  | head =>
    rw [hbm] at hum
    injection hum with hum2
    subst hum2
    exact mergeLoop_preserve hloop rfl hs
  | tail _ hmem => exact mergeLoop_absorb hloop rfl hmem hum hs

/-- C7: mergeMultisigTransactions fails and produces no blob whenever:
fewer than two blobs are given; a blob lacks an msig record; a later blob's
transaction has a txID different from the first blob's; a later blob's auth address
differs from the first blob's; a later blob's subsig length or pre-image-derived
multisig address differs from the first blob's; or two blobs carry different
signatures for the same subsig slot. -/
theorem C7_merge_errors (encB : EncodedTransaction → Bytes)
    (genericHash b32trunc : Bytes → Bytes) (fmp : Nat → Nat → List Bytes → Bytes) :
    (∀ blobs : List EncodedSignedTransaction, blobs.length < 2 →
      exceptIsOk (mergeMultisigTransactions encB genericHash b32trunc fmp blobs)
        = false) ∧
    (∀ blobs : List EncodedSignedTransaction, ∀ u ∈ blobs, u.msig = none →
      exceptIsOk (mergeMultisigTransactions encB genericHash b32trunc fmp blobs)
        = false) ∧
    (∀ (b0 : EncodedSignedTransaction) (rest : List EncodedSignedTransaction),
      ∀ u ∈ rest, ∀ t0 tid0 tu tidu,
      Transaction.from_obj_for_encoding encB b0.txn = .ok t0 →
      t0.txID encB genericHash b32trunc = .ok tid0 →
      Transaction.from_obj_for_encoding encB u.txn = .ok tu →
      tu.txID encB genericHash b32trunc = .ok tidu →
      tidu ≠ tid0 →
      exceptIsOk (mergeMultisigTransactions encB genericHash b32trunc fmp (b0 :: rest))
        = false) ∧
    (∀ (b0 : EncodedSignedTransaction) (rest : List EncodedSignedTransaction),
      ∀ u ∈ rest, u.sgnr ≠ b0.sgnr →
      exceptIsOk (mergeMultisigTransactions encB genericHash b32trunc fmp (b0 :: rest))
        = false) ∧
    (∀ (b0 : EncodedSignedTransaction) (rest : List EncodedSignedTransaction),
      ∀ u ∈ rest, ∀ m0 mu, b0.msig = some m0 → u.msig = some mu →
      (mu.subsig.length ≠ m0.subsig.length ∨
        fmp mu.v mu.thr (mu.subsig.map (fun sub => sub.pk)) ≠
          fmp m0.v m0.thr (m0.subsig.map (fun sub => sub.pk))) →
      exceptIsOk (mergeMultisigTransactions encB genericHash b32trunc fmp (b0 :: rest))
        = false) ∧
    (∀ blobs : List EncodedSignedTransaction, ∀ b1 ∈ blobs, ∀ b2 ∈ blobs,
      ∀ m1 m2 k s1 s2, b1.msig = some m1 → b2.msig = some m2 →
      slotSig m1.subsig k = some s1 → slotSig m2.subsig k = some s2 → s1 ≠ s2 →
      exceptIsOk (mergeMultisigTransactions encB genericHash b32trunc fmp blobs)
        = false) := by
  refine ⟨?_, ?_, ?_, ?_, ?_, ?_⟩
  · intro blobs hlen
    match blobs with
    | [] => rfl
    | [x] => rfl
    | x :: y :: zs =>
      exfalso
      simp only [List.length_cons] at hlen
      omega
  · intro blobs u hu hnone
    cases hM : mergeMultisigTransactions encB genericHash b32trunc fmp blobs with
    | error e => rfl
    | ok r =>
      exfalso
      cases blobs with
      | nil => cases hu
      | cons b bs =>
        cases bs with
        | nil => simp [mergeMultisigTransactions] at hM
        | cons b1 rest =>
          obtain ⟨m0, t0, tid0, final, hbm, _, _, hloop, _⟩ := mergeMultisig_cons_ok hM
          cases hu with
          | head => rw [hnone] at hbm; cases hbm
          | tail _ hmem =>
            obtain ⟨um, ut, utid, hum, _, _, _, _, _, _⟩ := mergeLoop_mem hloop hmem
            rw [hnone] at hum
            cases hum
  · intro b0 rest u hu t0 tid0 tu tidu hf0 htid0 hfu htidu hne
    cases hM : mergeMultisigTransactions encB genericHash b32trunc fmp (b0 :: rest) with
    | error e => rfl
    | ok r =>
      exfalso
      cases rest with
      | nil => cases hu
      | cons b1 rest2 =>
        obtain ⟨m0, t0x, tid0x, final, hbm, hfo, htid, hloop, _⟩ :=
          mergeMultisig_cons_ok hM
        rw [hf0] at hfo
        injection hfo with h
        subst h
        rw [htid0] at htid
        injection htid with h2
        subst h2
        obtain ⟨um, ut, utid, hum, hfu2, htu2, hutid, _, _, _⟩ := mergeLoop_mem hloop hu
        rw [hfu] at hfu2
        injection hfu2 with h3
        subst h3
        rw [htidu] at htu2
        injection htu2 with h4
        subst h4
        exact hne hutid
  · intro b0 rest u hu hne
    cases hM : mergeMultisigTransactions encB genericHash b32trunc fmp (b0 :: rest) with
    | error e => rfl
    | ok r =>
      exfalso
      cases rest with
      | nil => cases hu
      | cons b1 rest2 =>
        obtain ⟨m0, t0x, tid0x, final, hbm, hfo, htid, hloop, _⟩ :=
          mergeMultisig_cons_ok hM
        obtain ⟨um, ut, utid, hum, _, _, _, hsgn, _, _⟩ := mergeLoop_mem hloop hu
        exact hne hsgn
  · intro b0 rest u hu m0 mu hm0 hmu hdisj
    cases hM : mergeMultisigTransactions encB genericHash b32trunc fmp (b0 :: rest) with
    | error e => rfl
    | ok r =>
      exfalso
      cases rest with
      | nil => cases hu
      | cons b1 rest2 =>
        obtain ⟨m0x, t0x, tid0x, final, hbm, hfo, htid, hloop, _⟩ :=
          mergeMultisig_cons_ok hM
        rw [hm0] at hbm
        injection hbm with h
        subst h
        obtain ⟨um, ut, utid, hum, _, _, _, _, hulen, hufmp⟩ := mergeLoop_mem hloop hu
        rw [hmu] at hum
        injection hum with h2
        subst h2
        cases hdisj with
        | inl hd => exact hd hulen
        | inr hd => exact hd hufmp
  · intro blobs b1 hb1 b2 hb2 m1 m2 k s1 s2 hm1 hm2 hs1 hs2 hne
    cases hM : mergeMultisigTransactions encB genericHash b32trunc fmp blobs with
    | error e => rfl
    | ok r =>
      exfalso
      cases blobs with
      | nil => cases hb1
      | cons x bs =>
        cases bs with
        | nil => simp [mergeMultisigTransactions] at hM
        | cons y rest =>
          obtain ⟨mr1, hmr1, hsl1⟩ := merge_blob_slot hM hb1 hm1 hs1
          obtain ⟨mr2, hmr2, hsl2⟩ := merge_blob_slot hM hb2 hm2 hs2
          rw [hmr1] at hmr2
          injection hmr2 with h
          subst h
          rw [hsl1] at hsl2
          injection hsl2 with h2
          exact hne h2

/-- A signed-transaction blob with a slot 0 signature. -/
def blobCX1 : EncodedSignedTransaction :=
  { txn := eFeeW, msig := some ⟨1, 2, [⟨addr1, some [9]⟩, ⟨addr2, none⟩]⟩ }

/-- A blob matching blobCX1 with a slot 1 signature instead. -/
def blobCX2 : EncodedSignedTransaction :=
  { txn := eFeeW, msig := some ⟨1, 2, [⟨addr1, none⟩, ⟨addr2, some [8]⟩]⟩ }

/-- A blob whose slot 0 signature conflicts with blobCX1. -/
def blobCX3 : EncodedSignedTransaction :=
  { txn := eFeeW, msig := some ⟨1, 2, [⟨addr1, some [8]⟩, ⟨addr2, none⟩]⟩ }


/-- The merge of blobCX1 and blobCX2: both signatures are present. -/
def blobMergedCX : EncodedSignedTransaction :=
  ⟨eFeeW, none, some ⟨1, 2, [⟨addr1, some [9]⟩, ⟨addr2, some [8]⟩]⟩, none⟩

/-- C8: on conflict-free inputs (success of the merges rules out any
slot carrying two different signatures), mergeMultisigTransactions is commutative,
associative and idempotent on the slot signatures of the result: swapping the two
blobs, regrouping three blobs, or merging a blob with itself never changes the
resulting set of slot signatures. -/
theorem C8_merge_algebra (encB : EncodedTransaction → Bytes)
    (genericHash b32trunc : Bytes → Bytes) (fmp : Nat → Nat → List Bytes → Bytes) :
    (∀ a b r, mergeMultisigTransactions encB genericHash b32trunc fmp [a, b] = .ok r →
      ∃ r2, mergeMultisigTransactions encB genericHash b32trunc fmp [b, a] = .ok r2 ∧
        blobSlotSigs r2 = blobSlotSigs r) ∧
    (∀ a b c ab r,
      mergeMultisigTransactions encB genericHash b32trunc fmp [a, b] = .ok ab →
      mergeMultisigTransactions encB genericHash b32trunc fmp [ab, c] = .ok r →
      ∃ bc r2, mergeMultisigTransactions encB genericHash b32trunc fmp [b, c] = .ok bc ∧
        mergeMultisigTransactions encB genericHash b32trunc fmp [a, bc] = .ok r2 ∧
        blobSlotSigs r2 = blobSlotSigs r) ∧
    (∀ a r, mergeMultisigTransactions encB genericHash b32trunc fmp [a, a] = .ok r →
      blobSlotSigs r = blobSlotSigs a) :=
  ⟨fun _ _ _ h => merge_comm_aux h,
   fun _ _ _ _ _ h1 h2 => merge_assoc_aux h1 h2,
   fun _ _ h => merge_idem_aux h⟩

/-- Witness for C7: merging two blobs whose slot 0 signatures
conflict fails. -/
theorem C7_merge_errors_witness :
    exceptIsOk (mergeMultisigTransactions encB0 (fun h => h) (fun h => h) fmpCX
      [blobCX1, blobCX3]) = false :=
  (C7_merge_errors encB0 (fun h => h) (fun h => h) fmpCX).2.2.2.2.2 [blobCX1, blobCX3]
    blobCX1 (List.mem_cons_self _ _) blobCX3
    (List.mem_cons_of_mem _ (List.mem_cons_self _ _)) _ _ 0 [9] [8] rfl rfl rfl rfl
    (by decide)

/-- Witness for C8: the merge of blobCX2 and blobCX1 carries
the same slot signatures as the merge taken in the opposite order. -/
theorem C8_merge_algebra_witness :
    ∃ r2, mergeMultisigTransactions encB0 (fun h => h) (fun h => h) fmpCX
        [blobCX2, blobCX1] = .ok r2 ∧
      blobSlotSigs r2 = blobSlotSigs blobMergedCX :=
  (C8_merge_algebra encB0 (fun h => h) (fun h => h) fmpCX).1 blobCX1 blobCX2
    blobMergedCX (by rfl)

/-- A JS-truthiness guard on a present optional value is the value itself. -/
theorem ite_isSome {α : Type} (o : Option α) : (if o.isSome then o else none) = o := by
  cases o <;> simp

/-- Eliding a zero and reading back with default zero is the identity. -/
theorem getD_ite_zero (n : Nat) :
    ((if n = 0 then none else some n) : Option Nat).getD 0 = n := by
  by_cases h : n = 0 <;> simp [h]

/-- Eliding an empty list and reading back with default empty is the identity. -/
theorem getD_ite_nil {α : Type} [DecidableEq α] (l : List α) :
    ((if l = [] then none else some l) : Option (List α)).getD [] = l := by
  by_cases h : l = [] <;> simp [h]

/-- Eliding an empty string and reading back with default empty is the identity. -/
theorem getD_ite_str (s : String) :
    ((if s = "" then none else some s) : Option String).getD "" = s := by
  by_cases h : s = "" <;> simp [h]

/-- Eliding a false flag and reading back with default false is the identity. -/
theorem getD_ite_false (b : Bool) :
    ((if b then some true else none) : Option Bool).getD false = b := by
  cases b <;> simp

/-- Eliding by the zero-default test keeps an optional count that is not
present-and-zero. -/
theorem opt_ite_getD {o : Option Nat} (h : o ≠ some 0) :
    (if o.getD 0 = 0 then none else o) = o := by
  cases o with
  | none => simp
  | some v =>
    have : v ≠ 0 := fun hv => h (by rw [hv])
    simp [this]

/-- An all-zero byte string of length 32 is the zero address. -/
theorem empty32 {l : Bytes} (he : uint8ArrayIsEmpty l = true) (hl : l.length = 32) :
    l = ZERO_PK := by
  unfold ZERO_PK
  rw [List.eq_replicate_iff]
  refine ⟨hl, ?_⟩
  intro b hb
  have := (List.all_eq_true.mp he) b hb
  simpa using this

/-- Eliding an empty 32-byte address and reading back with the zero address
as default is the identity. -/
theorem snd_roundtrip {s : Bytes} (h : s.length = 32) :
    ((if uint8ArrayIsEmpty s then none else some s) : Option Bytes).getD ZERO_PK = s := by
  by_cases he : uint8ArrayIsEmpty s
  · simp [he, (empty32 he h).symm]
  · simp [he]

/-- Re-normalizing an elided genesis id recovers it when it is not the empty
string. -/
theorem genID_norm {o : Option String} (h : o ≠ some "") :
    (match (if o.getD "" = "" then none else o) with
     | some s => if s = "" then none else some s
     | none => (none : Option String)) = o := by
  cases o with
  | none => simp
  | some s =>
    have : s ≠ "" := fun hs => h (by rw [hs])
    simp [this]

/-- ensureUint64 succeeds on values within the uint64 bound. -/
theorem ensureUint64_le {n : Nat} (h : n ≤ MAX_UINT64) : ensureUint64 n = .ok n := by
  simp [ensureUint64, h]

/-- ensureSafeUnsignedInteger succeeds on values within the safe bound. -/
theorem ensureSafe_le {n : Nat} (h : n ≤ MAX_SAFE_INTEGER) :
    ensureSafeUnsignedInteger n = .ok n := by
  simp [ensureSafeUnsignedInteger, h]

/-- optionalAddress is idempotent on its own output. -/
theorem optionalAddress_idem {x y : Option Bytes} (h : optionalAddress x = .ok y) :
    optionalAddress y = .ok y := by
  unfold optionalAddress at h ⊢
  repeat' split at h
  all_goals cases h
  all_goals simp_all

/-- optionalFixedLengthByteArray is idempotent on its own output. -/
theorem oflba_idem {x y : Option Bytes} {n : Nat} {name : String}
    (h : optionalFixedLengthByteArray x n name = .ok y) :
    optionalFixedLengthByteArray y n name = .ok y := by
  unfold optionalFixedLengthByteArray at h ⊢
  repeat' split at h
  all_goals cases h
  all_goals simp_all

/-- getKeyregKey is idempotent on its own output. -/
theorem getKeyregKey_idem {x y : Option Bytes} {n : Nat} {name : String}
    (h : getKeyregKey x name n = .ok y) : getKeyregKey y name n = .ok y := by
  unfold getKeyregKey at h ⊢
  repeat' split at h
  all_goals cases h
  all_goals simp_all

/-- optionalUint64 is idempotent on its own output. -/
theorem optionalUint64_idem {x y : Option Nat} (h : optionalUint64 x = .ok y) :
    optionalUint64 y = .ok y := by
  unfold optionalUint64 at h ⊢
  split at h
  · cases h; rfl
  · rename_i n
    obtain ⟨a, ha, hy⟩ := exceptMap_ok.mp h
    obtain ⟨hle, rfl⟩ := ensureUint64_ok.mp ha
    subst hy
    simp [ensureUint64_le hle, Except.map]

/-- Round trip for a payment transaction: encoding then decoding a
well-formed constructed payment recovers it exactly. -/
theorem roundtrip_pay {encB : EncodedTransaction → Bytes} {t : Transaction}
    {pf : PaymentTransactionFields}
    (c1 : t.group = []) (c2 : t.sender.length = 32) (c3 : t.genesisID ≠ some "")
    (c4 : t.genesisHash ≠ []) (c5 : t.fee ≤ MAX_UINT64) (c6 : t.firstValid ≤ MAX_UINT64)
    (c7 : t.lastValid ≤ MAX_UINT64)
    (c8 : optionalFixedLengthByteArray t.lease 32 "lease" = .ok t.lease)
    (c9 : optionalAddress t.rekeyTo = .ok t.rekeyTo)
    (ht : t.type = .pay) (hp : t.payment = some pf)
    (h2 : t.keyreg = none) (h3 : t.assetConfig = none) (h4 : t.assetTransfer = none)
    (h5 : t.assetFreeze = none) (h6 : t.applicationCall = none)
    (h7 : t.stateProof = none)
    (p1 : pf.amount ≤ MAX_UINT64) (p2r : pf.receiver.length = 32)
    (p3 : optionalAddress pf.closeRemainderTo = .ok pf.closeRemainderTo) :
    ∃ e, t.get_obj_for_encoding = .ok e ∧
      Transaction.from_obj_for_encoding encB e = .ok t := by
  refine ⟨_, get_obj_pay hp, ?_⟩
  obtain ⟨ty, sd, nt, ls, rk, gp, fe, fv, lv, gi, gh, pay, kr, ac, ax, af, ap, sp⟩ := t
  dsimp only at c1 c2 c3 c4 c5 c6 c7 c8 c9 ht hp h2 h3 h4 h5 h6 h7
  subst c1 ht hp h2 h3 h4 h5 h6 h7
  unfold Transaction.from_obj_for_encoding
  simp only [commonEnc, bind, Except.bind, pure, Except.pure]
  simp only [Transaction.construct, bind, Except.bind, pure, Except.pure, ite_isSome,
    getD_ite_zero, getD_ite_nil, getD_ite_str, snd_roundtrip c2, genID_norm c3, c8, c9,
    ensureUint64_le c5, ensureUint64_le c6, ensureUint64_le c7, fieldsPresent,
    optionMapExcept, buildPayment, ensureUint64_le p1, p3, Except.map, c4,
    if_false, ite_self]
  simp [snd_roundtrip p2r]

/-- Inversion of a successful keyreg build: every stored field
revalidates, the vote fields are taken verbatim, and the two shape checks pass. -/
theorem buildKeyreg_inv {kp : KeyRegistrationTransactionParams}
    {kf : KeyRegistrationTransactionFields} (h : buildKeyreg kp = .ok kf) :
    getKeyregKey kf.voteKey "voteKey" 32 = .ok kf.voteKey ∧
    getKeyregKey kf.selectionKey "selectionKey" 32 = .ok kf.selectionKey ∧
    getKeyregKey kf.stateProofKey "stateProofKey" 64 = .ok kf.stateProofKey ∧
    optionalUint64 kf.voteFirst = .ok kf.voteFirst ∧
    optionalUint64 kf.voteLast = .ok kf.voteLast ∧
    optionalUint64 kf.voteKeyDilution = .ok kf.voteKeyDilution ∧
    kf.voteFirst = kp.voteFirst ∧ kf.voteLast = kp.voteLast ∧
    kf.voteKeyDilution = kp.voteKeyDilution ∧
    ¬(kf.nonParticipation = true ∧
      (kf.voteKey.isSome = true ∨ kf.selectionKey.isSome = true ∨
        kf.stateProofKey.isSome = true ∨ kf.voteFirst.isSome = true ∨
        kf.voteLast.isSome = true ∨ kf.voteKeyDilution.isSome = true)) ∧
    ¬(¬kf.nonParticipation = true ∧
      (kf.voteKey.isSome = true ∨ kf.selectionKey.isSome = true ∨
        kf.stateProofKey.isSome = true ∨ kf.voteFirst.isSome = true ∨
        kf.voteLast.isSome = true ∨ kf.voteKeyDilution.isSome = true) ∧
      ¬(kf.voteKey.isSome = true ∧ kf.selectionKey.isSome = true ∧
        kf.voteFirst.isSome = true ∧ kf.voteLast.isSome = true ∧
        kf.voteKeyDilution.isSome = true)) := by
  unfold buildKeyreg at h
  simp only [bind, Except.bind, pure, Except.pure] at h
  repeat' split at h
  all_goals try cases h
  rename_i xvk vvk hvk xsk vsk hsk xspk vspk hspk xvf vvf hvf xvl vvl hvl xvkd vvkd hvkd
    c1 c2
  exact ⟨getKeyregKey_idem hvk, getKeyregKey_idem hsk, getKeyregKey_idem hspk,
    optionalUint64_idem hvf, optionalUint64_idem hvl, optionalUint64_idem hvkd,
    (optionalUint64_ok hvf).1, (optionalUint64_ok hvl).1, (optionalUint64_ok hvkd).1,
    c1, c2⟩

/-- Round trip for a key registration transaction whose vote fields are
never present-and-zero. -/
theorem roundtrip_keyreg {encB : EncodedTransaction → Bytes} {t : Transaction}
    {kf : KeyRegistrationTransactionFields}
    (c1 : t.group = []) (c2 : t.sender.length = 32) (c3 : t.genesisID ≠ some "")
    (c4 : t.genesisHash ≠ []) (c5 : t.fee ≤ MAX_UINT64) (c6 : t.firstValid ≤ MAX_UINT64)
    (c7 : t.lastValid ≤ MAX_UINT64)
    (c8 : optionalFixedLengthByteArray t.lease 32 "lease" = .ok t.lease)
    (c9 : optionalAddress t.rekeyTo = .ok t.rekeyTo)
    (ht : t.type = .keyreg) (h1 : t.payment = none) (hk : t.keyreg = some kf)
    (h3 : t.assetConfig = none) (h4 : t.assetTransfer = none)
    (h5 : t.assetFreeze = none) (h6 : t.applicationCall = none)
    (h7 : t.stateProof = none)
    (i1 : getKeyregKey kf.voteKey "voteKey" 32 = .ok kf.voteKey)
    (i2 : getKeyregKey kf.selectionKey "selectionKey" 32 = .ok kf.selectionKey)
    (i3 : getKeyregKey kf.stateProofKey "stateProofKey" 64 = .ok kf.stateProofKey)
    (i4 : optionalUint64 kf.voteFirst = .ok kf.voteFirst)
    (i5 : optionalUint64 kf.voteLast = .ok kf.voteLast)
    (i6 : optionalUint64 kf.voteKeyDilution = .ok kf.voteKeyDilution)
    (chk1 : ¬(kf.nonParticipation = true ∧
      (kf.voteKey.isSome = true ∨ kf.selectionKey.isSome = true ∨
        kf.stateProofKey.isSome = true ∨ kf.voteFirst.isSome = true ∨
        kf.voteLast.isSome = true ∨ kf.voteKeyDilution.isSome = true)))
    (chk2 : ¬(¬kf.nonParticipation = true ∧
      (kf.voteKey.isSome = true ∨ kf.selectionKey.isSome = true ∨
        kf.stateProofKey.isSome = true ∨ kf.voteFirst.isSome = true ∨
        kf.voteLast.isSome = true ∨ kf.voteKeyDilution.isSome = true) ∧
      ¬(kf.voteKey.isSome = true ∧ kf.selectionKey.isSome = true ∧
        kf.voteFirst.isSome = true ∧ kf.voteLast.isSome = true ∧
        kf.voteKeyDilution.isSome = true)))
    (k1 : kf.voteFirst ≠ some 0) (k2 : kf.voteLast ≠ some 0)
    (k3 : kf.voteKeyDilution ≠ some 0) :
    ∃ e, t.get_obj_for_encoding = .ok e ∧
      Transaction.from_obj_for_encoding encB e = .ok t := by
  refine ⟨_, get_obj_keyreg h1 hk, ?_⟩
  obtain ⟨ty, sd, nt, ls, rk, gp, fe, fv, lv, gi, gh, pay, kr, ac, ax, af, ap, sp⟩ := t
  dsimp only at c1 c2 c3 c4 c5 c6 c7 c8 c9 ht h1 hk h3 h4 h5 h6 h7
  subst c1 ht h1 hk h3 h4 h5 h6 h7
  unfold Transaction.from_obj_for_encoding
  simp only [commonEnc, bind, Except.bind, pure, Except.pure]
  simp only [Transaction.construct, bind, Except.bind, pure, Except.pure, ite_isSome,
    getD_ite_zero, getD_ite_nil, getD_ite_str, snd_roundtrip c2, genID_norm c3, c8, c9,
    ensureUint64_le c5, ensureUint64_le c6, ensureUint64_le c7, fieldsPresent,
    optionMapExcept, buildKeyreg, opt_ite_getD k1, opt_ite_getD k2, opt_ite_getD k3,
    i1, i2, i3, i4, i5, i6, getD_ite_false, Except.map, c4, if_false, ite_self]
  rw [if_neg chk1, if_neg chk2]
  simp

/-- An elision that produced no key had the guard condition hold. -/
theorem ite_none_val {α : Type} {c : Prop} [Decidable c] {v : α}
    (h : (if c then none else some v) = none) : c := by
  split at h
  · assumption
  · cases h

/-- An elided boolean flag was false. -/
theorem ite_bool_none {b : Bool} (h : (if b = true then some true else none) = none) :
    b = false := by
  split at h
  · cases h
  · simp_all

/-- Round trip for an asset configuration transaction, covering both the
elided and the emitted asset-params sub-map. -/
theorem roundtrip_acfg {encB : EncodedTransaction → Bytes} {t : Transaction}
    {cf : AssetConfigTransactionFields}
    (c1 : t.group = []) (c2 : t.sender.length = 32) (c3 : t.genesisID ≠ some "")
    (c4 : t.genesisHash ≠ []) (c5 : t.fee ≤ MAX_UINT64) (c6 : t.firstValid ≤ MAX_UINT64)
    (c7 : t.lastValid ≤ MAX_UINT64)
    (c8 : optionalFixedLengthByteArray t.lease 32 "lease" = .ok t.lease)
    (c9 : optionalAddress t.rekeyTo = .ok t.rekeyTo)
    (ht : t.type = .acfg) (h1 : t.payment = none) (h2 : t.keyreg = none)
    (hc : t.assetConfig = some cf) (h4 : t.assetTransfer = none)
    (h5 : t.assetFreeze = none) (h6 : t.applicationCall = none)
    (h7 : t.stateProof = none)
    (a1 : cf.assetId ≤ MAX_UINT64) (a2 : cf.assetTotal ≤ MAX_UINT64)
    (a3 : cf.assetDecimals ≤ MAX_SAFE_INTEGER)
    (a4 : optionalAddress cf.assetManager = .ok cf.assetManager)
    (a5 : optionalAddress cf.assetReserve = .ok cf.assetReserve)
    (a6 : optionalAddress cf.assetFreeze = .ok cf.assetFreeze)
    (a7 : optionalAddress cf.assetClawback = .ok cf.assetClawback)
    (a8 : optionalFixedLengthByteArray cf.assetMetadataHash 32 "assetMetadataHash"
      = .ok cf.assetMetadataHash) :
    ∃ e, t.get_obj_for_encoding = .ok e ∧
      Transaction.from_obj_for_encoding encB e = .ok t := by
  refine ⟨_, get_obj_acfg h1 h2 hc, ?_⟩
  obtain ⟨ty, sd, nt, ls, rk, gp, fe, fv, lv, gi, gh, pay, kr, ac, ax, af, ap, sp⟩ := t
  dsimp only at c1 c2 c3 c4 c5 c6 c7 c8 c9 ht h1 h2 hc h4 h5 h6 h7
  subst c1 ht h1 h2 hc h4 h5 h6 h7
  unfold Transaction.from_obj_for_encoding
  by_cases hap : acfgParamsEnc cf = ({} : EncodedAssetParams)
  · have hfields := hap
    simp only [acfgParamsEnc, EncodedAssetParams.mk.injEq, ite_isSome] at hfields
    obtain ⟨hT, hD, hF, hM, hR, hZ, hC, hU, hN, hL, hH⟩ := hfields
    have hT2 : cf.assetTotal = 0 := ite_none_val hT
    have hD2 : cf.assetDecimals = 0 := ite_none_val hD
    have hF2 : cf.assetDefaultFrozen = false := ite_bool_none hF
    have hU2 : cf.assetUnitName = "" := ite_none_val hU
    have hN2 : cf.assetName = "" := ite_none_val hN
    have hL2 : cf.assetURL = "" := ite_none_val hL
    simp only [commonEnc, hap, bind, Except.bind, pure, Except.pure, if_true, ite_self,
      reduceIte]
    simp only [Transaction.construct, bind, Except.bind, pure, Except.pure, ite_isSome,
      getD_ite_zero, getD_ite_nil, getD_ite_str, snd_roundtrip c2, genID_norm c3, c8, c9,
      ensureUint64_le c5, ensureUint64_le c6, ensureUint64_le c7, fieldsPresent,
      optionMapExcept, buildAssetConfig, ensureUint64_le a1, Except.map, c4,
      if_false, ite_self]
    simp [ensureUint64, ensureSafeUnsignedInteger, hT2, hD2, hF2, hU2, hN2, hL2,
      hM, hR, hZ, hC, hH, optionalAddress, optionalFixedLengthByteArray]
    obtain ⟨f1, f2, f3, f4, f5, f6, f7, f8, f9, f10, f11, f12⟩ := cf
    simp_all
  · simp only [commonEnc, hap, bind, Except.bind, pure, Except.pure, if_false, ite_self,
      reduceIte]
    simp only [Transaction.construct, bind, Except.bind, pure, Except.pure, ite_isSome,
      getD_ite_zero, getD_ite_nil, getD_ite_str, snd_roundtrip c2, genID_norm c3, c8, c9,
      ensureUint64_le c5, ensureUint64_le c6, ensureUint64_le c7, fieldsPresent,
      optionMapExcept, buildAssetConfig, acfgParamsEnc, ensureUint64_le a1,
      ensureUint64_le a2, ensureSafe_le a3, a4, a5, a6, a7, a8, getD_ite_false,
      Except.map, c4, if_false, ite_self]
    simp

/-- Round trip for an asset transfer transaction. -/
theorem roundtrip_axfer {encB : EncodedTransaction → Bytes} {t : Transaction}
    {xf : AssetTransferTransactionFields}
    (c1 : t.group = []) (c2 : t.sender.length = 32) (c3 : t.genesisID ≠ some "")
    (c4 : t.genesisHash ≠ []) (c5 : t.fee ≤ MAX_UINT64) (c6 : t.firstValid ≤ MAX_UINT64)
    (c7 : t.lastValid ≤ MAX_UINT64)
    (c8 : optionalFixedLengthByteArray t.lease 32 "lease" = .ok t.lease)
    (c9 : optionalAddress t.rekeyTo = .ok t.rekeyTo)
    (ht : t.type = .axfer) (h1 : t.payment = none) (h2 : t.keyreg = none)
    (h3 : t.assetConfig = none) (hx : t.assetTransfer = some xf)
    (h5 : t.assetFreeze = none) (h6 : t.applicationCall = none)
    (h7 : t.stateProof = none)
    (x1 : xf.assetId ≤ MAX_UINT64) (x2 : xf.amount ≤ MAX_UINT64)
    (x3 : xf.receiver.length = 32)
    (x4 : optionalAddress xf.sender = .ok xf.sender)
    (x5 : optionalAddress xf.closeRemainderTo = .ok xf.closeRemainderTo) :
    ∃ e, t.get_obj_for_encoding = .ok e ∧
      Transaction.from_obj_for_encoding encB e = .ok t := by
  refine ⟨_, get_obj_axfer h1 h2 h3 hx, ?_⟩
  obtain ⟨ty, sd, nt, ls, rk, gp, fe, fv, lv, gi, gh, pay, kr, ac, ax, af, ap, sp⟩ := t
  dsimp only at c1 c2 c3 c4 c5 c6 c7 c8 c9 ht h1 h2 h3 hx h5 h6 h7
  subst c1 ht h1 h2 h3 hx h5 h6 h7
  unfold Transaction.from_obj_for_encoding
  simp only [commonEnc, bind, Except.bind, pure, Except.pure]
  simp only [Transaction.construct, bind, Except.bind, pure, Except.pure, ite_isSome,
    getD_ite_zero, getD_ite_nil, getD_ite_str, snd_roundtrip c2, genID_norm c3, c8, c9,
    ensureUint64_le c5, ensureUint64_le c6, ensureUint64_le c7, fieldsPresent,
    optionMapExcept, buildAssetTransfer, ensureUint64_le x1, ensureUint64_le x2,
    snd_roundtrip x3, x4, x5, Except.map, c4, if_false, ite_self]
  simp

/-- Round trip for an asset freeze transaction. -/
theorem roundtrip_afrz {encB : EncodedTransaction → Bytes} {t : Transaction}
    {ff : AssetFreezeTransactionFields}
    (c1 : t.group = []) (c2 : t.sender.length = 32) (c3 : t.genesisID ≠ some "")
    (c4 : t.genesisHash ≠ []) (c5 : t.fee ≤ MAX_UINT64) (c6 : t.firstValid ≤ MAX_UINT64)
    (c7 : t.lastValid ≤ MAX_UINT64)
    (c8 : optionalFixedLengthByteArray t.lease 32 "lease" = .ok t.lease)
    (c9 : optionalAddress t.rekeyTo = .ok t.rekeyTo)
    (ht : t.type = .afrz) (h1 : t.payment = none) (h2 : t.keyreg = none)
    (h3 : t.assetConfig = none) (h4 : t.assetTransfer = none)
    (hf : t.assetFreeze = some ff) (h6 : t.applicationCall = none)
    (h7 : t.stateProof = none)
    (f1 : ff.assetId ≤ MAX_UINT64) (f2 : ff.freezeAccount.length = 32) :
    ∃ e, t.get_obj_for_encoding = .ok e ∧
      Transaction.from_obj_for_encoding encB e = .ok t := by
  refine ⟨_, get_obj_afrz h1 h2 h3 h4 hf, ?_⟩
  obtain ⟨ty, sd, nt, ls, rk, gp, fe, fv, lv, gi, gh, pay, kr, ac, ax, af, ap, sp⟩ := t
  dsimp only at c1 c2 c3 c4 c5 c6 c7 c8 c9 ht h1 h2 h3 h4 hf h6 h7
  subst c1 ht h1 h2 h3 h4 hf h6 h7
  unfold Transaction.from_obj_for_encoding
  simp only [commonEnc, bind, Except.bind, pure, Except.pure]
  simp only [Transaction.construct, bind, Except.bind, pure, Except.pure, ite_isSome,
    getD_ite_zero, getD_ite_nil, getD_ite_str, snd_roundtrip c2, genID_norm c3, c8, c9,
    ensureUint64_le c5, ensureUint64_le c6, ensureUint64_le c7, fieldsPresent,
    optionMapExcept, buildAssetFreeze, ensureUint64_le f1, snd_roundtrip f2,
    getD_ite_false, Except.map, c4, if_false, ite_self]
  simp

/-- Round trip for a state proof transaction. -/
theorem roundtrip_stpf {encB : EncodedTransaction → Bytes} {t : Transaction}
    {sf : StateProofTransactionFields}
    (c1 : t.group = []) (c2 : t.sender.length = 32) (c3 : t.genesisID ≠ some "")
    (c4 : t.genesisHash ≠ []) (c5 : t.fee ≤ MAX_UINT64) (c6 : t.firstValid ≤ MAX_UINT64)
    (c7 : t.lastValid ≤ MAX_UINT64)
    (c8 : optionalFixedLengthByteArray t.lease 32 "lease" = .ok t.lease)
    (c9 : optionalAddress t.rekeyTo = .ok t.rekeyTo)
    (ht : t.type = .stpf) (h1 : t.payment = none) (h2 : t.keyreg = none)
    (h3 : t.assetConfig = none) (h4 : t.assetTransfer = none)
    (h5 : t.assetFreeze = none) (h6 : t.applicationCall = none)
    (hs : t.stateProof = some sf)
    (s1 : sf.stateProofType ≤ MAX_SAFE_INTEGER) :
    ∃ e, t.get_obj_for_encoding = .ok e ∧
      Transaction.from_obj_for_encoding encB e = .ok t := by
  refine ⟨_, get_obj_stpf h1 h2 h3 h4 h5 h6 hs, ?_⟩
  obtain ⟨ty, sd, nt, ls, rk, gp, fe, fv, lv, gi, gh, pay, kr, ac, ax, af, ap, sp⟩ := t
  dsimp only at c1 c2 c3 c4 c5 c6 c7 c8 c9 ht h1 h2 h3 h4 h5 h6 hs
  subst c1 ht h1 h2 h3 h4 h5 h6 hs
  unfold Transaction.from_obj_for_encoding
  simp only [commonEnc, bind, Except.bind, pure, Except.pure]
  simp only [Transaction.construct, bind, Except.bind, pure, Except.pure, ite_isSome,
    getD_ite_zero, getD_ite_nil, getD_ite_str, snd_roundtrip c2, genID_norm c3, c8, c9,
    ensureUint64_le c5, ensureUint64_le c6, ensureUint64_le c7, fieldsPresent,
    optionMapExcept, buildStateProof, ensureSafe_le s1, Except.map, c4, if_false,
    ite_self]
  simp

/-- A member is found by indexOfFirst at an in-range position holding it. -/
theorem indexOfFirst_mem {a : Nat} {l : List Nat} (h : a ∈ l) :
    ∃ k, indexOfFirst a l = some k ∧ k < l.length ∧ l.getD k 0 = a := by
  induction l with
  | nil => cases h
  | cons x xs ih =>
    by_cases hx : x = a
    · exact ⟨0, by simp [indexOfFirst, hx], by simp, by simp [hx]⟩
    · have hmem : a ∈ xs := by
        cases h with
        | head => exact absurd rfl hx
        | tail _ hm => exact hm
      obtain ⟨k, hk, hlt, hget⟩ := ih hmem
      exact ⟨k + 1, by simp [indexOfFirst, hx, hk], by simpa using hlt, by simpa using hget⟩

/-- A successful uint64 list check returns the list unchanged with
every element in range. -/
theorem mapM_ensureUint64_ok {l l2 : List Nat} (h : l.mapM ensureUint64 = .ok l2) :
    l2 = l ∧ ∀ x ∈ l, x ≤ MAX_UINT64 := by
  induction l generalizing l2 with
  | nil =>
    rw [List.mapM_nil] at h
    cases h
    exact ⟨rfl, by simp⟩
  | cons x xs ih =>
    rw [List.mapM_cons] at h
    simp only [bind, Except.bind, pure, Except.pure] at h
    split at h
    · cases h
    · rename_i v hv
      split at h
      · cases h
      · rename_i vs hvs
        cases h
        obtain ⟨hle, rfl⟩ := ensureUint64_ok.mp hv
        obtain ⟨rfl, hall⟩ := ih hvs
        exact ⟨rfl, fun y hy => by
          cases hy with
          | head => exact hle
          | tail _ hm => exact hall y hm⟩

/-- A list with every element in range passes the uint64 list
check unchanged. -/
theorem mapM_ensureUint64_of_le {l : List Nat} (h : ∀ x ∈ l, x ≤ MAX_UINT64) :
    l.mapM ensureUint64 = .ok l := by
  induction l with
  | nil => rfl
  | cons x xs ih =>
    rw [List.mapM_cons, ensureUint64_le (h x (List.mem_cons_self x xs)),
      ih (fun y hy => h y (List.mem_cons_of_mem x hy))]
    rfl

/-- A found index is in range and holds the searched value. -/
theorem indexOfFirst_some {a : Nat} {l : List Nat} {k : Nat}
    (h : indexOfFirst a l = some k) : k < l.length ∧ l.getD k 0 = a := by
  induction l generalizing k with
  | nil => cases h
  | cons x xs ih =>
    unfold indexOfFirst at h
    split at h
    · cases h
      rename_i hx
      exact ⟨by simp, by simpa using hx⟩
    · simp only [Option.map_eq_some'] at h
      obtain ⟨k2, hk2, rfl⟩ := h
      obtain ⟨hlt, hget⟩ := ih hk2
      exact ⟨by simpa using hlt, by simpa using hget⟩

/-- Decoding the translated box references of an application call recovers
the original app indices and names, provided every index is zero or points into the
foreign apps array. -/
theorem boxes_decode {boxes : List TransactionBoxReference} {fas : List Nat}
    {appId : Nat} {bx : List EncodedBoxRef}
    (htr : translateBoxReferences boxes fas appId = .ok bx)
    (hlen : fas.length ≤ MAX_SAFE_INTEGER)
    (hmem : ∀ b ∈ boxes, b.appIndex = 0 ∨ b.appIndex ∈ fas) :
    bx.mapM (decodeBoxRef (if fas = [] then none else some fas)) =
      .ok (boxes.map (fun b =>
        ({ appIndex := b.appIndex, name := b.name } : BoxReferenceParam))) := by
  induction boxes generalizing bx with
  | nil =>
    cases htr
    rfl
  | cons b bs ih =>
    unfold translateBoxReferences at htr
    rw [List.mapM_cons] at htr
    simp only [bind, Except.bind, pure, Except.pure] at htr
    split at htr
    · cases htr
    · rename_i enc henc
      split at htr
      · cases htr
      · rename_i encs hencs
        cases htr
        have hrest : translateBoxReferences bs fas appId = .ok encs := hencs
        rw [List.mapM_cons, ih hrest (fun c hc => hmem c (List.mem_cons_of_mem b hc))]
        cases hidx : indexOfFirst b.appIndex fas with
        | some k =>
          rw [hidx] at henc
          cases henc
          obtain ⟨hlt, hget⟩ := indexOfFirst_some hidx
          have hne : fas ≠ [] := by
            intro hfa
            subst hfa
            simp at hlt
          have hsafe : k + 1 ≤ MAX_SAFE_INTEGER := le_trans hlt hlen
          have hnlt : ¬(fas.length < k + 1) := Nat.not_lt.mpr hlt
          simp only [List.getD, List.get?_eq_getElem?] at hget
          simp [decodeBoxRef, ensureSafe_le hsafe, bind, Except.bind, pure,
            Except.pure, hne, hnlt, hget, List.map_cons]
        | none =>
          rw [hidx] at henc
          rcases hmem b (List.mem_cons_self b bs) with hz | hin
          · rw [if_pos (Or.inl hz)] at henc
            cases henc
            simp [decodeBoxRef, ensureSafe_le (Nat.zero_le MAX_SAFE_INTEGER), bind,
              Except.bind, pure, Except.pure, hz, List.map_cons]
          · obtain ⟨k, hk, _, _⟩ := indexOfFirst_mem hin
            rw [hidx] at hk
            cases hk

/-- Rebuilding transaction box references from the decoded parameters is
the identity when every app index is in the uint64 range. -/
theorem boxes_rebuild {boxes : List TransactionBoxReference}
    (h : ∀ b ∈ boxes, b.appIndex ≤ MAX_UINT64) :
    (boxes.map (fun b =>
        ({ appIndex := b.appIndex, name := b.name } : BoxReferenceParam))).mapM
      (fun b => do
        let appIndex ← ensureUint64 b.appIndex
        return ({ appIndex, name := b.name } : TransactionBoxReference)) = .ok boxes := by
  induction boxes with
  | nil => rfl
  | cons b bs ih =>
    rw [List.map_cons, List.mapM_cons]
    rw [ih (fun c hc => h c (List.mem_cons_of_mem b hc))]
    simp only [ensureUint64_le (h b (List.mem_cons_self b bs)), bind, Except.bind,
      pure, Except.pure]

/-- Box-reference translation succeeds when every app index is zero or a
member of the foreign apps array. -/
theorem translate_ok {boxes : List TransactionBoxReference} {fas : List Nat}
    {appId : Nat} (h : ∀ b ∈ boxes, b.appIndex = 0 ∨ b.appIndex ∈ fas) :
    ∃ bx, translateBoxReferences boxes fas appId = .ok bx := by
  induction boxes with
  | nil => exact ⟨[], rfl⟩
  | cons b bs ih =>
    obtain ⟨bx2, hbx2⟩ := ih (fun c hc => h c (List.mem_cons_of_mem b hc))
    unfold translateBoxReferences at hbx2 ⊢
    rw [List.mapM_cons, hbx2]
    rcases h b (List.mem_cons_self b bs) with hz | hin
    · cases hidx : indexOfFirst b.appIndex fas with
      | some k => exact ⟨_, by rfl⟩
      | none =>
        refine ⟨{ i := 0, n := b.name } :: bx2, ?_⟩
        simp [hz, bind, Except.bind, pure, Except.pure]
    · obtain ⟨k, hk, _, _⟩ := indexOfFirst_mem hin
      rw [hk]
      exact ⟨_, by rfl⟩

/-- The local or global int count survives the schema encoding. -/
theorem schema_bind_nui (li lbs : Nat) :
    ((((if li = 0 ∧ lbs = 0 then none
        else some ({ nui := if li = 0 then none else some li,
                     nbs := if lbs = 0 then none else some lbs } :
          EncodedStateSchema)) : Option EncodedStateSchema).bind
      (fun s => s.nui)).getD 0) = li := by
  by_cases h1 : li = 0 <;> by_cases h2 : lbs = 0 <;> simp [h1, h2, Option.bind]

/-- The local or global byte-slice count survives the schema encoding. -/
theorem schema_bind_nbs (li lbs : Nat) :
    ((((if li = 0 ∧ lbs = 0 then none
        else some ({ nui := if li = 0 then none else some li,
                     nbs := if lbs = 0 then none else some lbs } :
          EncodedStateSchema)) : Option EncodedStateSchema).bind
      (fun s => s.nbs)).getD 0) = lbs := by
  by_cases h1 : li = 0 <;> by_cases h2 : lbs = 0 <;> simp [h1, h2, Option.bind]

/-- Round trip for an application call transaction: the schema, program,
foreign-array and box-reference encodings all decode back to the constructed fields. -/
theorem roundtrip_appl {encB : EncodedTransaction → Bytes} {t : Transaction}
    {af : ApplicationTransactionFields} {bx : List EncodedBoxRef}
    (c1 : t.group = []) (c2 : t.sender.length = 32) (c3 : t.genesisID ≠ some "")
    (c4 : t.genesisHash ≠ []) (c5 : t.fee ≤ MAX_UINT64) (c6 : t.firstValid ≤ MAX_UINT64)
    (c7 : t.lastValid ≤ MAX_UINT64)
    (c8 : optionalFixedLengthByteArray t.lease 32 "lease" = .ok t.lease)
    (c9 : optionalAddress t.rekeyTo = .ok t.rekeyTo)
    (ht : t.type = .appl) (h1 : t.payment = none) (h2 : t.keyreg = none)
    (h3 : t.assetConfig = none) (h4 : t.assetTransfer = none)
    (h5 : t.assetFreeze = none) (ha : t.applicationCall = some af)
    (h7 : t.stateProof = none)
    (htr : translateBoxReferences af.boxes af.appForeignApps af.appId = .ok bx)
    (g1 : af.appId ≤ MAX_UINT64) (g2 : af.appOnComplete ≤ MAX_SAFE_INTEGER)
    (g3 : af.appLocalInts ≤ MAX_SAFE_INTEGER)
    (g4 : af.appLocalByteSlices ≤ MAX_SAFE_INTEGER)
    (g5 : af.appGlobalInts ≤ MAX_SAFE_INTEGER)
    (g6 : af.appGlobalByteSlices ≤ MAX_SAFE_INTEGER)
    (g7 : af.extraPages ≤ MAX_SAFE_INTEGER)
    (g8 : ∀ x ∈ af.appForeignApps, x ≤ MAX_UINT64)
    (g9 : ∀ x ∈ af.appForeignAssets, x ≤ MAX_UINT64)
    (g10 : ∀ b ∈ af.boxes, b.appIndex ≤ MAX_UINT64)
    (g11 : af.appForeignApps.length ≤ MAX_SAFE_INTEGER)
    (g12 : ∀ b ∈ af.boxes, b.appIndex = 0 ∨ b.appIndex ∈ af.appForeignApps) :
    ∃ e, t.get_obj_for_encoding = .ok e ∧
      Transaction.from_obj_for_encoding encB e = .ok t := by
  refine ⟨_, get_obj_appl h1 h2 h3 h4 h5 ha htr, ?_⟩
  have hdec := boxes_decode htr g11 g12
  have hreb := boxes_rebuild g10
  obtain ⟨ty, sd, nt, ls, rk, gp, fe, fv, lv, gi, gh, pay, kr, ac, ax, afz, ap, sp⟩ := t
  dsimp only at c1 c2 c3 c4 c5 c6 c7 c8 c9 ht h1 h2 h3 h4 h5 ha h7
  subst c1 ht h1 h2 h3 h4 h5 ha h7
  unfold Transaction.from_obj_for_encoding
  by_cases hbx : af.boxes = []
  · simp only [commonEnc, hbx, bind, Except.bind, pure, Except.pure, if_true, ite_self,
      reduceIte]
    simp only [Transaction.construct, bind, Except.bind, pure, Except.pure, ite_isSome,
      getD_ite_zero, getD_ite_nil, getD_ite_str, snd_roundtrip c2, genID_norm c3, c8, c9,
      ensureUint64_le c5, ensureUint64_le c6, ensureUint64_le c7, fieldsPresent,
      optionMapExcept, buildAppCall, ensureUint64_le g1, ensureSafe_le g2,
      ensureSafe_le g3, ensureSafe_le g4, ensureSafe_le g5, ensureSafe_le g6,
      ensureSafe_le g7, schema_bind_nui, schema_bind_nbs,
      mapM_ensureUint64_of_le g8, mapM_ensureUint64_of_le g9,
      Except.map, c4, if_false, ite_self]
    simp [hbx, List.mapM.loop, pure, Except.pure]
    rw [← hbx]
  · simp only [List.mapM, bind, Except.bind, pure, Except.pure] at hreb
    simp only [commonEnc, hbx, bind, Except.bind, pure, Except.pure, if_false, ite_self,
      reduceIte, hdec]
    simp only [Transaction.construct, bind, Except.bind, pure, Except.pure, ite_isSome,
      getD_ite_zero, getD_ite_nil, getD_ite_str, snd_roundtrip c2, genID_norm c3, c8, c9,
      ensureUint64_le c5, ensureUint64_le c6, ensureUint64_le c7, fieldsPresent,
      optionMapExcept, buildAppCall, ensureUint64_le g1, ensureSafe_le g2,
      ensureSafe_le g3, ensureSafe_le g4, ensureSafe_le g5, ensureSafe_le g6,
      ensureSafe_le g7, schema_bind_nui, schema_bind_nbs,
      mapM_ensureUint64_of_le g8, mapM_ensureUint64_of_le g9, Option.getD_some,
      hreb, Except.map, c4, if_false, ite_self]
    simp [hreb]

/-- Inversion of a successful payment build: the receiver is stored
verbatim, the amount is in range, and the close-to address revalidates. -/
theorem buildPayment_inv {pp : PaymentTransactionParams} {pf : PaymentTransactionFields}
    (h : buildPayment pp = .ok pf) :
    pf.receiver = pp.receiver ∧ pf.amount ≤ MAX_UINT64 ∧
    optionalAddress pf.closeRemainderTo = .ok pf.closeRemainderTo := by
  unfold buildPayment at h
  simp only [bind, Except.bind, pure, Except.pure] at h
  repeat' split at h
  all_goals try cases h
  rename_i xa va hva xc vc hvc
  exact ⟨rfl, ((ensureUint64_ok.mp hva).2 ▸ (ensureUint64_ok.mp hva).1 : va ≤ MAX_UINT64),
    optionalAddress_idem hvc⟩

/-- Inversion of a successful asset-config build: the numeric fields
are in range and the optional addresses and metadata hash revalidate. -/
theorem buildAssetConfig_inv {acp : AssetConfigurationTransactionParams}
    {cf : AssetConfigTransactionFields} (h : buildAssetConfig acp = .ok cf) :
    cf.assetId ≤ MAX_UINT64 ∧ cf.assetTotal ≤ MAX_UINT64 ∧
    cf.assetDecimals ≤ MAX_SAFE_INTEGER ∧
    optionalAddress cf.assetManager = .ok cf.assetManager ∧
    optionalAddress cf.assetReserve = .ok cf.assetReserve ∧
    optionalAddress cf.assetFreeze = .ok cf.assetFreeze ∧
    optionalAddress cf.assetClawback = .ok cf.assetClawback ∧
    optionalFixedLengthByteArray cf.assetMetadataHash 32 "assetMetadataHash"
      = .ok cf.assetMetadataHash := by
  unfold buildAssetConfig at h
  simp only [bind, Except.bind, pure, Except.pure] at h
  repeat' split at h
  all_goals try cases h
  rename_i xi vi hvi xt vt hvt xd vd hvd xm vm hvm xr vr hvr xf vf hvf xc vc hvc xh vh hvh
  refine ⟨?_, ?_, ?_, optionalAddress_idem hvm, optionalAddress_idem hvr,
    optionalAddress_idem hvf, optionalAddress_idem hvc, oflba_idem hvh⟩
  · obtain ⟨hle, rfl⟩ := ensureUint64_ok.mp hvi
    exact hle
  · obtain ⟨hle, rfl⟩ := ensureUint64_ok.mp hvt
    exact hle
  · unfold ensureSafeUnsignedInteger at hvd
    split at hvd
    · cases hvd
      assumption
    · cases hvd

/-- Inversion of a successful asset-transfer build. -/
theorem buildAssetTransfer_inv {atp : AssetTransferTransactionParams}
    {xf : AssetTransferTransactionFields} (h : buildAssetTransfer atp = .ok xf) :
    xf.assetId ≤ MAX_UINT64 ∧ xf.amount ≤ MAX_UINT64 ∧ xf.receiver = atp.receiver ∧
    optionalAddress xf.sender = .ok xf.sender ∧
    optionalAddress xf.closeRemainderTo = .ok xf.closeRemainderTo := by
  unfold buildAssetTransfer at h
  simp only [bind, Except.bind, pure, Except.pure] at h
  repeat' split at h
  all_goals try cases h
  rename_i xi vi hvi xa va hva xs vs hvs xc vc hvc
  refine ⟨?_, ?_, rfl, optionalAddress_idem hvs, optionalAddress_idem hvc⟩
  · obtain ⟨hle, rfl⟩ := ensureUint64_ok.mp hvi
    exact hle
  · obtain ⟨hle, rfl⟩ := ensureUint64_ok.mp hva
    exact hle

/-- Inversion of a successful asset-freeze build. -/
theorem buildAssetFreeze_inv {afp : AssetFreezeTransactionParams}
    {ff : AssetFreezeTransactionFields} (h : buildAssetFreeze afp = .ok ff) :
    ff.assetId ≤ MAX_UINT64 ∧ ff.freezeAccount = afp.freezeTarget := by
  unfold buildAssetFreeze at h
  simp only [bind, Except.bind, pure, Except.pure] at h
  repeat' split at h
  all_goals try cases h
  rename_i xi vi hvi
  obtain ⟨hle, rfl⟩ := ensureUint64_ok.mp hvi
  exact ⟨hle, rfl⟩

/-- Inversion of a successful state-proof build. -/
theorem buildStateProof_inv {spp : StateProofTransactionParams}
    {sf : StateProofTransactionFields} (h : buildStateProof spp = .ok sf) :
    sf.stateProofType ≤ MAX_SAFE_INTEGER := by
  unfold buildStateProof at h
  simp only [bind, Except.bind, pure, Except.pure] at h
  repeat' split at h
  all_goals try cases h
  rename_i xs vs hvs
  unfold ensureSafeUnsignedInteger at hvs
  split at hvs
  · cases hvs
    assumption
  · cases hvs

/-- Characterization of a successful safe-integer bounds check. -/
theorem ensureSafe_ok {n m : Nat} :
    ensureSafeUnsignedInteger n = .ok m ↔ n ≤ MAX_SAFE_INTEGER ∧ m = n := by
  unfold ensureSafeUnsignedInteger
  split
  · constructor
    · intro h
      cases h
      exact ⟨by assumption, rfl⟩
    · intro ⟨h1, h2⟩
      rw [h2]
  · constructor
    · intro h
      cases h
    · intro ⟨h1, h2⟩
      exact absurd h1 (by assumption)

/-- A successful box-parameter rebuild is the pointwise coercion with every
app index in range. -/
theorem mapM_box_ok {l : List BoxReferenceParam} {boxes : List TransactionBoxReference}
    (h : l.mapM (fun b => do
      let appIndex ← ensureUint64 b.appIndex
      return ({ appIndex, name := b.name } : TransactionBoxReference)) = .ok boxes) :
    boxes = l.map (fun b => ({ appIndex := b.appIndex, name := b.name } :
      TransactionBoxReference)) ∧ ∀ b ∈ boxes, b.appIndex ≤ MAX_UINT64 := by
  induction l generalizing boxes with
  | nil =>
    rw [List.mapM_nil] at h
    cases h
    exact ⟨rfl, by simp⟩
  | cons x xs ih =>
    rw [List.mapM_cons] at h
    simp only [bind, Except.bind, pure, Except.pure] at h
    split at h
    · cases h
    · rename_i v hv
      split at h
      · cases h
      · rename_i vs hvs
        cases h
        split at hv
        · cases hv
        · rename_i w hw
          cases hv
          obtain ⟨hle, rfl⟩ := ensureUint64_ok.mp hw
          obtain ⟨rfl, hall⟩ := ih hvs
          refine ⟨rfl, fun b hb => ?_⟩
          cases hb with
          | head => exact hle
          | tail _ hm => exact hall b hm

/-- Inversion of a successful application-call build: all numeric fields
are bounded, the foreign arrays and boxes are stored as given, and the on-complete value
is stored without validation. -/
theorem buildAppCall_inv {acp : ApplicationCallTransactionParams}
    {af : ApplicationTransactionFields} (h : buildAppCall acp = .ok af) :
    af.appId ≤ MAX_UINT64 ∧ af.appOnComplete = acp.onComplete ∧
    af.appLocalInts ≤ MAX_SAFE_INTEGER ∧ af.appLocalByteSlices ≤ MAX_SAFE_INTEGER ∧
    af.appGlobalInts ≤ MAX_SAFE_INTEGER ∧ af.appGlobalByteSlices ≤ MAX_SAFE_INTEGER ∧
    af.extraPages ≤ MAX_SAFE_INTEGER ∧
    af.appForeignApps = acp.foreignApps.getD [] ∧
    (∀ x ∈ af.appForeignApps, x ≤ MAX_UINT64) ∧
    (∀ x ∈ af.appForeignAssets, x ≤ MAX_UINT64) ∧
    (∀ b ∈ af.boxes, b.appIndex ≤ MAX_UINT64) ∧
    af.boxes = (acp.boxes.getD []).map (fun b =>
      ({ appIndex := b.appIndex, name := b.name } : TransactionBoxReference)) := by
  unfold buildAppCall at h
  simp only [bind, Except.bind, pure, Except.pure] at h
  repeat' split at h
  all_goals try cases h
  rename_i x1 v1 h1 x2 v2 h2 x3 v3 h3 x4 v4 h4 x5 v5 h5 x6 v6 h6 x7 v7 h7 x8 v8 h8
    x9 v9 h9
  obtain ⟨hle1, rfl⟩ := ensureUint64_ok.mp h1
  obtain ⟨hle2, rfl⟩ := ensureSafe_ok.mp h2
  obtain ⟨hle3, rfl⟩ := ensureSafe_ok.mp h3
  obtain ⟨hle4, rfl⟩ := ensureSafe_ok.mp h4
  obtain ⟨hle5, rfl⟩ := ensureSafe_ok.mp h5
  obtain ⟨hle6, rfl⟩ := ensureSafe_ok.mp h6
  obtain ⟨rfl, hfa⟩ := mapM_ensureUint64_ok h7
  obtain ⟨rfl, hfs⟩ := mapM_ensureUint64_ok h8
  obtain ⟨rfl, hbxb⟩ := mapM_box_ok h9
  exact ⟨hle1, rfl, hle2, hle3, hle4, hle5, hle6, rfl, hfa, hfs, hbxb, rfl⟩

/-- The normalized genesis id is never the present empty string. -/
theorem genID_ne {o : Option String} :
    (match o with
     | some s => if s = "" then none else some s
     | none => (none : Option String)) ≠ some "" := by
  cases o with
  | none => simp
  | some s => by_cases h : s = "" <;> simp [h]

/-- A value surviving ensureUint64 is within the uint64 bound. -/
theorem ensureUint64_ok_le {n m : Nat} (h : ensureUint64 n = .ok m) : m ≤ MAX_UINT64 := by
  obtain ⟨hle, rfl⟩ := ensureUint64_ok.mp h
  exact hle

/-- Inversion of a successful construction: the common fields are
normalized and revalidate, exactly one variant parameter record was present and it
matches the declared type. -/
theorem construct_inv {encB : EncodedTransaction → Bytes} {p : TransactionParams}
    {t : Transaction} (h : Transaction.construct encB p = .ok t) :
    t.group = [] ∧ t.sender = p.sender ∧
    optionalFixedLengthByteArray t.lease 32 "lease" = .ok t.lease ∧
    optionalAddress t.rekeyTo = .ok t.rekeyTo ∧
    t.genesisID ≠ some "" ∧ t.genesisHash ≠ [] ∧
    t.firstValid ≤ MAX_UINT64 ∧ t.lastValid ≤ MAX_UINT64 ∧
    t.type = p.type ∧
    optionMapExcept buildPayment p.paymentParams = .ok t.payment ∧
    optionMapExcept buildKeyreg p.keyregParams = .ok t.keyreg ∧
    optionMapExcept buildAssetConfig p.assetConfigParams = .ok t.assetConfig ∧
    optionMapExcept buildAssetTransfer p.assetTransferParams = .ok t.assetTransfer ∧
    optionMapExcept buildAssetFreeze p.assetFreezeParams = .ok t.assetFreeze ∧
    optionMapExcept buildAppCall p.appCallParams = .ok t.applicationCall ∧
    optionMapExcept buildStateProof p.stateProofParams = .ok t.stateProof ∧
    (fieldsPresent p).length = 1 ∧ (fieldsPresent p).head? = some p.type := by
  unfold Transaction.construct at h
  simp only [bind, Except.bind, pure, Except.pure] at h
  repeat' split at h
  all_goals try cases h
  all_goals exact ⟨rfl, rfl, oflba_idem (by assumption),
    optionalAddress_idem (by assumption),
    by intro hgid; cases hgid <;> exact absurd rfl (by assumption), by assumption,
    ensureUint64_ok_le (by assumption), ensureUint64_ok_le (by assumption), rfl,
    by assumption, by assumption, by assumption, by assumption, by assumption,
    by assumption, by assumption, not_ne_iff.mp (by assumption),
    not_ne_iff.mp (by assumption)⟩

/-- A list of length one is the singleton of its head. -/
theorem length_one_head {α : Type} {l : List α} {a : α} (h1 : l.length = 1)
    (h2 : l.head? = some a) : l = [a] := by
  cases l with
  | nil => cases h2
  | cons x xs =>
    cases h2
    simp only [List.length_cons, Nat.add_left_eq_self, List.length_eq_zero] at h1
    rw [h1]

/-- When exactly the type fields of a single variant are present, each
parameter record is present exactly for that variant. -/
theorem params_of_single {p : TransactionParams} {ty : TransactionType}
    (h : fieldsPresent p = [ty]) :
    (p.paymentParams.isSome = true ↔ ty = .pay) ∧
    (p.keyregParams.isSome = true ↔ ty = .keyreg) ∧
    (p.assetConfigParams.isSome = true ↔ ty = .acfg) ∧
    (p.assetTransferParams.isSome = true ↔ ty = .axfer) ∧
    (p.assetFreezeParams.isSome = true ↔ ty = .afrz) ∧
    (p.appCallParams.isSome = true ↔ ty = .appl) ∧
    (p.stateProofParams.isSome = true ↔ ty = .stpf) := by
  unfold fieldsPresent at h
  cases h1 : p.paymentParams <;> cases h2 : p.keyregParams <;>
    cases h3 : p.assetConfigParams <;> cases h4 : p.assetTransferParams <;>
    cases h5 : p.assetFreezeParams <;> cases h6 : p.appCallParams <;>
    cases h7 : p.stateProofParams <;>
    simp_all <;> (cases h; simp)

/-- An absent parameter record builds to an absent payload. -/
theorem optionMapExcept_none_val {α β : Type} {f : α → Except String β} {y : Option β}
    (h : optionMapExcept f none = .ok y) : y = none := by
  unfold optionMapExcept at h
  cases h
  rfl

/-- A present parameter record builds to a present payload of
the successful inner build. -/
theorem optionMapExcept_some_val {α β : Type} {f : α → Except String β} {a : α}
    {y : Option β} (h : optionMapExcept f (some a) = .ok y) :
    ∃ b, f a = .ok b ∧ y = some b := by
  simp only [optionMapExcept, exceptMap_ok] at h
  obtain ⟨b, hb, hy⟩ := h
  exact ⟨b, hb, hy⟩

/-- A parameter record whose presence test fails is absent. -/
theorem param_none {α : Type} {o : Option α} {c : Prop} (q : o.isSome = true ↔ c)
    (hnc : ¬c) : o = none := by
  cases hx : o with
  | none => rfl
  | some v => exact absurd (q.mp (by rw [hx]; rfl)) hnc

/-- C5 (amended): for every parameter record accepted by the constructor
whose addresses decode to 32 bytes, whose keyreg vote fields are never
present-and-zero, whose application on-complete value is a safe integer, whose foreign
apps array has safe length with every box index zero or pointing into it, and whose
resulting fee fits in a uint64, decoding the canonical encoding of the constructed
transaction yields the constructed transaction exactly. -/
theorem C5_round_trip (encB : EncodedTransaction → Bytes) (p : TransactionParams)
    (t : Transaction) (hc : Transaction.construct encB p = .ok t)
    (hsender : p.sender.length = 32)
    (hfee : t.fee ≤ MAX_UINT64)
    (hpay : ∀ pp, p.paymentParams = some pp → pp.receiver.length = 32)
    (hkr : ∀ kp, p.keyregParams = some kp → kp.voteFirst ≠ some 0 ∧
      kp.voteLast ≠ some 0 ∧ kp.voteKeyDilution ≠ some 0)
    (hax : ∀ ap, p.assetTransferParams = some ap → ap.receiver.length = 32)
    (hfr : ∀ fp, p.assetFreezeParams = some fp → fp.freezeTarget.length = 32)
    (hap : ∀ ac, p.appCallParams = some ac → ac.onComplete ≤ MAX_SAFE_INTEGER ∧
      (ac.foreignApps.getD []).length ≤ MAX_SAFE_INTEGER ∧
      ∀ b ∈ ac.boxes.getD [], b.appIndex = 0 ∨ b.appIndex ∈ ac.foreignApps.getD []) :
    ∃ e, t.get_obj_for_encoding = .ok e ∧
      Transaction.from_obj_for_encoding encB e = .ok t := by
  obtain ⟨c1, c2s, c8, c9, c3, c4, c6, c7, hty, mp1, mp2, mp3, mp4, mp5, mp6, mp7,
    hlen1, hhead⟩ := construct_inv hc
  have hsingle : fieldsPresent p = [p.type] := length_one_head hlen1 hhead
  obtain ⟨q1, q2, q3, q4, q5, q6, q7⟩ := params_of_single hsingle
  have c2 : t.sender.length = 32 := by rw [c2s]; exact hsender
  cases hty2 : p.type with
  | pay =>
    rw [hty2] at q1 q2 q3 q4 q5 q6 q7
    obtain ⟨pp, hpp⟩ := Option.isSome_iff_exists.mp (q1.mpr rfl)
    rw [param_none q2 (by simp)] at mp2
    rw [param_none q3 (by simp)] at mp3
    rw [param_none q4 (by simp)] at mp4
    rw [param_none q5 (by simp)] at mp5
    rw [param_none q6 (by simp)] at mp6
    rw [param_none q7 (by simp)] at mp7
    have n2 := optionMapExcept_none_val mp2
    have n3 := optionMapExcept_none_val mp3
    have n4 := optionMapExcept_none_val mp4
    have n5 := optionMapExcept_none_val mp5
    have n6 := optionMapExcept_none_val mp6
    have n7 := optionMapExcept_none_val mp7
    rw [hpp] at mp1
    obtain ⟨pf, hbuild, hsomef⟩ := optionMapExcept_some_val mp1
    obtain ⟨br, ba, bc⟩ := buildPayment_inv hbuild
    exact roundtrip_pay c1 c2 c3 c4 hfee c6 c7 c8 c9 (hty.trans hty2) hsomef n2 n3
      n4 n5 n6 n7 ba (br ▸ hpay pp hpp) bc
  | keyreg =>
    rw [hty2] at q1 q2 q3 q4 q5 q6 q7
    obtain ⟨kp, hkp⟩ := Option.isSome_iff_exists.mp (q2.mpr rfl)
    rw [param_none q1 (by simp)] at mp1
    rw [param_none q3 (by simp)] at mp3
    rw [param_none q4 (by simp)] at mp4
    rw [param_none q5 (by simp)] at mp5
    rw [param_none q6 (by simp)] at mp6
    rw [param_none q7 (by simp)] at mp7
    have n1 := optionMapExcept_none_val mp1
    have n3 := optionMapExcept_none_val mp3
    have n4 := optionMapExcept_none_val mp4
    have n5 := optionMapExcept_none_val mp5
    have n6 := optionMapExcept_none_val mp6
    have n7 := optionMapExcept_none_val mp7
    rw [hkp] at mp2
    obtain ⟨kf, hbuild, hsome⟩ := optionMapExcept_some_val mp2
    obtain ⟨i1, i2, i3, i4, i5, i6, e1, e2, e3, chk1, chk2⟩ := buildKeyreg_inv hbuild
    obtain ⟨k1, k2, k3⟩ := hkr kp hkp
    exact roundtrip_keyreg c1 c2 c3 c4 hfee c6 c7 c8 c9 (hty.trans hty2) n1 hsome n3 n4
      n5 n6 n7 i1 i2 i3 i4 i5 i6 chk1 chk2 (by rw [e1]; exact k1) (by rw [e2]; exact k2)
      (by rw [e3]; exact k3)
  | acfg =>
    rw [hty2] at q1 q2 q3 q4 q5 q6 q7
    obtain ⟨acp, hacp⟩ := Option.isSome_iff_exists.mp (q3.mpr rfl)
    rw [param_none q1 (by simp)] at mp1
    rw [param_none q2 (by simp)] at mp2
    rw [param_none q4 (by simp)] at mp4
    rw [param_none q5 (by simp)] at mp5
    rw [param_none q6 (by simp)] at mp6
    rw [param_none q7 (by simp)] at mp7
    have n1 := optionMapExcept_none_val mp1
    have n2 := optionMapExcept_none_val mp2
    have n4 := optionMapExcept_none_val mp4
    have n5 := optionMapExcept_none_val mp5
    have n6 := optionMapExcept_none_val mp6
    have n7 := optionMapExcept_none_val mp7
    rw [hacp] at mp3
    obtain ⟨cf, hbuild, hsome⟩ := optionMapExcept_some_val mp3
    obtain ⟨a1, a2, a3, a4, a5, a6, a7, a8⟩ := buildAssetConfig_inv hbuild
    exact roundtrip_acfg c1 c2 c3 c4 hfee c6 c7 c8 c9 (hty.trans hty2) n1 n2 hsome n4
      n5 n6 n7 a1 a2 a3 a4 a5 a6 a7 a8
  | axfer =>
    rw [hty2] at q1 q2 q3 q4 q5 q6 q7
    obtain ⟨atp, hatp⟩ := Option.isSome_iff_exists.mp (q4.mpr rfl)
    rw [param_none q1 (by simp)] at mp1
    rw [param_none q2 (by simp)] at mp2
    rw [param_none q3 (by simp)] at mp3
    rw [param_none q5 (by simp)] at mp5
    rw [param_none q6 (by simp)] at mp6
    rw [param_none q7 (by simp)] at mp7
    have n1 := optionMapExcept_none_val mp1
    have n2 := optionMapExcept_none_val mp2
    have n3 := optionMapExcept_none_val mp3
    have n5 := optionMapExcept_none_val mp5
    have n6 := optionMapExcept_none_val mp6
    have n7 := optionMapExcept_none_val mp7
    rw [hatp] at mp4
    obtain ⟨xf, hbuild, hsome⟩ := optionMapExcept_some_val mp4
    obtain ⟨x1, x2, xr, x4, x5⟩ := buildAssetTransfer_inv hbuild
    exact roundtrip_axfer c1 c2 c3 c4 hfee c6 c7 c8 c9 (hty.trans hty2) n1 n2 n3 hsome
      n5 n6 n7 x1 x2 (by rw [xr]; exact hax atp hatp) x4 x5
  | afrz =>
    rw [hty2] at q1 q2 q3 q4 q5 q6 q7
    obtain ⟨fp, hfp⟩ := Option.isSome_iff_exists.mp (q5.mpr rfl)
    rw [param_none q1 (by simp)] at mp1
    rw [param_none q2 (by simp)] at mp2
    rw [param_none q3 (by simp)] at mp3
    rw [param_none q4 (by simp)] at mp4
    rw [param_none q6 (by simp)] at mp6
    rw [param_none q7 (by simp)] at mp7
    have n1 := optionMapExcept_none_val mp1
    have n2 := optionMapExcept_none_val mp2
    have n3 := optionMapExcept_none_val mp3
    have n4 := optionMapExcept_none_val mp4
    have n6 := optionMapExcept_none_val mp6
    have n7 := optionMapExcept_none_val mp7
    rw [hfp] at mp5
    obtain ⟨ff, hbuild, hsome⟩ := optionMapExcept_some_val mp5
    obtain ⟨f1, feq⟩ := buildAssetFreeze_inv hbuild
    exact roundtrip_afrz c1 c2 c3 c4 hfee c6 c7 c8 c9 (hty.trans hty2) n1 n2 n3 n4
      hsome n6 n7 f1 (by rw [feq]; exact hfr fp hfp)
  | appl =>
    rw [hty2] at q1 q2 q3 q4 q5 q6 q7
    obtain ⟨acp, hacp⟩ := Option.isSome_iff_exists.mp (q6.mpr rfl)
    rw [param_none q1 (by simp)] at mp1
    rw [param_none q2 (by simp)] at mp2
    rw [param_none q3 (by simp)] at mp3
    rw [param_none q4 (by simp)] at mp4
    rw [param_none q5 (by simp)] at mp5
    rw [param_none q7 (by simp)] at mp7
    have n1 := optionMapExcept_none_val mp1
    have n2 := optionMapExcept_none_val mp2
    have n3 := optionMapExcept_none_val mp3
    have n4 := optionMapExcept_none_val mp4
    have n5 := optionMapExcept_none_val mp5
    have n7 := optionMapExcept_none_val mp7
    rw [hacp] at mp6
    obtain ⟨af, hbuild, hsome⟩ := optionMapExcept_some_val mp6
    obtain ⟨g1, hoc, g3, g4, g5, g6, g7, hfaeq, g8, g9, g10, hbxeq⟩ :=
      buildAppCall_inv hbuild
    obtain ⟨hoc2, hlen2, hmem2⟩ := hap acp hacp
    have g2 : af.appOnComplete ≤ MAX_SAFE_INTEGER := by rw [hoc]; exact hoc2
    have g11 : af.appForeignApps.length ≤ MAX_SAFE_INTEGER := by
      rw [hfaeq]
      exact hlen2
    have g12 : ∀ b ∈ af.boxes, b.appIndex = 0 ∨ b.appIndex ∈ af.appForeignApps := by
      intro b hb
      rw [hbxeq] at hb
      obtain ⟨b0, hb0, rfl⟩ := List.mem_map.mp hb
      rw [hfaeq]
      exact hmem2 b0 hb0
    obtain ⟨bx, htr⟩ := translate_ok g12
    exact roundtrip_appl c1 c2 c3 c4 hfee c6 c7 c8 c9 (hty.trans hty2) n1 n2 n3 n4 n5
      hsome n7 htr g1 g2 g3 g4 g5 g6 g7 g8 g9 g10 g11 g12
  | stpf =>
    rw [hty2] at q1 q2 q3 q4 q5 q6 q7
    obtain ⟨spp, hspp⟩ := Option.isSome_iff_exists.mp (q7.mpr rfl)
    rw [param_none q1 (by simp)] at mp1
    rw [param_none q2 (by simp)] at mp2
    rw [param_none q3 (by simp)] at mp3
    rw [param_none q4 (by simp)] at mp4
    rw [param_none q5 (by simp)] at mp5
    rw [param_none q6 (by simp)] at mp6
    have n1 := optionMapExcept_none_val mp1
    have n2 := optionMapExcept_none_val mp2
    have n3 := optionMapExcept_none_val mp3
    have n4 := optionMapExcept_none_val mp4
    have n5 := optionMapExcept_none_val mp5
    have n6 := optionMapExcept_none_val mp6
    rw [hspp] at mp7
    obtain ⟨sf, hbuild, hsome⟩ := optionMapExcept_some_val mp7
    exact roundtrip_stpf c1 c2 c3 c4 hfee c6 c7 c8 c9 (hty.trans hty2) n1 n2 n3 n4 n5
      n6 hsome (buildStateProof_inv hbuild)

/-- Online keyreg parameters with voteFirst present and zero. -/
def kpOnCX : KeyRegistrationTransactionParams :=
  { kpOnW with voteFirst := some 0 }

/-- A keyreg construction input accepted by the constructor whose round trip
fails. -/
def pKrCX : TransactionParams :=
  { type := .keyreg, sender := addr1, suggestedParams := spFlat,
    keyregParams := some kpOnCX }

/-- The keyreg payload built from kpOnCX. -/
def kfOnCX : KeyRegistrationTransactionFields :=
  { voteKey := some (List.replicate 32 3), selectionKey := some (List.replicate 32 4),
    stateProofKey := none, voteFirst := some 0, voteLast := some 10,
    voteKeyDilution := some 1, nonParticipation := false }

/-- The transaction constructed from pKrCX. -/
def tKrCX : Transaction :=
  { type := .keyreg, sender := addr1, note := [], group := [], fee := 1000,
    firstValid := 1, lastValid := 1001, genesisID := some "testnet-v1.0",
    genesisHash := gh1, keyreg := some kfOnCX }

/-- The canonical structure of tKrCX: votefst is elided because voteFirst is
zero. -/
def eKrCX : EncodedTransaction :=
  { type := .keyreg, gh := gh1, lv := 1001, snd := some addr1,
    gen := some "testnet-v1.0", fee := some 1000, fv := some 1,
    votekey := some (List.replicate 32 3), selkey := some (List.replicate 32 4),
    votelst := some 10, votekd := some 1 }

/-- Witness for C5 at the concrete flat-fee payment input. -/
theorem C5_round_trip_witness :
    ∃ e, tPayW.get_obj_for_encoding = .ok e ∧
      Transaction.from_obj_for_encoding encB0 e = .ok tPayW :=
  C5_round_trip encB0 pPayW tPayW (by rfl) (by decide) (by decide)
    (fun pp h => by cases h; decide)
    (fun kp h => by cases h)
    (fun ap h => by cases h)
    (fun fp h => by cases h)
    (fun ac h => by cases h)

/-- Counterexample for the unamended C5: the keyreg input
with voteFirst zero constructs successfully, but decoding its canonical encoding fails
because the zero voteFirst is elided and the online shape check then rejects the
partial participation fields. -/
theorem C5_round_trip_counterexample :
    Transaction.construct encB0 pKrCX = .ok tKrCX ∧
    tKrCX.get_obj_for_encoding = .ok eKrCX ∧
    Transaction.from_obj_for_encoding encB0 eKrCX =
      .error "Online key registration missing at least one required field" :=
  ⟨by rfl, by rfl, by rfl⟩
